import Mathlib

/-!
# LL-HLS stream controller (`projects/publishers/llhls/llhls_stream.cpp`)

A shallow embedding of `LLHlsStream` and of the part of `info::Stream` it uses
(`projects/base/info/stream.cpp`).

Conventions of the embedding

* A method that mutates the stream takes the stream and returns the new stream.
* `std::shared_ptr<T>` that the code tests against `nullptr` is `Option T`.
  Dereferencing a null pointer has no defined result: a function that can do so
  returns `Option`, and `none` stands for that.
* `std::map` is an association list kept in ascending key order, so that range
  `for` loops visit the entries in the order the code does.
* Classes whose code is declared elsewhere (`FMP4Storage`, `FMP4Packager`,
  `LLHlsChunklist`, `LLHlsMasterPlaylist`, `mdl::Dump`) are records of the
  constructor arguments, of the values their getters report, and of the calls
  the stream makes on them. Functions and constants that only the headers
  define are the fields of `Env`.
* Locks are not modelled: every method runs to completion on its own.
-/

namespace LLHls

/-! ## Common types -/

/-- Modelled from the spec: `cmn::MediaType` is declared outside the sources;
the spec gives `media_type ∈ {Video, Audio, Data}`. -/
inductive MediaType where
  | Video
  | Audio
  | Data
  deriving DecidableEq, Repr

/-- The codec ids that `info::Stream::ShowInfo` switches over. -/
inductive MediaCodecId where
  | None
  | H264
  | Vp8
  | Vp9
  | Flv
  | Aac
  | Mp3
  | Opus
  deriving DecidableEq, Repr

/-- Modelled from the spec: `cmn::BitstreamFormat` is declared outside the
sources; the stream only tells `ID3v2` from every other format. -/
inductive BitstreamFormat where
  | ID3v2
  | Other (tag : Nat)
  deriving DecidableEq, Repr

/-- Modelled from the spec: `cmn::PacketType` is declared outside the sources;
the spec gives `packet_type ∈ {Video, Audio, VideoEvent, AudioEvent}`. -/
inductive PacketType where
  | Video
  | Audio
  | VIDEO_EVENT
  | AUDIO_EVENT
  deriving DecidableEq, Repr

/-- Modelled from the spec: the state of `pub::Stream` is declared outside the
sources; the spec gives `state ∈ {Created, Started, Stopped}`. -/
inductive State where
  | CREATED
  | STARTED
  | STOPPED
  deriving DecidableEq, Repr

/-- The type `LLHlsStream::RequestResult`. -/
inductive RequestResult where
  | Success
  | Accepted
  | NotFound
  deriving DecidableEq, Repr

/-- The bytes of `ov::Data`. -/
abbrev Data := List Nat

/-! ## `std::map` -/

/-- Association list in ascending key order. -/
abbrev OrdMap (κ : Type) (α : Type) := List (κ × α)

namespace OrdMap

variable {κ α : Type}

/-- The call `map.find(k)`: `none` is `map.end()`. -/
def find [DecidableEq κ] : OrdMap κ α → κ → Option α
  | [], _ => none
  | (k', v) :: rest, k => if k' = k then some v else find rest k

/-- The call `map.emplace(k, v)`: inserts unless the key is present. -/
def emplace [DecidableEq κ] [LT κ] [DecidableRel (fun (a b : κ) => a < b)] :
    OrdMap κ α → κ → α → OrdMap κ α
  | [], k, v => [(k, v)]
  | (k', v') :: rest, k, v =>
    if k' = k then (k', v') :: rest
    else if k < k' then (k, v) :: (k', v') :: rest
    else (k', v') :: emplace rest k v

/-- The assignment `map[k] = v`: inserts or overwrites. -/
def assign [DecidableEq κ] [LT κ] [DecidableRel (fun (a b : κ) => a < b)] :
    OrdMap κ α → κ → α → OrdMap κ α
  | [], k, v => [(k, v)]
  | (k', v') :: rest, k, v =>
    if k' = k then (k', v) :: rest
    else if k < k' then (k, v) :: (k', v') :: rest
    else (k', v') :: assign rest k v

/-- Overwrites the value of a key that is present (a write through the shared
pointer the map holds); the map is unchanged when the key is absent. -/
def update [DecidableEq κ] : OrdMap κ α → κ → α → OrdMap κ α
  | [], _, _ => []
  | (k', v') :: rest, k, v =>
    if k' = k then (k', v) :: rest else (k', v') :: update rest k v

end OrdMap

/-! ## `ov::String::FormatString` -/

/-- An argument of `FormatString`. -/
inductive FormatArg where
  | int (v : Int)
  | str (s : String)

/-- Decimal rendering of a signed integer (`%d`, `%lld`). -/
def FormatDecimal (v : Int) : String :=
  if v < 0 then "-" ++ Nat.repr v.natAbs else Nat.repr v.natAbs

/-- Modelled from the spec: `ov::String::FormatString` is declared outside the
sources. The directives the stream uses are `%d`, `%lld` (decimal integer) and
`%s` (string), substituted left to right as in `printf`; every other character
is copied. -/
def FormatChars : List Char → List FormatArg → List Char
  | [], _ => []
  | '%' :: 'd' :: rest, FormatArg.int v :: args =>
    (FormatDecimal v).data ++ FormatChars rest args
  | '%' :: 'l' :: 'l' :: 'd' :: rest, FormatArg.int v :: args =>
    (FormatDecimal v).data ++ FormatChars rest args
  | '%' :: 's' :: rest, FormatArg.str t :: args =>
    t.data ++ FormatChars rest args
  | c :: rest, args => c :: FormatChars rest args

/-- The call `ov::String::FormatString(format, args...)`. -/
def FormatString (format : String) (args : List FormatArg) : String :=
  String.mk (FormatChars format.data args)

/-! ## Records of the collaborating classes -/

/-- The part of `MediaTrack` that the stream reads. -/
structure MediaTrack where
  id : Int
  name : String
  media_type : MediaType
  codec_id : MediaCodecId
  timescale : ℚ
  deriving DecidableEq

/-- The part of `MediaPacket` that the stream reads. -/
structure MediaPacket where
  track_id : Int
  media_type : MediaType
  packet_type : PacketType
  bitstream_format : BitstreamFormat
  payload : Data
  deriving DecidableEq

/-- Modelled from the spec: `ov::Queue` is declared outside the sources; the
spec calls the pre-roll buffer a queue whose oldest packet is dropped first. The
head of the list is the oldest element. -/
abbrev Queue (α : Type) := List α

namespace Queue

variable {α : Type}

/-- The call `queue.Size()`. -/
def Size (q : Queue α) : Nat := q.length

/-- The call `queue.IsEmpty()`. -/
def IsEmpty (q : Queue α) : Bool := q.isEmpty

/-- The call `queue.Enqueue(item)`. -/
def Enqueue (q : Queue α) (item : α) : Queue α := q ++ [item]

/-- The call `queue.Dequeue(...)`: the oldest element and the rest, or nothing
when the queue is empty. -/
def Dequeue : Queue α → Option α × Queue α
  | [] => (none, [])
  | item :: rest => (some item, rest)

end Queue

/-- A chunk of `bmff::FMP4Storage` as the stream reads it. -/
structure MediaChunk where
  number : Int
  start_timestamp : Int
  duration : Nat
  size : Nat
  independent : Bool
  data : Data
  deriving DecidableEq

/-- A segment of `bmff::FMP4Storage` as the stream reads it. -/
structure MediaSegment where
  number : Int
  start_timestamp : Int
  duration : Nat
  size : Nat
  data : Data
  deriving DecidableEq

/-- What the getters of a `bmff::FMP4Storage` report at one moment. The class
is declared outside the sources, so each getter is a field of its own. -/
structure FMP4Storage where
  initialization_section : Data
  last_segment_number : Int
  last_chunk_number : Int × Int
  max_chunk_duration_ms : Nat
  min_chunk_duration_ms : Nat
  GetMediaSegment : Int → Option MediaSegment
  GetMediaChunk : Int → Int → Option MediaChunk

/-- A call the stream makes on a `bmff::FMP4Packager`. -/
inductive PackagerCall where
  | AppendSample (media_packet : MediaPacket)
  | ReserveDataPacket (media_packet : MediaPacket)
  deriving DecidableEq

/-- A `bmff::FMP4Packager`: the track it was built for and the calls it has
received, oldest first. -/
structure FMP4Packager where
  track_id : Int
  calls : List PackagerCall
  deriving DecidableEq

/-- The type `LLHlsChunklist::SegmentInfo`, with its constructor arguments. -/
structure SegmentInfo where
  sequence : Int
  start_time : ℚ
  duration : ℚ
  size : Nat
  url : String
  next_url : String
  is_independent : Bool
  deriving DecidableEq

/-- A call the stream makes on an `LLHlsChunklist`. -/
inductive ChunklistCall where
  | SetPartHoldBack (part_hold_back : ℚ)
  | SaveOldSegmentInfo (enable : Bool)
  | AppendSegmentInfo (info : SegmentInfo)
  | AppendPartialSegmentInfo (segment_sequence : Int) (info : SegmentInfo)
  deriving DecidableEq

/-- An `LLHlsChunklist`: its constructor arguments, the calls it has received
(oldest first) and what `GetLastSequenceNumber` reports (`none` when it returns
false). -/
structure LLHlsChunklist where
  url : String
  track : MediaTrack
  max_segments : Nat
  target_duration : ℚ
  part_target : ℚ
  map_uri : String
  calls : List ChunklistCall
  last_sequence_number : Option (Int × Int)
  deriving DecidableEq

namespace LLHlsChunklist

/-- Records a call on the chunklist. -/
def call (chunklist : LLHlsChunklist) (c : ChunklistCall) : LLHlsChunklist :=
  { chunklist with calls := chunklist.calls ++ [c] }

/-- The call `chunklist->SetPartHoldBack(part_hold_back)`. -/
def SetPartHoldBack (chunklist : LLHlsChunklist) (part_hold_back : ℚ) : LLHlsChunklist :=
  chunklist.call (ChunklistCall.SetPartHoldBack part_hold_back)

/-- The call `chunklist->SaveOldSegmentInfo(enable)`. -/
def SaveOldSegmentInfo (chunklist : LLHlsChunklist) (enable : Bool) : LLHlsChunklist :=
  chunklist.call (ChunklistCall.SaveOldSegmentInfo enable)

/-- The call `chunklist->AppendSegmentInfo(info)`. -/
def AppendSegmentInfo (chunklist : LLHlsChunklist) (info : SegmentInfo) : LLHlsChunklist :=
  chunklist.call (ChunklistCall.AppendSegmentInfo info)

/-- The call `chunklist->AppendPartialSegmentInfo(segment_sequence, info)`. -/
def AppendPartialSegmentInfo (chunklist : LLHlsChunklist) (segment_sequence : Int)
    (info : SegmentInfo) : LLHlsChunklist :=
  chunklist.call (ChunklistCall.AppendPartialSegmentInfo segment_sequence info)

end LLHlsChunklist

namespace FMP4Packager

/-- The call `packager->AppendSample(media_packet)`. -/
def AppendSample (packager : FMP4Packager) (media_packet : MediaPacket) : FMP4Packager :=
  { packager with calls := packager.calls ++ [PackagerCall.AppendSample media_packet] }

/-- The call `packager->ReserveDataPacket(media_packet)`. -/
def ReserveDataPacket (packager : FMP4Packager) (media_packet : MediaPacket) : FMP4Packager :=
  { packager with calls := packager.calls ++ [PackagerCall.ReserveDataPacket media_packet] }

end FMP4Packager

/-- An `LLHlsMasterPlaylist`: the chunk path and the entries added to it, in
the order of the calls. -/
structure LLHlsMasterPlaylist where
  chunk_path : String
  media_candidates : List (String × MediaTrack × String)
  stream_infs : List (Option MediaTrack × String × Option MediaTrack × String)
  deriving DecidableEq

/-- The type `info::Rendition`. -/
structure Rendition where
  name : String
  video_track_name : String
  audio_track_name : String
  deriving DecidableEq

/-- The type `info::Playlist`. -/
structure Playlist where
  name : String
  file_name : String
  hls_chunklist_path_depth : Int
  renditions : List Rendition
  deriving DecidableEq

/-- Modelled from the spec: `info::Dump` is declared outside the sources. A
dump is declared by `(id, output_path, playlists[], enabled)` with an optional
info-file URL. `DumpDataResult` stands for the file system under the output
path: whether storing a file succeeds, given the files stored before. -/
structure DumpInfo where
  id : String
  info_file_url : String
  output_path : String
  playlists : List String
  enabled : Bool
  DumpDataResult : List (String × Data) → String → Data → Bool

/-- Modelled from the spec: `mdl::Dump` is declared outside the sources. A dump
is `(id, output_path, playlists[], enabled, first_segment_number[track_id])`
with an optional info-file URL. `written` is the log of the files `DumpData`
has stored, oldest first. -/
structure Dump where
  id : String
  info_file_url : String
  output_path : String
  playlists : List String
  enabled : Bool
  first_segment_number : OrdMap Int Int
  written : List (String × Data)
  DumpDataResult : List (String × Data) → String → Data → Bool

namespace Dump

/-- The constructor `mdl::Dump(info)`. -/
def ofInfo (info : DumpInfo) : Dump :=
  { id := info.id, info_file_url := info.info_file_url, output_path := info.output_path,
    playlists := info.playlists, enabled := info.enabled, first_segment_number := [],
    written := [], DumpDataResult := info.DumpDataResult }

/-- The call `item->SetEnabled(enabled)`. -/
def SetEnabled (item : Dump) (enabled : Bool) : Dump :=
  { item with enabled := enabled }

/-- The call `item->DumpData(file_name, data)`. -/
def DumpData (item : Dump) (file_name : String) (data : Data) : Bool × Dump :=
  if item.DumpDataResult item.written file_name data then
    (true, { item with written := item.written ++ [(file_name, data)] })
  else
    (false, item)

/-- The call `item->HasExtraData(track_id)`. -/
def HasExtraData (item : Dump) (track_id : Int) : Bool :=
  (item.first_segment_number.find track_id).isSome

/-- The call `item->SetExtraData(track_id, segment_number)`. -/
def SetExtraData (item : Dump) (track_id : Int) (segment_number : Int) : Dump :=
  { item with first_segment_number := item.first_segment_number.assign track_id segment_number }

/-- The call `item->GetFirstSegmentNumber(track_id)`. -/
def GetFirstSegmentNumber (item : Dump) (track_id : Int) : Option Int :=
  item.first_segment_number.find track_id

end Dump

/-- Modelled from the spec: the dump declaration of the configuration
(`cfg::...::Dump`) is declared outside the sources. `Start` reads its id, its
enabled flag, its output path and its playlists, and matches the name of the
stream against its target-stream-name expression. `DumpDataResult` stands for
the file system under the output path, as in `DumpInfo`. -/
structure DumpConfig where
  id : String
  enabled : Bool
  TargetStreamNameMatches : String → Bool
  output_path : String
  playlists : List String
  DumpDataResult : List (String × Data) → String → Data → Bool

/-- Modelled from the spec: the configuration of the LL-HLS publisher is
declared outside the sources; the values that `Start` reads from it. -/
structure LLHlsPublisherConfig where
  chunk_duration : ℚ
  segment_duration : Nat
  segment_count : Nat
  part_hold_back : ℚ
  dumps : List DumpConfig

/-- Modelled from the spec: `pub::Application` is declared outside the
sources; what `Start` reads from `GetApplication()`. -/
structure Application where
  vhost_name : String
  config : LLHlsPublisherConfig

/-- The event `PlaylistUpdatedEvent(track_id, msn, part)`. -/
structure PlaylistUpdatedEvent where
  track_id : Int
  msn : Int
  part : Int
  deriving DecidableEq

/-- Constants and functions that the sources use and only the headers define. -/
structure Env where
  /-- The macro of `llhls_stream.h`. -/
  MAX_INITIAL_MEDIA_PACKET_BUFFER_SIZE : Nat
  /-- The function `StringFromMediaType`. -/
  StringFromMediaType : MediaType → String
  /-- The method `ov::String::LowerCaseString`. -/
  LowerCaseString : String → String
  /-- The expression `name.Substring(0, name.IndexOfRev('.'))`. -/
  SubstringToLastDot : String → String
  /-- The method `ov::String::ToData(false)`. -/
  ToData : String → Data
  /-- The method `LLHlsChunklist::ToString`; the last argument holds the two
  trailing parameters when the call passes them. -/
  ChunklistToString : LLHlsChunklist → String → OrdMap Int LLHlsChunklist →
    Bool → Bool → Option (Bool × Option Int) → String
  /-- The method `LLHlsChunklist::ToGzipData`. -/
  ChunklistToGzipData : LLHlsChunklist → String → OrdMap Int LLHlsChunklist →
    Bool → Bool → Data
  /-- The method `LLHlsMasterPlaylist::ToString`. -/
  MasterPlaylistToString : LLHlsMasterPlaylist → String → Bool → Bool → String
  /-- The method `LLHlsMasterPlaylist::ToGzipData`. -/
  MasterPlaylistToGzipData : LLHlsMasterPlaylist → String → Bool → Data
  /-- The method `pub::Stream::Stop` on the state of the base class. -/
  StreamStop : State → Bool × State
  /-- The method `pub::Stream::Start` on the state of the base class. -/
  StreamStart : State → Bool × State
  /-- The method `pub::Stream::CreateStreamWorker`. -/
  CreateStreamWorker : Nat → Bool
  /-- The macro `DEFAULT_PLAYLIST_NAME` of the headers. -/
  DEFAULT_PLAYLIST_NAME : String
  /-- The chunklist path depth of a playlist built by
  `info::Playlist(name, file_name)`. -/
  DefaultHlsChunklistPathDepth : Int
  /-- The function `ov::Random::GenerateString`. -/
  GenerateString : Nat → String
  /-- The method `ov::String::Replace`. -/
  Replace : String → String → String → String
  /-- The method `FMP4Packager::CreateInitializationSegment` of a packager built
  for a media track and a data track. -/
  CreateInitializationSegment : MediaTrack → Option MediaTrack → Bool
  /-- What the getters of a `bmff::FMP4Storage` built for a track, with
  `max_segments` and `segment_duration_ms`, report once its initialization
  segment has been created. -/
  NewStorage : MediaTrack → Nat → Nat → FMP4Storage

/-! ## The stream -/

/-- The members of `LLHlsStream` and of its base classes that the methods
below read or write. -/
structure LLHlsStream where
  state : State
  name : String
  app_name : String
  input_stream_created_time_ms : Int
  /-- The map `_tracks`, whose key is the id of the track: the tracks in
  ascending order of their ids. -/
  tracks : List MediaTrack
  playlists : List Playlist
  stream_key : String
  chunk_duration_ms : Nat
  segment_duration_ms : Nat
  max_segments : Nat
  configured_part_hold_back : ℚ
  max_chunk_duration_ms : Nat
  min_chunk_duration_ms : Nat
  playlist_ready : Bool
  initial_media_packet_buffer : Queue MediaPacket
  storage_map : OrdMap Int FMP4Storage
  packager_map : OrdMap Int FMP4Packager
  chunklist_map : OrdMap Int LLHlsChunklist
  master_playlists : OrdMap String (Option LLHlsMasterPlaylist)
  dumps : OrdMap String Dump
  broadcast : List PlaylistUpdatedEvent
  worker_count : Nat

namespace LLHlsStream

/-- The method `pub::Stream::GetState`. -/
def GetState (s : LLHlsStream) : State := s.state

/-- The method `info::Stream::GetTrack(int32_t id)`. -/
def GetTrack (s : LLHlsStream) (id : Int) : Option MediaTrack :=
  s.tracks.find? (fun track => track.id = id)

/-- The method `info::Stream::GetTracks`: the entries `(id, track)` of the map
in key order. -/
def GetTracks (s : LLHlsStream) : OrdMap Int MediaTrack :=
  s.tracks.map (fun track => (track.id, track))

/-- The insertion `_tracks.insert(std::make_pair(track->GetId(), track))`. -/
def insertTrack : List MediaTrack → MediaTrack → List MediaTrack
  | [], track => [track]
  | first :: rest, track =>
    if first.id = track.id then first :: rest
    else if track.id < first.id then track :: first :: rest
    else first :: insertTrack rest track

/-- The method `info::Stream::AddTrack`; the result tells whether the track was
inserted. -/
def AddTrack (s : LLHlsStream) (track : MediaTrack) : Bool × LLHlsStream :=
  ((s.GetTrack track.id).isNone, { s with tracks := insertTrack s.tracks track })

/-- Modelled from the spec: `GetTrack(name)` is declared outside the sources; a
rendition names its tracks by track name. The first track, in key order, that
bears the name. -/
def GetTrackByName (s : LLHlsStream) (name : String) : Option MediaTrack :=
  s.tracks.find? (fun track => track.name = name)

/-- Modelled from the spec: `GetFirstTrack(media_type)` is declared outside the
sources. The first track, in key order, of the media type. -/
def GetFirstTrack (s : LLHlsStream) (media_type : MediaType) : Option MediaTrack :=
  s.tracks.find? (fun track => track.media_type = media_type)

/-- Modelled from the spec: `Stream::GetPlaylist(file_name)` is declared outside
the sources; the declared playlist with that file name. -/
def GetPlaylist (s : LLHlsStream) (file_name : String) : Option Playlist :=
  s.playlists.find? (fun playlist => playlist.file_name = file_name)

/-- The method `LLHlsStream::GetStreamKey`. -/
def GetStreamKey (s : LLHlsStream) : String := s.stream_key

/-- The method `LLHlsStream::GetMaxChunkDurationMS`. -/
def GetMaxChunkDurationMS (s : LLHlsStream) : Nat := s.max_chunk_duration_ms

/-- The method `LLHlsStream::GetStorage`. -/
def GetStorage (s : LLHlsStream) (track_id : Int) : Option FMP4Storage :=
  s.storage_map.find track_id

/-- The method `LLHlsStream::GetPackager`. -/
def GetPackager (s : LLHlsStream) (track_id : Int) : Option FMP4Packager :=
  s.packager_map.find track_id

/-- The method `LLHlsStream::GetChunklistWriter`. -/
def GetChunklistWriter (s : LLHlsStream) (track_id : Int) : Option LLHlsChunklist :=
  s.chunklist_map.find track_id

/-- The method `LLHlsStream::IsReadyToPlay`. -/
def IsReadyToPlay (s : LLHlsStream) : Bool := s.playlist_ready

/-- The expression
`StringFromMediaType(GetTrack(track_id)->GetMediaType()).LowerCaseString()`;
`none` when `GetTrack` returns null. -/
def MediaTypeName (env : Env) (s : LLHlsStream) (track_id : Int) : Option String :=
  (s.GetTrack track_id).map
    (fun track => env.LowerCaseString (env.StringFromMediaType track.media_type))

/-- The method `LLHlsStream::GetChunklistName`. -/
def GetChunklistName (env : Env) (s : LLHlsStream) (track_id : Int) : Option String :=
  (MediaTypeName env s track_id).map (fun media_type =>
    FormatString "chunklist_%d_%s_%s_llhls.m3u8"
      [FormatArg.int track_id, FormatArg.str media_type, FormatArg.str s.stream_key])

/-- The method `LLHlsStream::GetIntializationSegmentName`. -/
def GetIntializationSegmentName (env : Env) (s : LLHlsStream) (track_id : Int) :
    Option String :=
  (MediaTypeName env s track_id).map (fun media_type =>
    FormatString "init_%d_%s_%s_llhls.m4s"
      [FormatArg.int track_id, FormatArg.str media_type, FormatArg.str s.stream_key])

/-- The method `LLHlsStream::GetSegmentName`. -/
def GetSegmentName (env : Env) (s : LLHlsStream) (track_id : Int) (segment_number : Int) :
    Option String :=
  (MediaTypeName env s track_id).map (fun media_type =>
    FormatString "seg_%d_%lld_%s_%s_llhls.m4s"
      [FormatArg.int track_id, FormatArg.int segment_number, FormatArg.str media_type,
        FormatArg.str s.stream_key])

/-- The method `LLHlsStream::GetPartialSegmentName`. -/
def GetPartialSegmentName (env : Env) (s : LLHlsStream) (track_id : Int)
    (segment_number : Int) (partial_number : Int) : Option String :=
  (MediaTypeName env s track_id).map (fun media_type =>
    FormatString "part_%d_%lld_%lld_%s_%s_llhls.m4s"
      [FormatArg.int track_id, FormatArg.int segment_number, FormatArg.int partial_number,
        FormatArg.str media_type, FormatArg.str s.stream_key])

/-- The method `LLHlsStream::CreateMasterPlaylist`, first loop: the media
candidates, one for each H.264 or AAC track. -/
def CreateMasterPlaylist.candidates (env : Env) (s : LLHlsStream) :
    OrdMap Int MediaTrack → LLHlsMasterPlaylist → Option LLHlsMasterPlaylist
  | [], master_playlist => some master_playlist
  | (track_id, track) :: rest, master_playlist =>
    if track.codec_id ≠ MediaCodecId.H264 ∧ track.codec_id ≠ MediaCodecId.Aac then
      candidates env s rest master_playlist
    else
      match s.GetChunklistName env track_id with
      | none => none
      | some chunklist_name =>
        let group_id := FormatDecimal track_id
        candidates env s rest
          { master_playlist with
            media_candidates :=
              master_playlist.media_candidates ++ [(group_id, track, chunklist_name)] }

/-- The method `LLHlsStream::CreateMasterPlaylist`, second loop: one stream-inf
entry for each rendition without an unsupported codec. -/
def CreateMasterPlaylist.renditions (env : Env) (s : LLHlsStream) :
    List Rendition → LLHlsMasterPlaylist → Option LLHlsMasterPlaylist
  | [], master_playlist => some master_playlist
  | rendition :: rest, master_playlist =>
    let video_track := s.GetTrackByName rendition.video_track_name
    let video_chunklist_name : Option String :=
      match video_track with
      | some track => s.GetChunklistName env track.id
      | none => some ""
    let audio_track := s.GetTrackByName rendition.audio_track_name
    let audio_chunklist_name : Option String :=
      match audio_track with
      | some track => s.GetChunklistName env track.id
      | none => some ""
    match video_chunklist_name, audio_chunklist_name with
    | some video_name, some audio_name =>
      if (video_track.any (fun track => track.codec_id ≠ MediaCodecId.H264)) ∨
          (audio_track.any (fun track => track.codec_id ≠ MediaCodecId.Aac)) then
        renditions env s rest master_playlist
      else
        renditions env s rest
          { master_playlist with
            stream_infs :=
              master_playlist.stream_infs ++ [(video_track, video_name, audio_track, audio_name)] }
    | _, _ => none

/-- The chunk path that `LLHlsStream::CreateMasterPlaylist` selects. -/
def CreateMasterPlaylist.chunk_path (s : LLHlsStream) (playlist : Playlist) : String :=
  let app_name := s.app_name
  let stream_name := s.name
  if playlist.hls_chunklist_path_depth = 0 then
    ""
  else if playlist.hls_chunklist_path_depth = 1 then
    FormatString "../%s/" [FormatArg.str stream_name]
  else if playlist.hls_chunklist_path_depth = 2 then
    FormatString "../../%s/%s/" [FormatArg.str app_name, FormatArg.str stream_name]
  else
    FormatString "/%s/%s/" [FormatArg.str app_name, FormatArg.str stream_name]

/-- The method `LLHlsStream::CreateMasterPlaylist`. -/
def CreateMasterPlaylist (env : Env) (s : LLHlsStream) (playlist : Playlist) :
    Option LLHlsMasterPlaylist :=
  let master_playlist : LLHlsMasterPlaylist :=
    { chunk_path := CreateMasterPlaylist.chunk_path s playlist,
      media_candidates := [], stream_infs := [] }
  match CreateMasterPlaylist.candidates env s s.GetTracks master_playlist with
  | none => none
  | some master_playlist =>
    CreateMasterPlaylist.renditions env s playlist.renditions master_playlist

/-- The end of `LLHlsStream::GetMasterPlaylist`, after the cache has been
consulted: the null test and the rendering of the master playlist. -/
def GetMasterPlaylist.respond (env : Env) (master_playlist : Option LLHlsMasterPlaylist)
    (chunk_query_string : String) (gzip : Bool) (legacy : Bool) ( include_path : Bool) :
    RequestResult × Option Data :=
  match master_playlist with
  | none => (RequestResult.NotFound, none)
  | some master_playlist =>
    if gzip = true then
      (RequestResult.Success,
        some (env.MasterPlaylistToGzipData master_playlist chunk_query_string legacy))
    else
      (RequestResult.Success,
        some (env.ToData
          (env.MasterPlaylistToString master_playlist chunk_query_string legacy include_path)))

/-- The method `LLHlsStream::GetMasterPlaylist`. -/
def GetMasterPlaylist (env : Env) (s : LLHlsStream) (file_name : String)
    (chunk_query_string : String) (gzip : Bool) (legacy : Bool) ( include_path : Bool) :
    Option ((RequestResult × Option Data) × LLHlsStream) :=
  if s.GetState ≠ State.STARTED then
    some ((RequestResult.NotFound, none), s)
  else if s.IsReadyToPlay = false then
    some ((RequestResult.Accepted, none), s)
  else
    match s.master_playlists.find file_name with
    | none =>
      let file_name_without_ext := env.SubstringToLastDot file_name
      -- Create master playlist
      match s.GetPlaylist file_name_without_ext with
      | none => some ((RequestResult.NotFound, none), s)
      | some playlist =>
        match CreateMasterPlaylist env s playlist with
        | none => none
        | some master_playlist =>
          -- Cache
          some
            (GetMasterPlaylist.respond env (some master_playlist) chunk_query_string gzip legacy
              include_path,
              { s with
                master_playlists := s.master_playlists.assign file_name (some master_playlist) })
    | some cached =>
      some (GetMasterPlaylist.respond env cached chunk_query_string gzip legacy include_path, s)

/-- The method `LLHlsStream::GetChunklist`. -/
def GetChunklist (env : Env) (s : LLHlsStream) (query_string : String) (track_id : Int)
    (msn : Int) (psn : Int) (skip : Bool) (gzip : Bool) (legacy : Bool) :
    RequestResult × Option Data :=
  match s.GetChunklistWriter track_id with
  | none => (RequestResult.NotFound, none)
  | some chunklist =>
    if s.IsReadyToPlay = false then
      (RequestResult.Accepted, none)
    else
      let held : Option Bool :=
        if msn ≥ 0 ∧ psn ≥ 0 then
          match chunklist.last_sequence_number with
          | none => none
          | some (last_msn, last_psn) =>
            some (decide (msn > last_msn ∨ (msn ≥ last_msn ∧ psn > last_psn)))
        else
          some false
      match held with
      | none => (RequestResult.NotFound, none)
      | some true => (RequestResult.Accepted, none)
      | some false =>
        if gzip = true then
          (RequestResult.Success,
            some (env.ChunklistToGzipData chunklist query_string s.chunklist_map skip legacy))
        else
          (RequestResult.Success,
            some (env.ToData
              (env.ChunklistToString chunklist query_string s.chunklist_map skip legacy none)))

/-- The method `LLHlsStream::GetInitializationSegment`. -/
def GetInitializationSegment (s : LLHlsStream) (track_id : Int) :
    RequestResult × Option Data :=
  match s.GetStorage track_id with
  | none => (RequestResult.NotFound, none)
  | some storage => (RequestResult.Success, some storage.initialization_section)

/-- The method `LLHlsStream::GetSegment`. -/
def GetSegment (s : LLHlsStream) (track_id : Int) (segment_number : Int) :
    RequestResult × Option Data :=
  match s.GetStorage track_id with
  | none => (RequestResult.NotFound, none)
  | some storage =>
    match storage.GetMediaSegment segment_number with
    | none => (RequestResult.NotFound, none)
    | some segment => (RequestResult.Success, some segment.data)

/-- The method `LLHlsStream::GetChunk`. -/
def GetChunk (s : LLHlsStream) (track_id : Int) (segment_number : Int) (chunk_number : Int) :
    RequestResult × Option Data :=
  match s.GetStorage track_id with
  | none => (RequestResult.NotFound, none)
  | some storage =>
    let (last_segment_number, last_chunk_number) := storage.last_chunk_number
    if segment_number = last_segment_number ∧ chunk_number > last_chunk_number then
      (RequestResult.Accepted, none)
    else if segment_number > last_segment_number then
      (RequestResult.NotFound, none)
    else
      match storage.GetMediaChunk segment_number chunk_number with
      | none => (RequestResult.NotFound, none)
      | some chunk => (RequestResult.Success, some chunk.data)

/-- The method `LLHlsStream::DumpData`. -/
def DumpData (item : Dump) (file_name : String) (data : Data) : Bool × Dump :=
  item.DumpData file_name data

/-- The loop of `LLHlsStream::DumpMasterPlaylist` over the playlists of a
dump. -/
def DumpMasterPlaylist.playlists (env : Env) :
    List String → Dump → LLHlsStream → Option (Bool × Dump × LLHlsStream)
  | [], item, s => some (true, item, s)
  | playlist :: rest, item, s =>
    match s.GetMasterPlaylist env playlist "" false false false with
    | none => none
    | some ((result, data), s1) =>
      if result ≠ RequestResult.Success then
        some (false, item, s1)
      else
        match DumpData item playlist (data.getD []) with
        | (false, item1) => some (false, item1, s1)
        | (true, item1) => playlists env rest item1 s1

/-- The method `LLHlsStream::DumpMasterPlaylist`. -/
def DumpMasterPlaylist (env : Env) (s : LLHlsStream) (item : Dump) :
    Option (Bool × Dump × LLHlsStream) :=
  if item.enabled = false then
    some (false, item, s)
  else
    DumpMasterPlaylist.playlists env item.playlists item s

/-- The loop of `LLHlsStream::DumpMasterPlaylistsOfAllItems` over `_dumps`:
the entries after the loop and the stream. -/
def DumpMasterPlaylistsOfAllItems.loop (env : Env) :
    OrdMap String Dump → LLHlsStream → Option (OrdMap String Dump × LLHlsStream)
  | [], s => some ([], s)
  | (id, dump) :: rest, s =>
    if dump.enabled = false then
      (loop env rest s).map (fun r => ((id, dump) :: r.1, r.2))
    else
      match DumpMasterPlaylist env s dump with
      | none => none
      | some (_, dump1, s1) =>
        -- Even if the dump fails, it is not disabled
        (loop env rest s1).map (fun r => ((id, dump1) :: r.1, r.2))

/-- The method `LLHlsStream::DumpMasterPlaylistsOfAllItems`. -/
def DumpMasterPlaylistsOfAllItems (env : Env) (s : LLHlsStream) : Option LLHlsStream :=
  (DumpMasterPlaylistsOfAllItems.loop env s.dumps s).map
    (fun r => { r.2 with dumps := r.1 })

/-- The method `LLHlsStream::DumpInitSegment`. -/
def DumpInitSegment (env : Env) (s : LLHlsStream) (item : Dump) (track_id : Int) :
    Option (Bool × Dump) :=
  if item.enabled = false then
    some (false, item)
  else
    match s.GetInitializationSegment track_id with
    | (RequestResult.Success, data) =>
      match s.GetIntializationSegmentName env track_id with
      | none => none
      | some init_segment_name => some (DumpData item init_segment_name (data.getD []))
    | _ => some (false, item)

/-- The loop of `LLHlsStream::DumpInitSegmentOfAllItems` over `_dumps`. -/
def DumpInitSegmentOfAllItems.loop (env : Env) (s : LLHlsStream) (track_id : Int) :
    OrdMap String Dump → Option (OrdMap String Dump)
  | [] => some []
  | (id, dump) :: rest =>
    if dump.enabled = false then
      (loop env s track_id rest).map (fun r => (id, dump) :: r)
    else
      match DumpInitSegment env s dump track_id with
      | none => none
      | some (false, dump1) =>
        (loop env s track_id rest).map (fun r => (id, dump1.SetEnabled false) :: r)
      | some (true, dump1) =>
        (loop env s track_id rest).map (fun r => (id, dump1) :: r)

/-- The method `LLHlsStream::DumpInitSegmentOfAllItems`. -/
def DumpInitSegmentOfAllItems (env : Env) (s : LLHlsStream) (track_id : Int) :
    Option LLHlsStream :=
  (DumpInitSegmentOfAllItems.loop env s track_id s.dumps).map
    (fun dumps => { s with dumps := dumps })

/-- The method `LLHlsStream::DumpSegment`. -/
def DumpSegment (env : Env) (s : LLHlsStream) (item : Dump) (track_id : Int)
    (segment_number : Int) : Option (Bool × Dump × LLHlsStream) :=
  if item.enabled = false then
    some (false, item, s)
  else
    let item1 :=
      if item.HasExtraData track_id = false then item.SetExtraData track_id segment_number
      else item
    match s.GetStorage track_id with
    | none => none
    | some storage =>
      match storage.GetMediaSegment segment_number with
      | none => some (false, item1, s)
      | some segment =>
        let segment_data := segment.data
        match s.GetChunklistWriter track_id with
        | none => some (false, item1, s)
        | some chunklist =>
          let chunklist_data :=
            env.ToData (env.ChunklistToString chunklist "" s.chunklist_map false true
              (some (true, item1.GetFirstSegmentNumber track_id)))
          match s.GetSegmentName env track_id segment_number,
              s.GetChunklistName env track_id with
          | some segment_file_name, some chunklist_file_name =>
            match DumpData item1 segment_file_name segment_data with
            | (false, item2) => some (false, item2, s)
            | (true, item2) =>
              match DumpData item2 chunklist_file_name chunklist_data with
              | (false, item3) => some (false, item3, s)
              | (true, item3) =>
                some (true, item3,
                  { s with
                    chunklist_map :=
                      s.chunklist_map.update track_id (chunklist.SaveOldSegmentInfo true) })
          | _, _ => none

/-- The loop of `LLHlsStream::DumpSegmentOfAllItems` over `_dumps`: the entries
after the loop and the stream. -/
def DumpSegmentOfAllItems.loop (env : Env) (track_id : Int) (segment_number : Int) :
    OrdMap String Dump → LLHlsStream → Option (OrdMap String Dump × LLHlsStream)
  | [], s => some ([], s)
  | (id, dump) :: rest, s =>
    if dump.enabled = false then
      (loop env track_id segment_number rest s).map (fun r => ((id, dump) :: r.1, r.2))
    else
      match DumpSegment env s dump track_id segment_number with
      | none => none
      | some (false, dump1, s1) =>
        (loop env track_id segment_number rest s1).map
          (fun r => ((id, dump1.SetEnabled false) :: r.1, r.2))
      | some (true, dump1, s1) =>
        (loop env track_id segment_number rest s1).map (fun r => ((id, dump1) :: r.1, r.2))

/-- The method `LLHlsStream::DumpSegmentOfAllItems`. -/
def DumpSegmentOfAllItems (env : Env) (s : LLHlsStream) (track_id : Int)
    (segment_number : Int) : Option LLHlsStream :=
  (DumpSegmentOfAllItems.loop env track_id segment_number s.dumps s).map
    (fun r => { r.2 with dumps := r.1 })

/-- The method `LLHlsStream::BufferMediaPacketUntilReadyToPlay`. -/
def BufferMediaPacketUntilReadyToPlay (env : Env) (s : LLHlsStream)
    (media_packet : MediaPacket) : LLHlsStream :=
  let buffer :=
    if s.initial_media_packet_buffer.Size ≥ env.MAX_INITIAL_MEDIA_PACKET_BUFFER_SIZE then
      -- Drop the oldest packet, for OOM protection
      s.initial_media_packet_buffer.Dequeue.2
    else
      s.initial_media_packet_buffer
  { s with initial_media_packet_buffer := buffer.Enqueue media_packet }

/-- The method `LLHlsStream::AppendMediaPacket`. -/
def AppendMediaPacket (s : LLHlsStream) (media_packet : MediaPacket) : Bool × LLHlsStream :=
  match s.GetTrack media_packet.track_id with
  | none => (false, s)
  | some track =>
    if track.codec_id = MediaCodecId.H264 ∨ track.codec_id = MediaCodecId.Aac then
      match s.GetPackager track.id with
      | none => (false, s)
      | some packager =>
        (true,
          { s with
            packager_map := s.packager_map.update track.id (packager.AppendSample media_packet) })
    else
      (true, s)

/-- The loop of `LLHlsStream::SendDataFrame` over the tracks: the data packet is
reserved on the packager of every track of the target media type. -/
def SendDataFrame.tracks (media_packet : MediaPacket) (target_media_type : MediaType) :
    OrdMap Int MediaTrack → LLHlsStream → LLHlsStream
  | [], s => s
  | (_, track) :: rest, s =>
    if track.media_type ≠ target_media_type then
      tracks media_packet target_media_type rest s
    else
      match s.GetPackager track.id with
      | none => tracks media_packet target_media_type rest s
      | some packager =>
        tracks media_packet target_media_type rest
          { s with
            packager_map :=
              s.packager_map.update track.id (packager.ReserveDataPacket media_packet) }

/-- The part of `LLHlsStream::SendDataFrame` that follows the draining of the
pre-roll buffer. -/
def SendDataFrame.reserve (s : LLHlsStream) (media_packet : MediaPacket) : LLHlsStream :=
  let target_media_type :=
    if media_packet.packet_type = PacketType.VIDEO_EVENT then MediaType.Video
    else MediaType.Audio
  SendDataFrame.tracks media_packet target_media_type s.GetTracks s

mutual

/-- The method `LLHlsStream::SendBufferedPackets`. The first argument bounds
the number of loop iterations and nested calls; `none` means the bound was
reached. -/
def SendBufferedPackets (env : Env) : Nat → LLHlsStream → Option LLHlsStream
  | 0, _ => none
  | fuel + 1, s =>
    if s.initial_media_packet_buffer.IsEmpty = false then
      match s.initial_media_packet_buffer.Dequeue with
      | (none, buffer) =>
        SendBufferedPackets env fuel { s with initial_media_packet_buffer := buffer }
      | (some media_packet, buffer) =>
        let s1 := { s with initial_media_packet_buffer := buffer }
        if media_packet.media_type = MediaType.Data then
          match SendDataFrame env fuel s1 media_packet with
          | none => none
          | some s2 => SendBufferedPackets env fuel s2
        else
          SendBufferedPackets env fuel (s1.AppendMediaPacket media_packet).2
    else
      some s

/-- The method `LLHlsStream::SendDataFrame`. -/
def SendDataFrame (env : Env) : Nat → LLHlsStream → MediaPacket → Option LLHlsStream
  | 0, _, _ => none
  | fuel + 1, s, media_packet =>
    if media_packet.bitstream_format ≠ BitstreamFormat.ID3v2 then
      -- Not supported
      some s
    else if s.GetState = State.CREATED then
      some (s.BufferMediaPacketUntilReadyToPlay env media_packet)
    else
      let drained :=
        if s.initial_media_packet_buffer.IsEmpty = false then SendBufferedPackets env fuel s
        else some s
      match drained with
      | none => none
      | some s1 => some (SendDataFrame.reserve s1 media_packet)

end

/-- The method `LLHlsStream::SendVideoFrame`. -/
def SendVideoFrame (env : Env) (fuel : Nat) (s : LLHlsStream) (media_packet : MediaPacket) :
    Option LLHlsStream :=
  if s.GetState = State.CREATED then
    some (s.BufferMediaPacketUntilReadyToPlay env media_packet)
  else
    let drained :=
      if s.initial_media_packet_buffer.IsEmpty = false then SendBufferedPackets env fuel s
      else some s
    match drained with
    | none => none
    | some s1 => some (s1.AppendMediaPacket media_packet).2

/-- The method `LLHlsStream::SendAudioFrame`. -/
def SendAudioFrame (env : Env) (fuel : Nat) (s : LLHlsStream) (media_packet : MediaPacket) :
    Option LLHlsStream :=
  if s.GetState = State.CREATED then
    some (s.BufferMediaPacketUntilReadyToPlay env media_packet)
  else
    let drained :=
      if s.initial_media_packet_buffer.IsEmpty = false then SendBufferedPackets env fuel s
      else some s
    match drained with
    | none => none
    | some s1 => some (s1.AppendMediaPacket media_packet).2

/-- The loop of `LLHlsStream::CheckPlaylistReady` over `_storage_map`, on the
pair `(_max_chunk_duration_ms, _min_chunk_duration_ms)`: whether every storage
has a segment, and the pair when the loop is left. -/
def CheckPlaylistReady.storages :
    OrdMap Int FMP4Storage → Nat × Nat → Bool × Nat × Nat
  | [], durations => (true, durations)
  | (_, storage) :: rest, durations =>
    -- At least one segment must be created.
    if storage.last_segment_number < 0 then
      (false, durations)
    else
      storages rest
        (max durations.1 storage.max_chunk_duration_ms,
          min durations.2 storage.min_chunk_duration_ms)

/-- The loop of `LLHlsStream::CheckPlaylistReady` over `_chunklist_map`: the
entries after the loop and the stream. -/
def CheckPlaylistReady.chunklists (env : Env) (final_part_hold_back : ℚ) :
    OrdMap Int LLHlsChunklist → LLHlsStream → Option (OrdMap Int LLHlsChunklist × LLHlsStream)
  | [], s => some ([], s)
  | (track_id, chunklist) :: rest, s =>
    let chunklist1 := chunklist.SetPartHoldBack final_part_hold_back
    match s.DumpInitSegmentOfAllItems env chunklist1.track.id with
    | none => none
    | some s1 =>
      (chunklists env final_part_hold_back rest s1).map
        (fun r => ((track_id, chunklist1) :: r.1, r.2))

/-- The method `LLHlsStream::CheckPlaylistReady`. The `double` arithmetic of
the part hold back is exact rational arithmetic here. -/
def CheckPlaylistReady (env : Env) (s : LLHlsStream) : Option (Bool × LLHlsStream) :=
  if s.playlist_ready = true then
    some (true, s)
  else
    match CheckPlaylistReady.storages s.storage_map
        (s.max_chunk_duration_ms, s.min_chunk_duration_ms) with
    | (false, max_ms, min_ms) =>
      some (false, { s with max_chunk_duration_ms := max_ms, min_chunk_duration_ms := min_ms })
    | (true, max_ms, min_ms) =>
      let s1 := { s with max_chunk_duration_ms := max_ms, min_chunk_duration_ms := min_ms }
      let min_part_hold_back : ℚ := ((s1.max_chunk_duration_ms : ℚ) / 1000) * 3
      let final_part_hold_back : ℚ := max min_part_hold_back s1.configured_part_hold_back
      match CheckPlaylistReady.chunklists env final_part_hold_back s1.chunklist_map s1 with
      | none => none
      | some (chunklist_map, s2) =>
        let s3 := { s2 with chunklist_map := chunklist_map, playlist_ready := true }
        -- Dump master playlist if configured
        match s3.DumpMasterPlaylistsOfAllItems env with
        | none => none
        | some s4 => some (true, s4)

/-- The method `LLHlsStream::GetMinimumLastSegmentNumber`. -/
def GetMinimumLastSegmentNumber (s : LLHlsStream) : Int :=
  s.storage_map.foldl
    (fun min_segment_number entry =>
      if entry.2.last_segment_number < min_segment_number then entry.2.last_segment_number
      else min_segment_number)
    (2 ^ 63 - 1)

/-- The method `LLHlsStream::StopToSaveOldSegmentsInfo`. -/
def StopToSaveOldSegmentsInfo (s : LLHlsStream) : LLHlsStream :=
  -- check if all dumps are disabled
  let all_disabled := s.dumps.all (fun entry => entry.2.enabled = false)
  if all_disabled = true then
    -- stop to keep old segments in _chunklist_map
    { s with
      chunklist_map :=
        s.chunklist_map.map (fun entry => (entry.1, entry.2.SaveOldSegmentInfo false)) }
  else
    s

/-- The first loop of `LLHlsStream::StartDump`: the refusal, if any, that a
registered dump causes. -/
def StartDump.duplicate (info : DumpInfo) : OrdMap String Dump → Option String
  | [] => none
  | (_, dump) :: rest =>
    -- Check duplicate ID
    if dump.id = info.id then
      some "Duplicate ID"
    -- Check duplicate infoFile
    else if dump.info_file_url.isEmpty = false ∧ dump.info_file_url = info.info_file_url then
      some "Duplicate info file"
    else
      duplicate info rest

/-- The loop of `LLHlsStream::StartDump` over the copy of `_storage_map`: the
refusal, if any, with the dump and the stream when the loop is left. -/
def StartDump.storages (env : Env) (min_segment_number : Int) :
    OrdMap Int FMP4Storage → Dump → LLHlsStream → Option (Option String × Dump × LLHlsStream)
  | [], dump_info, s => some (none, dump_info, s)
  | (track_id, _) :: rest, dump_info, s =>
    match s.DumpInitSegment env dump_info track_id with
    | none => none
    | some (false, dump_info1) => some (some "Could not dump init segment", dump_info1, s)
    | some (true, dump_info1) =>
      match s.DumpSegment env dump_info1 track_id min_segment_number with
      | none => none
      | some (false, dump_info2, s1) => some (some "Could not dump segment", dump_info2, s1)
      | some (true, dump_info2, s1) => storages env min_segment_number rest dump_info2 s1

/-- The method `LLHlsStream::StartDump`. -/
def StartDump (env : Env) (s : LLHlsStream) (info : DumpInfo) :
    Option ((Bool × String) × LLHlsStream) :=
  match StartDump.duplicate info s.dumps with
  | some message => some ((false, message), s)
  | none =>
    let dump_info := (Dump.ofInfo info).SetEnabled true
    if s.IsReadyToPlay = false then
      -- If the playlist is not ready, add it to the queue and wait for the playlist to be ready.
      some ((true, ""), { s with dumps := s.dumps.emplace dump_info.id dump_info })
    else
      -- Dump Init Segment for all tracks
      let storage_map := s.storage_map
      -- Find minimum segment number
      let min_segment_number := s.GetMinimumLastSegmentNumber
      match StartDump.storages env min_segment_number storage_map dump_info s with
      | none => none
      | some (some message, _, s1) => some ((false, message), s1)
      | some (none, dump_info1, s1) =>
        -- Dump Master Playlist
        match s1.DumpMasterPlaylist env dump_info1 with
        | none => none
        | some (false, _, s2) =>
          some ((false, "Could not dump master playlist"), s2.StopToSaveOldSegmentsInfo)
        | some (true, dump_info2, s2) =>
          some ((true, ""), { s2 with dumps := s2.dumps.emplace dump_info2.id dump_info2 })

/-- The method `LLHlsStream::StopDump`. -/
def StopDump (s : LLHlsStream) (dump_info : DumpInfo) : (Bool × String) × LLHlsStream :=
  if dump_info.id.isEmpty = false then
    match s.dumps.find dump_info.id with
    | none => ((false, "Could not find dump info"), s)
    | some dump_item =>
      let s1 := { s with dumps := s.dumps.update dump_info.id (dump_item.SetEnabled false) }
      ((true, ""), s1.StopToSaveOldSegmentsInfo)
  else
    -- All stop
    let s1 := { s with dumps := s.dumps.map (fun (entry : String × Dump) => (entry.1, entry.2.SetEnabled false)) }
    ((true, ""), s1.StopToSaveOldSegmentsInfo)

/-- The method `LLHlsStream::AddPackager`. -/
def AddPackager (env : Env) (s : LLHlsStream) (media_track : MediaTrack)
    (data_track : Option MediaTrack) : Bool × LLHlsStream :=
  -- Create Storage
  let storage := env.NewStorage media_track s.max_segments s.segment_duration_ms
  -- Create fMP4 Packager
  let packager : FMP4Packager := { track_id := media_track.id, calls := [] }
  -- Create Initialization Segment
  if env.CreateInitializationSegment media_track data_track = false then
    (false, s)
  else
    (true,
      { s with
        storage_map := s.storage_map.emplace media_track.id storage,
        packager_map := s.packager_map.emplace media_track.id packager })

/-- The loop of `LLHlsStream::Start` over `_tracks`. The first component is
`none` when the loop leaves `Start` with false, and the first video track and
the first audio track otherwise. -/
def Start.tracks (env : Env) (data_track : Option MediaTrack) :
    OrdMap Int MediaTrack → Option MediaTrack → Option MediaTrack → LLHlsStream →
      Option (Option MediaTrack × Option MediaTrack) × LLHlsStream
  | [], first_video_track, first_audio_track, s =>
    (some (first_video_track, first_audio_track), s)
  | (_, track) :: rest, first_video_track, first_audio_track, s =>
    if track.codec_id = MediaCodecId.H264 ∨ track.codec_id = MediaCodecId.Aac then
      match s.AddPackager env track data_track with
      | (false, s1) => (none, s1)
      | (true, s1) =>
        -- For default llhls.m3u8
        if first_video_track = none ∧ track.media_type = MediaType.Video then
          tracks env data_track rest (some track) first_audio_track s1
        else if first_audio_track = none ∧ track.media_type = MediaType.Audio then
          tracks env data_track rest first_video_track (some track) s1
        else
          tracks env data_track rest first_video_track first_audio_track s1
    else
      tracks env data_track rest first_video_track first_audio_track s

/-- The loop of `LLHlsStream::Start` over the dumps of the configuration. -/
def Start.dumps (env : Env) (application : Application) (s : LLHlsStream) :
    List DumpConfig → OrdMap String Dump → OrdMap String Dump
  | [], registered => registered
  | dump :: rest, registered =>
    if dump.enabled = false then
      dumps env application s rest registered
    -- check if dump.TargetStreamName is same as this stream name
    else if dump.TargetStreamNameMatches s.name = true then
      -- Replace output path with macro
      let output_path := dump.output_path
      let output_path := env.Replace output_path "$\x7bVHostName\x7d" application.vhost_name
      let output_path := env.Replace output_path "$\x7bAppName\x7d" s.app_name
      let output_path := env.Replace output_path "$\x7bStreamName\x7d" s.name
      let dump_item : Dump :=
        { id := dump.id, info_file_url := "", output_path := output_path,
          playlists := dump.playlists, enabled := true, first_segment_number := [],
          written := [], DumpDataResult := dump.DumpDataResult }
      dumps env application s rest (registered.emplace dump_item.id dump_item)
    else
      dumps env application s rest registered

/-- The default playlist that `LLHlsStream::Start` builds from the first video
track and the first audio track. -/
def Start.playlist (env : Env) (first_video_track first_audio_track : Option MediaTrack) :
    Playlist :=
  let defautl_playlist_name := env.DEFAULT_PLAYLIST_NAME
  let default_playlist_name_without_ext := env.SubstringToLastDot defautl_playlist_name
  let rendition : Rendition :=
    { name := "default",
      video_track_name :=
        match first_video_track with
        | some track => track.name
        | none => "",
      audio_track_name :=
        match first_audio_track with
        | some track => track.name
        | none => "" }
  { name := "default", file_name := default_playlist_name_without_ext,
    hls_chunklist_path_depth := env.DefaultHlsChunklistPathDepth,
    renditions := [rendition] }

/-- The assignments of `LLHlsStream::Start` to `_stream_key`,
`_packager_config`, `_storage_config` and `_configured_part_hold_back`. -/
def Start.configure (env : Env) (application : Application) (s : LLHlsStream) : LLHlsStream :=
  let llhls_config := application.config
  { s with
    stream_key := env.GenerateString 8,
    chunk_duration_ms := (llhls_config.chunk_duration * 1000).floor.toNat,
    segment_duration_ms := llhls_config.segment_duration * 1000,
    max_segments := llhls_config.segment_count,
    configured_part_hold_back := llhls_config.part_hold_back }

/-- The block of `LLHlsStream::Start` that installs the default playlist. -/
def Start.install (env : Env) (s : LLHlsStream)
    (first_video_track first_audio_track : Option MediaTrack) : Option LLHlsStream :=
  -- If there is no default playlist, make default playlist
  let defautl_playlist_name := env.DEFAULT_PLAYLIST_NAME
  let default_playlist_name_without_ext := env.SubstringToLastDot defautl_playlist_name
  match s.GetPlaylist default_playlist_name_without_ext with
  | some _ => some s
  | none =>
    match s.CreateMasterPlaylist env (Start.playlist env first_video_track first_audio_track) with
    | none => none
    | some master_playlist =>
      some
        { s with
          master_playlists :=
            s.master_playlists.assign defautl_playlist_name (some master_playlist) }

/-- The end of `LLHlsStream::Start`: the dumps of the configuration are
registered and `Stream::Start` is called. -/
def Start.finish (env : Env) (application : Application) (s : LLHlsStream) :
    Bool × LLHlsStream :=
  let dump_config := application.config.dumps
  -- Select the dump setting for this stream.
  let s1 := { s with dumps := Start.dumps env application s dump_config s.dumps }
  let started := env.StreamStart s1.state
  (started.1, { s1 with state := started.2 })

/-- The method `LLHlsStream::Start`. -/
def Start (env : Env) (application : Application) (s : LLHlsStream) :
    Option (Bool × LLHlsStream) :=
  if s.GetState ≠ State.CREATED then
    some (false, s)
  else if env.CreateStreamWorker s.worker_count = false then
    some (false, s)
  else
    let s1 := Start.configure env application s
    -- Find data track
    let data_track := s1.GetFirstTrack MediaType.Data
    match Start.tracks env data_track s1.GetTracks none none s1 with
    | (none, s2) => some (false, s2)
    | (some (first_video_track, first_audio_track), s2) =>
      if first_video_track = none ∧ first_audio_track = none then
        some (false, s2)
      else
        (Start.install env s2 first_video_track first_audio_track).map
          (Start.finish env application)

/-- The method `LLHlsStream::Stop`. -/
def Stop (env : Env) (s : LLHlsStream) : Bool × LLHlsStream :=
  -- clear all packagers, all storages and all playlist
  let s1 := { s with packager_map := [], storage_map := [], chunklist_map := [] }
  let stopped := env.StreamStop s1.state
  (stopped.1, { s1 with state := stopped.2 })

/-- The method `LLHlsStream::GetDumpInfo`. -/
def GetDumpInfo (s : LLHlsStream) (dump_id : String) : Option Dump :=
  s.dumps.find dump_id

/-- The method `LLHlsStream::GetDumpInfoList`. -/
def GetDumpInfoList (s : LLHlsStream) : List Dump :=
  s.dumps.map Prod.snd

end LLHlsStream

/-! ## Example inputs -/

namespace Example

/-- An environment with a pre-roll buffer of three packets. -/
def env : Env :=
  { MAX_INITIAL_MEDIA_PACKET_BUFFER_SIZE := 3,
    StringFromMediaType := fun media_type =>
      match media_type with
      | MediaType.Video => "Video"
      | MediaType.Audio => "Audio"
      | MediaType.Data => "Data",
    LowerCaseString := fun name => String.mk (name.data.map Char.toLower),
    SubstringToLastDot := fun name => String.mk (name.data.takeWhile (fun c => c ≠ '.')),
    ToData := fun text => text.data.map Char.toNat,
    ChunklistToString := fun chunklist _ _ _ _ _ => chunklist.url,
    ChunklistToGzipData := fun _ _ _ _ _ => [31, 139],
    MasterPlaylistToString := fun master_playlist _ _ _ => master_playlist.chunk_path,
    MasterPlaylistToGzipData := fun _ _ _ => [31, 139],
    StreamStop := fun _ => (true, State.STOPPED),
    StreamStart := fun _ => (true, State.STARTED),
    CreateStreamWorker := fun _ => true,
    DEFAULT_PLAYLIST_NAME := "llhls.m3u8",
    DefaultHlsChunklistPathDepth := 0,
    GenerateString := fun _ => "key",
    Replace := fun text _ _ => text,
    CreateInitializationSegment := fun _ _ => true,
    NewStorage := fun _ _ _ =>
      { initialization_section := [1, 2, 3], last_segment_number := -1,
        last_chunk_number := (-1, -1), max_chunk_duration_ms := 0,
        min_chunk_duration_ms := 0, GetMediaSegment := fun _ => none,
        GetMediaChunk := fun _ _ => none } }

/-- An H.264 video track with id 0. -/
def video_track : MediaTrack :=
  { id := 0, name := "video", media_type := MediaType.Video, codec_id := MediaCodecId.H264,
    timescale := 90000 }

/-- An AAC audio track with id 1. -/
def audio_track : MediaTrack :=
  { id := 1, name := "audio", media_type := MediaType.Audio, codec_id := MediaCodecId.Aac,
    timescale := 48000 }

/-- A chunk of two bytes. -/
def chunk : MediaChunk :=
  { number := 1, start_timestamp := 0, duration := 500, size := 2, independent := true,
    data := [7, 9] }

/-- A closed segment of three bytes. -/
def segment : MediaSegment :=
  { number := 2, start_timestamp := 360000, duration := 2000, size := 3, data := [4, 5, 6] }

/-- A storage whose last closed segment is segment 2, whose last chunk is chunk
1 of segment 3, and that still holds that segment and that chunk only. -/
def storage : FMP4Storage :=
  { initialization_section := [1, 2, 3],
    last_segment_number := 2,
    last_chunk_number := (3, 1),
    max_chunk_duration_ms := 500,
    min_chunk_duration_ms := 400,
    GetMediaSegment := fun segment_number => if segment_number = 2 then some segment else none,
    GetMediaChunk := fun segment_number chunk_number =>
      if segment_number = 3 ∧ chunk_number = 1 then some chunk else none }

/-- A chunklist of the video track whose last part is part 1 of segment 3. -/
def chunklist : LLHlsChunklist :=
  { url := "chunklist_0_video_key_llhls.m3u8", track := video_track, max_segments := 5,
    target_duration := 2, part_target := 1 / 2, map_uri := "init_0_video_key_llhls.m4s",
    calls := [], last_sequence_number := some (3, 1) }

/-- The declared playlist `abr`. -/
def playlist : Playlist :=
  { name := "abr", file_name := "abr", hls_chunklist_path_depth := 2,
    renditions := [{ name := "main", video_track_name := "video", audio_track_name := "audio" }] }

/-- A started, ready stream with one video and one audio track. -/
def stream : LLHlsStream :=
  { state := State.STARTED, name := "stream", app_name := "app",
    input_stream_created_time_ms := 0,
    tracks := [video_track, audio_track],
    playlists := [playlist],
    stream_key := "key",
    chunk_duration_ms := 500, segment_duration_ms := 2000, max_segments := 5,
    configured_part_hold_back := 1,
    max_chunk_duration_ms := 0, min_chunk_duration_ms := 1000000,
    playlist_ready := true,
    initial_media_packet_buffer := [],
    storage_map := [(0, storage)],
    packager_map := [(0, { track_id := 0, calls := [] }), (1, { track_id := 1, calls := [] })],
    chunklist_map := [(0, chunklist)],
    master_playlists := [],
    dumps := [],
    broadcast := [],
    worker_count := 1 }

/-- The example stream before `Start`: state `CREATED`, not ready. -/
def created_stream : LLHlsStream :=
  { stream with state := State.CREATED, playlist_ready := false }

/-- A video packet of track 0 with the given payload byte. -/
def video_packet (tag : Nat) : MediaPacket :=
  { track_id := 0, media_type := MediaType.Video, packet_type := PacketType.Video,
    bitstream_format := BitstreamFormat.Other 0, payload := [tag] }

/-- An ID3v2 data packet that is correlated with video. -/
def data_packet : MediaPacket :=
  { track_id := 2, media_type := MediaType.Data, packet_type := PacketType.VIDEO_EVENT,
    bitstream_format := BitstreamFormat.ID3v2, payload := [100] }

/-- The example stream after `Start`, before the first frame that follows it:
the pre-roll buffer holds the data packet and then a video packet. -/
def buffered_stream : LLHlsStream :=
  { stream with initial_media_packet_buffer := [data_packet, video_packet 1] }

/-- A dump of the playlist `abr.m3u8` whose writes all succeed. -/
def dump : Dump :=
  { id := "dump", info_file_url := "", output_path := "/dumps", playlists := ["abr.m3u8"],
    enabled := true, first_segment_number := [], written := [],
    DumpDataResult := fun _ _ _ => true }

/-- The example stream after `Start` and before readiness, with one dump. -/
def pending_stream : LLHlsStream :=
  { stream with playlist_ready := false, dumps := [("dump", dump)] }

/-- A chunklist of the audio track. -/
def audio_chunklist : LLHlsChunklist :=
  { url := "chunklist_1_audio_key_llhls.m3u8", track := audio_track, max_segments := 5,
    target_duration := 2, part_target := 1 / 2, map_uri := "init_1_audio_key_llhls.m4s",
    calls := [], last_sequence_number := some (3, 1) }

/-- The example stream with a storage and a chunklist for each of its two
tracks; no chunklist has received a call. -/
def two_track_stream : LLHlsStream :=
  { stream with
    storage_map := [(0, storage), (1, storage)],
    chunklist_map := [(0, chunklist), (1, audio_chunklist)] }

/-- A request for a dump to a disk that takes three files. -/
def small_disk_info : DumpInfo :=
  { id := "small", info_file_url := "", output_path := "/small", playlists := ["abr.m3u8"],
    enabled := true, DumpDataResult := fun written _ _ => decide (written.length < 3) }

/-- A storage that holds the segments 2 and 3. -/
def later_storage : FMP4Storage :=
  { storage with
    last_segment_number := 3,
    GetMediaSegment := fun segment_number =>
      if segment_number = 2 ∨ segment_number = 3 then some { segment with number := segment_number }
      else none }

/-- A ready stream with one registered, enabled dump to the disk that takes
three files; no chunklist has received a call. -/
def dumping_stream : LLHlsStream :=
  { stream with
    storage_map := [(0, later_storage)],
    dumps := [("small", (Dump.ofInfo small_disk_info).SetEnabled true)] }

/-- A dump to a full disk: every write fails. -/
def full_disk_dump : Dump :=
  { dump with id := "full", output_path := "/full", DumpDataResult := fun _ _ _ => false }

/-- The example stream with the dump to the full disk registered and enabled. -/
def full_disk_stream : LLHlsStream :=
  { stream with dumps := [("full", full_disk_dump)] }

/-- The example stream as `Start` finds it: state `CREATED`, no storage, no
packager, no chunklist, no stream key. -/
def new_stream : LLHlsStream :=
  { created_stream with
    stream_key := "", storage_map := [], packager_map := [], chunklist_map := [] }

/-- An environment in which the initialization segment of an AAC track cannot
be created. -/
def audio_fails_env : Env :=
  { env with
    CreateInitializationSegment := fun track _ => decide (track.codec_id ≠ MediaCodecId.Aac) }

/-- An application without dumps. -/
def application : Application :=
  { vhost_name := "default",
    config :=
      { chunk_duration := 1 / 2, segment_duration := 6, segment_count := 10,
        part_hold_back := 3 / 2, dumps := [] } }

/-- An ID3v2 data packet that is correlated with audio. -/
def audio_data_packet : MediaPacket :=
  { track_id := 2, media_type := MediaType.Data, packet_type := PacketType.AUDIO_EVENT,
    bitstream_format := BitstreamFormat.ID3v2, payload := [101] }

/-- The example stream after `Start`, before the first frame that follows it:
the pre-roll buffer holds the data packet that is correlated with audio. -/
def audio_buffered_stream : LLHlsStream :=
  { stream with initial_media_packet_buffer := [audio_data_packet] }

/-- A request for a dump with the id of the registered dump. -/
def same_id_info : DumpInfo :=
  { id := "dump", info_file_url := "http://info/other.xml", output_path := "/again",
    playlists := [], enabled := true, DumpDataResult := fun _ _ _ => true }

/-- A request for a second dump: another id, and no info file, like the
registered dump. -/
def other_info : DumpInfo :=
  { id := "other", info_file_url := "", output_path := "/other", playlists := [],
    enabled := true, DumpDataResult := fun _ _ _ => true }

end Example

/-! ## Notions used in the properties -/

namespace LLHlsStream

/-- What `GetChunklist` returns when it renders the chunklist. -/
def GetChunklist.rendered (env : Env) (s : LLHlsStream) (chunklist : LLHlsChunklist)
    (query_string : String) (skip : Bool) (gzip : Bool) (legacy : Bool) : Data :=
  if gzip = true then env.ChunklistToGzipData chunklist query_string s.chunklist_map skip legacy
  else env.ToData (env.ChunklistToString chunklist query_string s.chunklist_map skip legacy none)

/-- The lower-cased media-type name of a track, `<type>` in the artifact
names. -/
def LowerCasedTypeName (env : Env) (track : MediaTrack) : String :=
  env.LowerCaseString (env.StringFromMediaType track.media_type)

/-- What `GetMasterPlaylist` returns when it renders a master playlist. -/
def GetMasterPlaylist.rendered (env : Env) (master_playlist : LLHlsMasterPlaylist)
    (chunk_query_string : String) (gzip : Bool) (legacy : Bool) ( include_path : Bool) : Data :=
  if gzip = true then env.MasterPlaylistToGzipData master_playlist chunk_query_string legacy
  else env.ToData
    (env.MasterPlaylistToString master_playlist chunk_query_string legacy include_path)

/-- No entry of the master-playlist cache holds a null pointer. Every entry is
written by `_master_playlists[file_name] = master_playlist` with the result of
`CreateMasterPlaylist`, which is never null. -/
def CacheHoldsPlaylists (s : LLHlsStream) : Prop :=
  ∀ file_name : String, s.master_playlists.find file_name ≠ some none

/-- The stream `after` differs from `before` in the dumps and in the
master-playlist cache at most. -/
def DumpsAndCacheOnly (before after : LLHlsStream) : Prop :=
  ∃ (dumps : OrdMap String Dump) (cache : OrdMap String (Option LLHlsMasterPlaylist)),
    after = { before with dumps := dumps, master_playlists := cache }

/-- Every chunklist of the stream was built for a track of the stream, as
`OnFMp4StorageInitialized` builds it: `GetTrack` finds the id of its track. -/
def ChunklistTracksExist (s : LLHlsStream) : Prop :=
  ∀ entry ∈ s.chunklist_map, ∃ found, s.GetTrack entry.2.track.id = some found

/-- The bound on the iterations and nested calls that draining a pre-roll
buffer takes at most. -/
def DrainBound (s : LLHlsStream) : Nat := 2 * s.initial_media_packet_buffer.Size + 2

/-- The stream `after` differs from `before` in the pre-roll buffer and in
the packagers at most. -/
def BufferAndPackagersOnly (before after : LLHlsStream) : Prop :=
  ∃ (buffer : Queue MediaPacket) (packagers : OrdMap Int FMP4Packager),
    after = { before with initial_media_packet_buffer := buffer, packager_map := packagers }

/-- The largest `max_chunk_duration_ms` that a storage of the map reports; 0
for an empty map. -/
def LargestMaxChunkDuration (storages : OrdMap Int FMP4Storage) : Nat :=
  storages.foldr (fun entry largest => max entry.2.max_chunk_duration_ms largest) 0

/-- The part hold back of the readiness transition as the spec gives it:
`max(configured_part_hold_back, 3 × M / 1000)`. -/
def SpecPartHoldBack (configured_part_hold_back : ℚ) (M : Nat) : ℚ :=
  max configured_part_hold_back (3 * (M : ℚ) / 1000)

/-- A rendition contains no unsupported codec: its resolved video track is
absent or H.264 and its resolved audio track is absent or AAC. -/
def NoUnsupportedCodec (s : LLHlsStream) (rendition : Rendition) : Prop :=
  (∀ track, s.GetTrackByName rendition.video_track_name = some track →
    track.codec_id = MediaCodecId.H264) ∧
  (∀ track, s.GetTrackByName rendition.audio_track_name = some track →
    track.codec_id = MediaCodecId.Aac)

instance (s : LLHlsStream) (rendition : Rendition) : Decidable (NoUnsupportedCodec s rendition) := by
  unfold NoUnsupportedCodec
  cases s.GetTrackByName rendition.video_track_name <;>
    cases s.GetTrackByName rendition.audio_track_name <;>
      simp only [Option.some.injEq, forall_eq', reduceCtorEq, false_implies, implies_true] <;>
        infer_instance

/-- The chunklist name of a resolved track, and the empty string for an absent
track. -/
def ChunklistNameOf (env : Env) (s : LLHlsStream) (track : Option MediaTrack) : String :=
  match track with
  | none => ""
  | some track => (s.GetChunklistName env track.id).getD ""

/-- The stream-inf entry of a rendition: its resolved tracks with their own
chunklist names. -/
def StreamInfOf (env : Env) (s : LLHlsStream) (rendition : Rendition) :
    Option MediaTrack × String × Option MediaTrack × String :=
  (s.GetTrackByName rendition.video_track_name,
    ChunklistNameOf env s (s.GetTrackByName rendition.video_track_name),
    s.GetTrackByName rendition.audio_track_name,
    ChunklistNameOf env s (s.GetTrackByName rendition.audio_track_name))

/-- The media type of the tracks that a data packet is correlated with. -/
def TargetMediaType (media_packet : MediaPacket) : MediaType :=
  if media_packet.packet_type = PacketType.VIDEO_EVENT then MediaType.Video else MediaType.Audio

/-- The stream has a track with the given id and media type. -/
def HasTrackOfType (s : LLHlsStream) (track_id : Int) (media_type : MediaType) : Prop :=
  ∃ track ∈ s.tracks, track.id = track_id ∧ track.media_type = media_type

/-- The stream `after` differs from `before` in the chunklists at most. -/
def ChunklistsOnly (before after : LLHlsStream) : Prop :=
  ∃ chunklists : OrdMap Int LLHlsChunklist, after = { before with chunklist_map := chunklists }

/-- The dump `after` differs from `before` in the first segment numbers and in
the log of written files at most. -/
def DumpLogsOnly (before after : Dump) : Prop :=
  ∃ (first : OrdMap Int Int) (written : List (String × Data)),
    after = { before with first_segment_number := first, written := written }

/-- How `DumpSegmentOfAllItems` treats one registered dump: a disabled dump is
left as it was; an enabled dump is handed to `DumpSegment` (on the stream as it
is at that moment, which differs from the stream at the start in the chunklists
at most) and is enabled afterwards exactly when that call returned true. -/
def SegmentDumpOutcome (env : Env) (s : LLHlsStream) (track_id : Int) (segment_number : Int)
    (before after : String × Dump) : Prop :=
  after.1 = before.1 ∧
  (before.2.enabled = false → after.2 = before.2) ∧
  (before.2.enabled = true →
    ∃ (at_call : LLHlsStream) (result : Bool) (dumped : Dump) (s1 : LLHlsStream),
      ChunklistsOnly s at_call ∧
      at_call.DumpSegment env before.2 track_id segment_number = some (result, dumped, s1) ∧
      after.2.enabled = result ∧
      after.2.first_segment_number = dumped.first_segment_number ∧
      after.2.written = dumped.written)

/-- A registered dump makes `StartDump` refuse a request: it has the id of the
request, or it has an info file and the request names the same info file. -/
def RefusesDump (registered : Dump) (info : DumpInfo) : Prop :=
  registered.id = info.id ∨
  (registered.info_file_url.isEmpty = false ∧ registered.info_file_url = info.info_file_url)

/-- Every dump is registered under its id, as `_dumps.emplace(dump->GetId(),
dump)` registers it. -/
def DumpsUnderTheirIds (s : LLHlsStream) : Prop :=
  ∀ entry ∈ s.dumps, entry.1 = entry.2.id

/-- Modelled from the spec: `SaveOldSegmentInfo(true)` makes the chunklist
retain the info of old segments until `SaveOldSegmentInfo(false)`. Whether the
chunklist retains it: the argument of the last `SaveOldSegmentInfo` call it
received, and false when it received none. -/
def RetainsOldSegmentInfo (chunklist : LLHlsChunklist) : Bool :=
  chunklist.calls.foldl
    (fun retained c =>
      match c with
      | ChunklistCall.SaveOldSegmentInfo enable => enable
      | _ => retained)
    false

/-- What the retention property looks at: the enabled flag of every registered
dump and the retention of every chunklist. -/
def RetentionView (s : LLHlsStream) : List (String × Bool) × List (Int × Bool) :=
  (s.dumps.map (fun entry => (entry.1, entry.2.enabled)),
    s.chunklist_map.map (fun entry => (entry.1, RetainsOldSegmentInfo entry.2)))

/-- The `DumpSegment` calls that one dump receives for one track over time, each
on the stream as it is at that call, with the policy of the callers: after a
call that returns false the dump is disabled (`DumpSegmentOfAllItems`; in
`StartDump` the dump is dropped). The dump after the calls. -/
def DumpSegment.calls (env : Env) (track_id : Int) :
    List (LLHlsStream × Int) → Dump → Option Dump
  | [], item => some item
  | (s, segment_number) :: rest, item =>
    match s.DumpSegment env item track_id segment_number with
    | none => none
    | some (true, item1, _) => calls env track_id rest item1
    | some (false, item1, _) => calls env track_id rest (item1.SetEnabled false)

/-- The segment numbers of the calls of `DumpSegment.calls` that wrote to the
dump, in the order of the calls. The segment is the first file a call writes,
so a call wrote the bytes of its segment exactly when the log of written files
has grown. -/
def DumpSegment.written_numbers (env : Env) (track_id : Int) :
    List (LLHlsStream × Int) → Dump → List Int
  | [], _ => []
  | (s, segment_number) :: rest, item =>
    match s.DumpSegment env item track_id segment_number with
    | none => []
    | some (result, item1, _) =>
      let next := if result = true then item1 else item1.SetEnabled false
      if item.written.length < item1.written.length then
        segment_number :: written_numbers env track_id rest next
      else
        written_numbers env track_id rest next

/-- The codec of the track is one that `Start` packages: H.264 or AAC. -/
def SupportedCodec (track : MediaTrack) : Prop :=
  track.codec_id = MediaCodecId.H264 ∨ track.codec_id = MediaCodecId.Aac

instance (track : MediaTrack) : Decidable (SupportedCodec track) := by
  unfold SupportedCodec
  infer_instance

/-- The first track, in key order, that has a supported codec and the media
type. -/
def FirstSupportedTrack (tracks : List MediaTrack) (media_type : MediaType) :
    Option MediaTrack :=
  tracks.find? (fun track => SupportedCodec track ∧ track.media_type = media_type)

/-- A track that is already selected, or else the later one. -/
def SelectedOr (selected later : Option MediaTrack) : Option MediaTrack :=
  match selected with
  | some track => some track
  | none => later

/-- The initialization segment can be created for every track with a supported
codec. -/
def AllPackaged (env : Env) (data_track : Option MediaTrack) (tracks : List MediaTrack) : Prop :=
  ∀ track ∈ tracks, SupportedCodec track →
    env.CreateInitializationSegment track data_track = true

/-- The stream `after` differs from `before` in the storages and the packagers
at most. -/
def StoragesAndPackagersOnly (before after : LLHlsStream) : Prop :=
  ∃ (storages : OrdMap Int FMP4Storage) (packagers : OrdMap Int FMP4Packager),
    after = { before with storage_map := storages, packager_map := packagers }

end LLHlsStream

/-! # Properties -/

/-! ## Lemmas on maps and on the master playlist -/

namespace OrdMap

variable {κ α : Type}

theorem find_assign_self [DecidableEq κ] [LT κ] [DecidableRel (fun (a b : κ) => a < b)]
    (m : OrdMap κ α) (k : κ) (v : α) : (m.assign k v).find k = some v := by
  induction m with
  | nil => simp [assign, find]
  | cons entry rest ih =>
    obtain ⟨k', v'⟩ := entry
    by_cases h1 : k' = k
    · simp [assign, find, h1]
    · by_cases h2 : k < k'
      · simp [assign, find, h1, h2]
      · simp only [assign, h1, h2, if_false, find]
        exact ih

theorem find_assign_other [DecidableEq κ] [LT κ] [DecidableRel (fun (a b : κ) => a < b)]
    (m : OrdMap κ α) (k k0 : κ) (v : α) (hne : k0 ≠ k) :
    (m.assign k v).find k0 = m.find k0 := by
  induction m with
  | nil => simp [assign, find, Ne.symm hne]
  | cons entry rest ih =>
    obtain ⟨k', v'⟩ := entry
    by_cases h1 : k' = k
    · have h3 : ¬ k' = k0 := fun h => hne (h.symm.trans h1)
      simp [assign, find, h1, h3, Ne.symm hne]
    · by_cases h2 : k < k'
      · simp [assign, find, h1, h2, Ne.symm hne]
      · simp only [assign, h1, h2, if_false, find]
        rw [ih]

theorem find_update [DecidableEq κ] (m : OrdMap κ α) (k k0 : κ) (v : α) :
    (m.update k v).find k0 = if k0 = k then (m.find k).map (fun _ => v) else m.find k0 := by
  induction m with
  | nil => simp [update, find]
  | cons entry rest ih =>
    obtain ⟨k', v'⟩ := entry
    by_cases h1 : k' = k
    · subst h1
      by_cases h2 : k0 = k'
      · subst h2
        simp [update, find]
      · simp [update, find, h2, Ne.symm h2]
    · simp only [update, h1, if_false, find]
      by_cases h2 : k0 = k
      · subst h2
        simp only [h1, if_false, if_true] at ih ⊢
        exact ih
      · simp only [h2, if_false] at ih ⊢
        rw [ih]

end OrdMap

namespace LLHlsStream

theorem GetTrack_of_mem (s : LLHlsStream) (track : MediaTrack) (hmem : track ∈ s.tracks) :
    ∃ found, s.GetTrack track.id = some found := by
  unfold GetTrack
  cases hfind : s.tracks.find? (fun t => decide (t.id = track.id)) with
  | some found => exact ⟨found, rfl⟩
  | none =>
    rw [List.find?_eq_none] at hfind
    exact absurd (hfind track hmem) (by simp)

theorem GetChunklistName_of_track (env : Env) (s : LLHlsStream) (track_id : Int)
    (htrack : ∃ found, s.GetTrack track_id = some found) :
    ∃ chunklist_name, s.GetChunklistName env track_id = some chunklist_name := by
  obtain ⟨found, hfound⟩ := htrack
  simp [GetChunklistName, MediaTypeName, hfound]

theorem CreateMasterPlaylist.candidates_total (env : Env) (s : LLHlsStream)
    (entries : OrdMap Int MediaTrack)
    (hentries : ∀ entry ∈ entries, ∃ found, s.GetTrack entry.1 = some found)
    (master_playlist : LLHlsMasterPlaylist) :
    ∃ result, CreateMasterPlaylist.candidates env s entries master_playlist = some result ∧
      result.chunk_path = master_playlist.chunk_path := by
  induction entries generalizing master_playlist with
  | nil => exact ⟨master_playlist, rfl, rfl⟩
  | cons entry rest ih =>
    obtain ⟨track_id, track⟩ := entry
    have hrest : ∀ entry ∈ rest, ∃ found, s.GetTrack entry.1 = some found :=
      fun entry hmem => hentries entry (List.mem_cons_of_mem _ hmem)
    obtain ⟨chunklist_name, hname⟩ :=
      GetChunklistName_of_track env s track_id (hentries (track_id, track) (List.mem_cons_self _ _))
    unfold CreateMasterPlaylist.candidates
    split
    · exact ih hrest master_playlist
    · rw [hname]
      obtain ⟨result, hresult, hpath⟩ := ih hrest
        { master_playlist with
          media_candidates :=
            master_playlist.media_candidates
              ++ [(FormatDecimal track_id, track, chunklist_name)] }
      exact ⟨result, hresult, hpath⟩

theorem GetChunklistName_of_name (env : Env) (s : LLHlsStream) (name : String)
    (track : MediaTrack) (hfound : s.GetTrackByName name = some track) :
    ∃ chunklist_name, s.GetChunklistName env track.id = some chunklist_name :=
  GetChunklistName_of_track env s track.id
    (GetTrack_of_mem s track (List.mem_of_find?_eq_some hfound))

theorem CreateMasterPlaylist.renditions_total (env : Env) (s : LLHlsStream)
    (renditions : List Rendition) (master_playlist : LLHlsMasterPlaylist) :
    ∃ result, CreateMasterPlaylist.renditions env s renditions master_playlist = some result ∧
      result.chunk_path = master_playlist.chunk_path := by
  induction renditions generalizing master_playlist with
  | nil => exact ⟨master_playlist, rfl, rfl⟩
  | cons rendition rest ih =>
    unfold CreateMasterPlaylist.renditions
    have hvideo : ∃ video_name,
        (match s.GetTrackByName rendition.video_track_name with
          | some track => s.GetChunklistName env track.id
          | none => some "") = some video_name := by
      cases hv : s.GetTrackByName rendition.video_track_name with
      | none => exact ⟨"", rfl⟩
      | some track => exact GetChunklistName_of_name env s _ track hv
    have haudio : ∃ audio_name,
        (match s.GetTrackByName rendition.audio_track_name with
          | some track => s.GetChunklistName env track.id
          | none => some "") = some audio_name := by
      cases ha : s.GetTrackByName rendition.audio_track_name with
      | none => exact ⟨"", rfl⟩
      | some track => exact GetChunklistName_of_name env s _ track ha
    obtain ⟨video_name, hvideo⟩ := hvideo
    obtain ⟨audio_name, haudio⟩ := haudio
    simp only [hvideo, haudio]
    split
    · exact ih master_playlist
    · obtain ⟨result, hresult, hpath⟩ := ih
        { master_playlist with
          stream_infs :=
            master_playlist.stream_infs
              ++ [(s.GetTrackByName rendition.video_track_name, video_name,
                    s.GetTrackByName rendition.audio_track_name, audio_name)] }
      exact ⟨result, hresult, hpath⟩

/-- `CreateMasterPlaylist` always returns a master playlist, whose chunk path
is the one selected from the path depth of the playlist. -/
theorem CreateMasterPlaylist_total (env : Env) (s : LLHlsStream) (playlist : Playlist) :
    ∃ master_playlist, s.CreateMasterPlaylist env playlist = some master_playlist ∧
      master_playlist.chunk_path = CreateMasterPlaylist.chunk_path s playlist := by
  have hentries : ∀ entry ∈ s.GetTracks, ∃ found, s.GetTrack entry.1 = some found := by
    intro entry hmem
    simp only [GetTracks, List.mem_map] at hmem
    obtain ⟨track, htrack, rfl⟩ := hmem
    exact GetTrack_of_mem s track htrack
  obtain ⟨first, hfirst, hpath1⟩ := CreateMasterPlaylist.candidates_total env s s.GetTracks
    hentries
    { chunk_path := CreateMasterPlaylist.chunk_path s playlist,
      media_candidates := [], stream_infs := [] }
  obtain ⟨second, hsecond, hpath2⟩ :=
    CreateMasterPlaylist.renditions_total env s playlist.renditions first
  refine ⟨second, ?_, ?_⟩
  · simp only [CreateMasterPlaylist, hfirst, hsecond]
  · rw [hpath2, hpath1]

end LLHlsStream

/-! ## Blocking reload of the chunklist -/

namespace LLHlsStream

/-- C1: for a track that has a chunklist writer, `GetChunklist` answers
`Accepted` without data while the stream is not ready; on a ready stream, for
`msn ≥ 0` and `psn ≥ 0` and a chunklist that reports `(last_msn, last_psn)`, it
answers `Accepted` exactly when `(msn, psn)` is lexicographically greater than
`(last_msn, last_psn)` and otherwise `Success` with the rendered chunklist; a
request for `(last_msn + 1, 0)` is answered `Accepted`. -/
theorem GetChunklist_blocking_reload (env : Env) (s : LLHlsStream) (query_string : String)
    (track_id : Int) (chunklist : LLHlsChunklist) (skip gzip legacy : Bool)
    (hwriter : s.GetChunklistWriter track_id = some chunklist) :
    (s.IsReadyToPlay = false → ∀ msn psn : Int,
      s.GetChunklist env query_string track_id msn psn skip gzip legacy
        = (RequestResult.Accepted, none)) ∧
    (s.IsReadyToPlay = true → ∀ last_msn last_psn : Int,
      chunklist.last_sequence_number = some (last_msn, last_psn) →
      (∀ msn psn : Int, 0 ≤ msn → 0 ≤ psn →
        (((s.GetChunklist env query_string track_id msn psn skip gzip legacy).1
            = RequestResult.Accepted ↔
          (last_msn < msn ∨ (msn = last_msn ∧ last_psn < psn))) ∧
        ((last_msn < msn ∨ (msn = last_msn ∧ last_psn < psn)) →
          s.GetChunklist env query_string track_id msn psn skip gzip legacy
            = (RequestResult.Accepted, none)) ∧
        (¬ (last_msn < msn ∨ (msn = last_msn ∧ last_psn < psn)) →
          s.GetChunklist env query_string track_id msn psn skip gzip legacy
            = (RequestResult.Success,
                some (GetChunklist.rendered env s chunklist query_string skip gzip legacy))))) ∧
      (0 ≤ last_msn + 1 →
        s.GetChunklist env query_string track_id (last_msn + 1) 0 skip gzip legacy
          = (RequestResult.Accepted, none))) := by
  have hheld : ∀ (last_msn last_psn msn psn : Int),
      (msn > last_msn ∨ (msn ≥ last_msn ∧ psn > last_psn)) ↔
        (last_msn < msn ∨ (msn = last_msn ∧ last_psn < psn)) := by
    intro last_msn last_psn msn psn
    constructor
    · rintro (h | ⟨h1, h2⟩)
      · exact Or.inl h
      · rcases lt_or_eq_of_le h1 with h | h
        · exact Or.inl h
        · exact Or.inr ⟨h.symm, h2⟩
    · rintro (h | ⟨h1, h2⟩)
      · exact Or.inl h
      · exact Or.inr ⟨le_of_eq h1.symm, h2⟩
  refine ⟨?_, ?_⟩
  · intro hready msn psn
    simp [GetChunklist, hwriter, hready]
  · intro hready last_msn last_psn hlast
    have key : ∀ msn psn : Int, 0 ≤ msn → 0 ≤ psn →
        s.GetChunklist env query_string track_id msn psn skip gzip legacy =
          if last_msn < msn ∨ (msn = last_msn ∧ last_psn < psn) then
            (RequestResult.Accepted, none)
          else
            (RequestResult.Success,
              some (GetChunklist.rendered env s chunklist query_string skip gzip legacy)) := by
      intro msn psn hmsn hpsn
      have hdec := hheld last_msn last_psn msn psn
      by_cases hlex : last_msn < msn ∨ (msn = last_msn ∧ last_psn < psn)
      · have hcode := hdec.mpr hlex
        simp only [GetChunklist, hwriter, hready, hlast, ge_iff_le, hmsn, hpsn, and_self,
          if_true, hlex, if_pos]
        simp [hcode]
      · have hcode : ¬ (msn > last_msn ∨ (msn ≥ last_msn ∧ psn > last_psn)) :=
          fun h => hlex (hdec.mp h)
        simp only [GetChunklist, hwriter, hready, hlast, ge_iff_le, hmsn, hpsn, and_self,
          if_true, hlex, if_neg, not_false_eq_true]
        simp only [GetChunklist.rendered, hcode, decide_False]
        cases gzip <;> rfl
    refine ⟨?_, ?_⟩
    · intro msn psn hmsn hpsn
      rw [key msn psn hmsn hpsn]
      by_cases hlex : last_msn < msn ∨ (msn = last_msn ∧ last_psn < psn)
      · simp [hlex]
      · simp [hlex]
    · intro hnext
      rw [key (last_msn + 1) 0 hnext (le_refl 0)]
      simp

/-- C1, at the example stream: the chunklist of track 0 reports `(3, 1)`; a
request for `(4, 0)` is held and a request for `(3, 1)` is rendered. -/
theorem GetChunklist_blocking_reload_witness :
    Example.stream.GetChunklistWriter 0 = some Example.chunklist ∧
    Example.stream.GetChunklist Example.env "" 0 4 0 false false false
      = (RequestResult.Accepted, none) ∧
    (Example.stream.GetChunklist Example.env "" 0 3 1 false false false).1
      = RequestResult.Success :=
  ⟨rfl,
    ((GetChunklist_blocking_reload Example.env Example.stream "" 0 Example.chunklist
      false false false rfl).2 rfl 3 1 rfl).2 (by decide),
    by decide⟩

end LLHlsStream

/-! ## Block and preload discipline of the chunks -/

namespace LLHlsStream

/-- C2: for a track that has a storage, with `(last_segment, last_chunk)` the
pair `GetLastChunkNumber` reports, `GetChunk(track, n, k)` answers `Accepted`
when `n = last_segment` and `k > last_chunk`, `NotFound` when
`n > last_segment`, and in every other case `Success` with the bytes of the
chunk if the storage holds chunk `(n, k)` and `NotFound` if it does not; a
`Success` always carries the bytes of a chunk the storage holds, at a position
not beyond `(last_segment, last_chunk)`. -/
theorem GetChunk_block_preload (s : LLHlsStream) (track_id : Int) (storage : FMP4Storage)
    (n k : Int) (hstorage : s.GetStorage track_id = some storage) :
    ((n = storage.last_chunk_number.1 ∧ storage.last_chunk_number.2 < k) →
      s.GetChunk track_id n k = (RequestResult.Accepted, none)) ∧
    (storage.last_chunk_number.1 < n →
      s.GetChunk track_id n k = (RequestResult.NotFound, none)) ∧
    (¬ (n = storage.last_chunk_number.1 ∧ storage.last_chunk_number.2 < k) →
      ¬ storage.last_chunk_number.1 < n →
      (∀ chunk, storage.GetMediaChunk n k = some chunk →
        s.GetChunk track_id n k = (RequestResult.Success, some chunk.data)) ∧
      (storage.GetMediaChunk n k = none →
        s.GetChunk track_id n k = (RequestResult.NotFound, none))) ∧
    ((s.GetChunk track_id n k).1 = RequestResult.Success →
      (∃ chunk, storage.GetMediaChunk n k = some chunk ∧
        (s.GetChunk track_id n k).2 = some chunk.data) ∧
      (n < storage.last_chunk_number.1 ∨
        (n = storage.last_chunk_number.1 ∧ k ≤ storage.last_chunk_number.2))) := by
  rcases hlast : storage.last_chunk_number with ⟨last_segment, last_chunk⟩
  simp only
  by_cases hhold : n = last_segment ∧ last_chunk < k
  · have hcode : s.GetChunk track_id n k = (RequestResult.Accepted, none) := by
      simp [GetChunk, hstorage, hlast, hhold]
    refine ⟨fun _ => hcode, ?_, ?_, ?_⟩
    · intro hgt
      exact absurd hhold.1 (ne_of_gt hgt)
    · intro hno
      exact absurd hhold hno
    · intro hsuccess
      rw [hcode] at hsuccess
      exact absurd hsuccess (by decide)
  · by_cases hgt : last_segment < n
    · have hcode : s.GetChunk track_id n k = (RequestResult.NotFound, none) := by
        simp only [GetChunk, hstorage, hlast, gt_iff_lt, hhold, if_false, hgt, if_true]
      refine ⟨fun h => absurd h hhold, fun _ => hcode, ?_, ?_⟩
      · intro _ hno
        exact absurd hgt hno
      · intro hsuccess
        rw [hcode] at hsuccess
        exact absurd hsuccess (by decide)
    · have hcode : s.GetChunk track_id n k =
          match storage.GetMediaChunk n k with
          | none => (RequestResult.NotFound, none)
          | some chunk => (RequestResult.Success, some chunk.data) := by
        simp only [GetChunk, hstorage, hlast, gt_iff_lt, hhold, if_false, hgt]
      have hpos : n < last_segment ∨ (n = last_segment ∧ k ≤ last_chunk) := by
        rcases lt_or_eq_of_le (not_lt.mp hgt) with h | h
        · exact Or.inl h
        · refine Or.inr ⟨h, ?_⟩
          exact not_lt.mp (fun hk => hhold ⟨h, hk⟩)
      refine ⟨fun h => absurd h hhold, fun h => absurd h hgt, ?_, ?_⟩
      · intro _ _
        refine ⟨?_, ?_⟩
        · intro chunk hchunk
          rw [hcode, hchunk]
        · intro hnone
          rw [hcode, hnone]
      · intro hsuccess
        rw [hcode] at hsuccess ⊢
        cases hchunk : storage.GetMediaChunk n k with
        | none =>
          rw [hchunk] at hsuccess
          exact absurd hsuccess (by decide)
        | some chunk => exact ⟨⟨chunk, rfl, rfl⟩, hpos⟩

/-- C2, at the example stream: the storage of track 0 reports `(3, 1)` and
holds chunk `(3, 1)`; chunk `(3, 2)` is not produced yet. -/
theorem GetChunk_block_preload_witness :
    Example.stream.GetStorage 0 = some Example.storage ∧
    Example.stream.GetChunk 0 3 2 = (RequestResult.Accepted, none) ∧
    Example.stream.GetChunk 0 3 1 = (RequestResult.Success, some [7, 9]) :=
  ⟨rfl,
    (GetChunk_block_preload Example.stream 0 Example.storage 3 2 rfl).1 (by decide),
    by decide⟩

end LLHlsStream

/-! ## Lemmas on the dumps -/

namespace LLHlsStream

theorem DumpsAndCacheOnly.refl_dumps (s : LLHlsStream) : DumpsAndCacheOnly s s :=
  ⟨s.dumps, s.master_playlists, rfl⟩

theorem DumpsAndCacheOnly.trans_dumps {a b c : LLHlsStream} (hab : DumpsAndCacheOnly a b)
    (hbc : DumpsAndCacheOnly b c) : DumpsAndCacheOnly a c := by
  obtain ⟨dumps1, cache1, rfl⟩ := hab
  obtain ⟨dumps2, cache2, rfl⟩ := hbc
  exact ⟨dumps2, cache2, rfl⟩

/-- `GetMasterPlaylist` always returns, and writes the cache only. -/
theorem GetMasterPlaylist_total (env : Env) (s : LLHlsStream) (file_name : String)
    (chunk_query_string : String) (gzip legacy include_path : Bool) :
    ∃ result after,
      s.GetMasterPlaylist env file_name chunk_query_string gzip legacy include_path
        = some (result, after) ∧ DumpsAndCacheOnly s after := by
  unfold GetMasterPlaylist
  split
  · exact ⟨_, _, rfl, DumpsAndCacheOnly.refl_dumps s⟩
  · split
    · exact ⟨_, _, rfl, DumpsAndCacheOnly.refl_dumps s⟩
    · cases hfind : s.master_playlists.find file_name with
      | some cached =>
        dsimp only
        exact ⟨_, _, rfl, DumpsAndCacheOnly.refl_dumps s⟩
      | none =>
        dsimp only
        cases hplaylist : s.GetPlaylist (env.SubstringToLastDot file_name) with
        | none =>
          dsimp only
          exact ⟨_, _, rfl, DumpsAndCacheOnly.refl_dumps s⟩
        | some playlist =>
          obtain ⟨master_playlist, hcreate, _⟩ := CreateMasterPlaylist_total env s playlist
          simp only [hcreate]
          exact ⟨_, _, rfl, s.dumps, _, rfl⟩

theorem DumpMasterPlaylist.playlists_total (env : Env) (playlists : List String) :
    ∀ (item : Dump) (s : LLHlsStream),
      ∃ result item1 after,
        DumpMasterPlaylist.playlists env playlists item s = some (result, item1, after) ∧
          DumpsAndCacheOnly s after ∧ item1.enabled = item.enabled := by
  induction playlists with
  | nil =>
    intro item s
    exact ⟨true, item, s, rfl, DumpsAndCacheOnly.refl_dumps s, rfl⟩
  | cons playlist rest ih =>
    intro item s
    obtain ⟨⟨result, data⟩, s1, hget, hframe⟩ :=
      GetMasterPlaylist_total env s playlist "" false false false
    unfold DumpMasterPlaylist.playlists
    simp only [hget]
    split
    · exact ⟨_, _, _, rfl, hframe, rfl⟩
    · have henabled : (DumpData item playlist (data.getD [])).2.enabled = item.enabled := by
        unfold DumpData Dump.DumpData
        split <;> rfl
      rcases hdump : DumpData item playlist (data.getD []) with ⟨written, item1⟩
      rw [hdump] at henabled
      cases written with
      | false => exact ⟨_, _, _, rfl, hframe, henabled⟩
      | true =>
        obtain ⟨result2, item2, after, hrest, hframe2, henabled2⟩ := ih item1 s1
        exact ⟨result2, item2, after, hrest, hframe.trans_dumps hframe2, henabled2.trans henabled⟩

theorem DumpMasterPlaylist_total (env : Env) (s : LLHlsStream) (item : Dump) :
    ∃ result item1 after,
      s.DumpMasterPlaylist env item = some (result, item1, after) ∧
        DumpsAndCacheOnly s after ∧ item1.enabled = item.enabled := by
  unfold DumpMasterPlaylist
  split
  · exact ⟨_, _, _, rfl, DumpsAndCacheOnly.refl_dumps s, rfl⟩
  · exact DumpMasterPlaylist.playlists_total env item.playlists item s

theorem DumpMasterPlaylistsOfAllItems.master_loop_total (env : Env) (dumps : OrdMap String Dump) :
    ∀ s : LLHlsStream,
      ∃ dumps1 after,
        DumpMasterPlaylistsOfAllItems.loop env dumps s = some (dumps1, after) ∧
          DumpsAndCacheOnly s after ∧
          dumps1.map (fun entry => (entry.1, entry.2.enabled))
            = dumps.map (fun entry => (entry.1, entry.2.enabled)) := by
  induction dumps with
  | nil =>
    intro s
    exact ⟨[], s, rfl, DumpsAndCacheOnly.refl_dumps s, rfl⟩
  | cons entry rest ih =>
    intro s
    obtain ⟨id, dump⟩ := entry
    unfold DumpMasterPlaylistsOfAllItems.loop
    split
    · obtain ⟨dumps1, after, hrest, hframe, hflags⟩ := ih s
      refine ⟨(id, dump) :: dumps1, after, ?_, hframe, ?_⟩
      · simp [hrest]
      · simp [hflags]
    · obtain ⟨result, dump1, s1, hdump, hframe1, henabled⟩ := DumpMasterPlaylist_total env s dump
      obtain ⟨dumps1, after, hrest, hframe, hflags⟩ := ih s1
      refine ⟨(id, dump1) :: dumps1, after, ?_, hframe1.trans_dumps hframe, ?_⟩
      · simp [hdump, hrest]
      · simp [hflags, henabled]

/-- `DumpMasterPlaylistsOfAllItems` always returns, writes the dumps and the
cache only, and changes no enabled flag. -/
theorem DumpMasterPlaylistsOfAllItems_total (env : Env) (s : LLHlsStream) :
    ∃ after, s.DumpMasterPlaylistsOfAllItems env = some after ∧ DumpsAndCacheOnly s after ∧
      after.dumps.map (fun entry => (entry.1, entry.2.enabled))
        = s.dumps.map (fun entry => (entry.1, entry.2.enabled)) := by
  obtain ⟨dumps1, after, hloop, ⟨dumps2, cache, rfl⟩, hflags⟩ :=
    DumpMasterPlaylistsOfAllItems.master_loop_total env s.dumps s
  refine ⟨_, ?_, ⟨dumps1, cache, rfl⟩, hflags⟩
  simp [DumpMasterPlaylistsOfAllItems, hloop]

theorem DumpInitSegment_total (env : Env) (s : LLHlsStream) (item : Dump) (track_id : Int)
    (htrack : ∃ found, s.GetTrack track_id = some found) :
    ∃ result item1, s.DumpInitSegment env item track_id = some (result, item1) := by
  obtain ⟨found, hfound⟩ := htrack
  unfold DumpInitSegment
  split
  · exact ⟨_, _, rfl⟩
  · split
    · simp only [GetIntializationSegmentName, MediaTypeName, hfound, Option.map_some']
      exact ⟨_, _, rfl⟩
    · exact ⟨_, _, rfl⟩

theorem DumpInitSegmentOfAllItems.init_loop_total (env : Env) (s : LLHlsStream) (track_id : Int)
    (htrack : ∃ found, s.GetTrack track_id = some found) (dumps : OrdMap String Dump) :
    ∃ dumps1, DumpInitSegmentOfAllItems.loop env s track_id dumps = some dumps1 := by
  induction dumps with
  | nil => exact ⟨[], rfl⟩
  | cons entry rest ih =>
    obtain ⟨id, dump⟩ := entry
    obtain ⟨dumps1, hrest⟩ := ih
    unfold DumpInitSegmentOfAllItems.loop
    split
    · simp [hrest]
    · obtain ⟨result, dump1, hdump⟩ := DumpInitSegment_total env s dump track_id htrack
      rw [hdump]
      cases result <;> simp [hrest]

/-- `DumpInitSegmentOfAllItems` returns for a track of the stream, and writes
the dumps only. -/
theorem DumpInitSegmentOfAllItems_total (env : Env) (s : LLHlsStream) (track_id : Int)
    (htrack : ∃ found, s.GetTrack track_id = some found) :
    ∃ dumps1, s.DumpInitSegmentOfAllItems env track_id = some { s with dumps := dumps1 } := by
  obtain ⟨dumps1, hloop⟩ := DumpInitSegmentOfAllItems.init_loop_total env s track_id htrack s.dumps
  exact ⟨dumps1, by simp [DumpInitSegmentOfAllItems, hloop]⟩

/-- Whenever `DumpInitSegmentOfAllItems` returns, it has written the dumps
only. -/
theorem DumpInitSegmentOfAllItems_frame (env : Env) (s after : LLHlsStream) (track_id : Int)
    (hreturn : s.DumpInitSegmentOfAllItems env track_id = some after) :
    ∃ dumps1, after = { s with dumps := dumps1 } := by
  unfold DumpInitSegmentOfAllItems at hreturn
  cases hloop : DumpInitSegmentOfAllItems.loop env s track_id s.dumps with
  | none => simp [hloop] at hreturn
  | some dumps1 =>
    simp only [hloop, Option.map_some', Option.some.injEq] at hreturn
    exact ⟨dumps1, hreturn.symm⟩

end LLHlsStream

/-! ## Gating of the master playlist -/

namespace LLHlsStream

/-- C3: `GetMasterPlaylist` answers `NotFound` whenever the state is not
`STARTED`, ready or not; `Accepted` when the state is `STARTED` and the stream
is not ready; and on a started, ready stream `Success` with the rendering of
the cached master playlist when the file name is cached, `Success` with the
rendering of a new master playlist, stored in the cache under the file name,
when the file name is not cached and names a declared playlist, and `NotFound`
with the cache unchanged otherwise. -/
theorem GetMasterPlaylist_gating (env : Env) (s : LLHlsStream) (file_name : String)
    (chunk_query_string : String) (gzip legacy include_path : Bool)
    (hcache : s.CacheHoldsPlaylists) :
    (s.GetState ≠ State.STARTED → ∀ ready : Bool, s.IsReadyToPlay = ready →
      s.GetMasterPlaylist env file_name chunk_query_string gzip legacy include_path
        = some ((RequestResult.NotFound, none), s)) ∧
    (s.GetState = State.STARTED → s.IsReadyToPlay = false →
      s.GetMasterPlaylist env file_name chunk_query_string gzip legacy include_path
        = some ((RequestResult.Accepted, none), s)) ∧
    (s.GetState = State.STARTED → s.IsReadyToPlay = true →
      (∀ cached, s.master_playlists.find file_name = some cached →
        ∃ master_playlist, cached = some master_playlist ∧
          s.GetMasterPlaylist env file_name chunk_query_string gzip legacy include_path
            = some ((RequestResult.Success,
                some (GetMasterPlaylist.rendered env master_playlist chunk_query_string gzip
                  legacy include_path)), s)) ∧
      (s.master_playlists.find file_name = none →
        (∀ playlist, s.GetPlaylist (env.SubstringToLastDot file_name) = some playlist →
          ∃ master_playlist, s.CreateMasterPlaylist env playlist = some master_playlist ∧
            s.GetMasterPlaylist env file_name chunk_query_string gzip legacy include_path
              = some ((RequestResult.Success,
                  some (GetMasterPlaylist.rendered env master_playlist chunk_query_string gzip
                    legacy include_path)),
                { s with
                  master_playlists :=
                    s.master_playlists.assign file_name (some master_playlist) }) ∧
            (s.master_playlists.assign file_name (some master_playlist)).find file_name
              = some (some master_playlist)) ∧
        (s.GetPlaylist (env.SubstringToLastDot file_name) = none →
          s.GetMasterPlaylist env file_name chunk_query_string gzip legacy include_path
            = some ((RequestResult.NotFound, none), s)))) := by
  refine ⟨?_, ?_, ?_⟩
  · intro hstate ready _
    simp [GetMasterPlaylist, hstate]
  · intro hstate hready
    simp [GetMasterPlaylist, hstate, hready]
  · intro hstate hready
    refine ⟨?_, fun hfind => ⟨?_, ?_⟩⟩
    · intro cached hfind
      cases cached with
      | none => exact absurd hfind (hcache file_name)
      | some master_playlist =>
        refine ⟨master_playlist, rfl, ?_⟩
        simp only [GetMasterPlaylist, hstate, hready, hfind, GetMasterPlaylist.rendered,
          GetMasterPlaylist.respond]
        cases gzip <;> simp
    · intro playlist hplaylist
      obtain ⟨master_playlist, hcreate, _⟩ := CreateMasterPlaylist_total env s playlist
      refine ⟨master_playlist, hcreate, ?_, OrdMap.find_assign_self _ _ _⟩
      simp only [GetMasterPlaylist, hstate, hready, hfind, hplaylist, hcreate,
        GetMasterPlaylist.rendered, GetMasterPlaylist.respond]
      cases gzip <;> simp
    · intro hplaylist
      simp [GetMasterPlaylist, hstate, hready, hfind, hplaylist]

/-- C3, at the example stream: the cache is empty and `abr.m3u8` names the
declared playlist `abr`, so the request succeeds and fills the cache. -/
theorem GetMasterPlaylist_gating_witness :
    Example.stream.CacheHoldsPlaylists ∧
    ∃ master_playlist,
      Example.stream.CreateMasterPlaylist Example.env Example.playlist = some master_playlist ∧
      Example.stream.GetMasterPlaylist Example.env "abr.m3u8" "" false false false
        = some ((RequestResult.Success,
            some (GetMasterPlaylist.rendered Example.env master_playlist "" false false false)),
          { Example.stream with
            master_playlists :=
              Example.stream.master_playlists.assign "abr.m3u8" (some master_playlist) }) ∧
      (Example.stream.master_playlists.assign "abr.m3u8" (some master_playlist)).find "abr.m3u8"
        = some (some master_playlist) :=
  ⟨fun _ => by simp [Example.stream, OrdMap.find],
    ((((GetMasterPlaylist_gating Example.env Example.stream "abr.m3u8" "" false false false
      (fun _ => by simp [Example.stream, OrdMap.find])).2.2 rfl rfl).2 rfl).1
        Example.playlist rfl)⟩

end LLHlsStream

/-! ## Artifact names -/

theorem FormatString_chunklist (tid : Int) (type key : String) :
    FormatString "chunklist_%d_%s_%s_llhls.m3u8"
        [FormatArg.int tid, FormatArg.str type, FormatArg.str key]
      = "chunklist_" ++ FormatDecimal tid ++ "_" ++ type ++ "_" ++ key ++ "_llhls.m3u8" := by
  apply String.ext
  simp only [FormatString, String.data_append]
  simp only [List.append_assoc]
  rfl

theorem FormatString_init (tid : Int) (type key : String) :
    FormatString "init_%d_%s_%s_llhls.m4s"
        [FormatArg.int tid, FormatArg.str type, FormatArg.str key]
      = "init_" ++ FormatDecimal tid ++ "_" ++ type ++ "_" ++ key ++ "_llhls.m4s" := by
  apply String.ext
  simp only [FormatString, String.data_append]
  simp only [List.append_assoc]
  rfl

theorem FormatString_seg (tid n : Int) (type key : String) :
    FormatString "seg_%d_%lld_%s_%s_llhls.m4s"
        [FormatArg.int tid, FormatArg.int n, FormatArg.str type, FormatArg.str key]
      = "seg_" ++ FormatDecimal tid ++ "_" ++ FormatDecimal n ++ "_" ++ type ++ "_" ++ key
          ++ "_llhls.m4s" := by
  apply String.ext
  simp only [FormatString, String.data_append]
  simp only [List.append_assoc]
  rfl

theorem FormatString_part (tid n k : Int) (type key : String) :
    FormatString "part_%d_%lld_%lld_%s_%s_llhls.m4s"
        [FormatArg.int tid, FormatArg.int n, FormatArg.int k, FormatArg.str type,
          FormatArg.str key]
      = "part_" ++ FormatDecimal tid ++ "_" ++ FormatDecimal n ++ "_" ++ FormatDecimal k ++ "_"
          ++ type ++ "_" ++ key ++ "_llhls.m4s" := by
  apply String.ext
  simp only [FormatString, String.data_append]
  simp only [List.append_assoc]
  rfl

namespace LLHlsStream

/-- C9: for an existing track id `tid` whose lower-cased media-type name is
`type`, with the numbers in decimal and `key` the stream key, the
initialization segment is named `init_<tid>_<type>_<key>_llhls.m4s`, segment
`n` is named `seg_<tid>_<n>_<type>_<key>_llhls.m4s`, chunk `k` of segment `n`
is named `part_<tid>_<n>_<k>_<type>_<key>_llhls.m4s` and the chunklist is named
`chunklist_<tid>_<type>_<key>_llhls.m3u8`; any other stream with the same key
and the same media type for `tid` gives the same names. -/
theorem artifact_names (env : Env) (s : LLHlsStream) (tid : Int) (track : MediaTrack)
    (n k : Int) (htrack : s.GetTrack tid = some track) :
    s.GetIntializationSegmentName env tid
      = some ("init_" ++ FormatDecimal tid ++ "_" ++ LowerCasedTypeName env track ++ "_"
          ++ s.GetStreamKey ++ "_llhls.m4s") ∧
    s.GetSegmentName env tid n
      = some ("seg_" ++ FormatDecimal tid ++ "_" ++ FormatDecimal n ++ "_"
          ++ LowerCasedTypeName env track ++ "_" ++ s.GetStreamKey ++ "_llhls.m4s") ∧
    s.GetPartialSegmentName env tid n k
      = some ("part_" ++ FormatDecimal tid ++ "_" ++ FormatDecimal n ++ "_" ++ FormatDecimal k
          ++ "_" ++ LowerCasedTypeName env track ++ "_" ++ s.GetStreamKey ++ "_llhls.m4s") ∧
    s.GetChunklistName env tid
      = some ("chunklist_" ++ FormatDecimal tid ++ "_" ++ LowerCasedTypeName env track ++ "_"
          ++ s.GetStreamKey ++ "_llhls.m3u8") ∧
    (∀ (other : LLHlsStream) (other_track : MediaTrack),
      other.GetTrack tid = some other_track →
      other_track.media_type = track.media_type →
      other.GetStreamKey = s.GetStreamKey →
      other.GetIntializationSegmentName env tid = s.GetIntializationSegmentName env tid ∧
      other.GetSegmentName env tid n = s.GetSegmentName env tid n ∧
      other.GetPartialSegmentName env tid n k = s.GetPartialSegmentName env tid n k ∧
      other.GetChunklistName env tid = s.GetChunklistName env tid) := by
  refine ⟨?_, ?_, ?_, ?_, ?_⟩
  · simp only [GetIntializationSegmentName, MediaTypeName, htrack, Option.map_some',
      FormatString_init, LowerCasedTypeName, GetStreamKey]
  · simp only [GetSegmentName, MediaTypeName, htrack, Option.map_some', FormatString_seg,
      LowerCasedTypeName, GetStreamKey]
  · simp only [GetPartialSegmentName, MediaTypeName, htrack, Option.map_some',
      FormatString_part, LowerCasedTypeName, GetStreamKey]
  · simp only [GetChunklistName, MediaTypeName, htrack, Option.map_some',
      FormatString_chunklist, LowerCasedTypeName, GetStreamKey]
  · intro other other_track hother htype hkey
    simp only [GetStreamKey] at hkey
    simp only [GetIntializationSegmentName, GetSegmentName, GetPartialSegmentName,
      GetChunklistName, MediaTypeName, htrack, hother, Option.map_some', htype, hkey, and_self]

/-- C9, at the example stream: the names of video track 0 with key `key`. -/
theorem artifact_names_witness :
    Example.stream.GetTrack 0 = some Example.video_track ∧
    Example.stream.GetIntializationSegmentName Example.env 0
      = some "init_0_video_key_llhls.m4s" ∧
    Example.stream.GetSegmentName Example.env 0 12 = some "seg_0_12_video_key_llhls.m4s" ∧
    Example.stream.GetPartialSegmentName Example.env 0 12 3
      = some "part_0_12_3_video_key_llhls.m4s" ∧
    Example.stream.GetChunklistName Example.env 0 = some "chunklist_0_video_key_llhls.m3u8" :=
  have names := artifact_names Example.env Example.stream 0 Example.video_track 12 3 rfl
  ⟨rfl, names.1.trans (by decide), names.2.1.trans (by decide), names.2.2.1.trans (by decide),
    names.2.2.2.1.trans (by decide)⟩

end LLHlsStream

/-! ## Chunklist URI prefix -/

theorem FormatString_depth_one (stream_name : String) :
    FormatString "../%s/" [FormatArg.str stream_name] = "../" ++ stream_name ++ "/" := by
  apply String.ext
  simp only [FormatString, String.data_append]
  simp only [List.append_assoc]
  rfl

theorem FormatString_depth_two (app_name stream_name : String) :
    FormatString "../../%s/%s/" [FormatArg.str app_name, FormatArg.str stream_name]
      = "../../" ++ app_name ++ "/" ++ stream_name ++ "/" := by
  apply String.ext
  simp only [FormatString, String.data_append]
  simp only [List.append_assoc]
  rfl

theorem FormatString_absolute (app_name stream_name : String) :
    FormatString "/%s/%s/" [FormatArg.str app_name, FormatArg.str stream_name]
      = "/" ++ app_name ++ "/" ++ stream_name ++ "/" := by
  apply String.ext
  simp only [FormatString, String.data_append]
  simp only [List.append_assoc]
  rfl

namespace LLHlsStream

/-- C10, as the claim states it, fails: for application `app`, stream `stream`
and path depth 2 the chunk path of the master playlist is `../../app/stream/`,
not `../app/stream/`. -/
theorem chunk_path_depth_two_counterexample :
    Example.stream.app_name = "app" ∧ Example.stream.name = "stream" ∧
    Example.playlist.hls_chunklist_path_depth = 2 ∧
    ∃ master_playlist,
      Example.stream.CreateMasterPlaylist Example.env Example.playlist = some master_playlist ∧
      master_playlist.chunk_path = "../../app/stream/" ∧
      master_playlist.chunk_path ≠ "../" ++ "app" ++ "/" ++ "stream" ++ "/" := by
  obtain ⟨master_playlist, hcreate, hpath⟩ :=
    CreateMasterPlaylist_total Example.env Example.stream Example.playlist
  have hvalue : master_playlist.chunk_path = "../../app/stream/" := hpath.trans (by decide)
  refine ⟨rfl, rfl, rfl, master_playlist, hcreate, hvalue, ?_⟩
  rw [hvalue]
  decide

/-- C10, amended: `CreateMasterPlaylist` always returns a master playlist, and
its chunk path is the empty string when the path depth is 0, `../<stream>/`
when it is 1, `../../<app>/<stream>/` when it is 2 and the absolute
`/<app>/<stream>/` when it is -1. -/
theorem chunk_path_by_depth (env : Env) (s : LLHlsStream) (playlist : Playlist) :
    ∃ master_playlist, s.CreateMasterPlaylist env playlist = some master_playlist ∧
      (playlist.hls_chunklist_path_depth = 0 → master_playlist.chunk_path = "") ∧
      (playlist.hls_chunklist_path_depth = 1 →
        master_playlist.chunk_path = "../" ++ s.name ++ "/") ∧
      (playlist.hls_chunklist_path_depth = 2 →
        master_playlist.chunk_path = "../../" ++ s.app_name ++ "/" ++ s.name ++ "/") ∧
      (playlist.hls_chunklist_path_depth = -1 →
        master_playlist.chunk_path = "/" ++ s.app_name ++ "/" ++ s.name ++ "/") := by
  obtain ⟨master_playlist, hcreate, hpath⟩ := CreateMasterPlaylist_total env s playlist
  refine ⟨master_playlist, hcreate, ?_, ?_, ?_, ?_⟩
  · intro hdepth
    rw [hpath]
    simp [CreateMasterPlaylist.chunk_path, hdepth]
  · intro hdepth
    rw [hpath]
    simp [CreateMasterPlaylist.chunk_path, hdepth, FormatString_depth_one]
  · intro hdepth
    rw [hpath]
    simp [CreateMasterPlaylist.chunk_path, hdepth, FormatString_depth_two]
  · intro hdepth
    rw [hpath]
    simp [CreateMasterPlaylist.chunk_path, hdepth, FormatString_absolute]

end LLHlsStream

/-! ## Bound of the pre-roll buffer -/

theorem Queue.Dequeue_snd {α : Type} (q : Queue α) : q.Dequeue.2 = q.drop 1 := by
  cases q <;> rfl

namespace LLHlsStream

/-- One submission: if the buffer holds the last packets of `sent`, at most
the maximum, it does so again after the next packet. -/
theorem BufferMediaPacketUntilReadyToPlay_drop (env : Env) (s : LLHlsStream)
    (sent : List MediaPacket) (media_packet : MediaPacket)
    (hmax : 0 < env.MAX_INITIAL_MEDIA_PACKET_BUFFER_SIZE)
    (hbuffer : s.initial_media_packet_buffer
      = sent.drop (sent.length - env.MAX_INITIAL_MEDIA_PACKET_BUFFER_SIZE)) :
    (s.BufferMediaPacketUntilReadyToPlay env media_packet).initial_media_packet_buffer
      = (sent ++ [media_packet]).drop
          ((sent ++ [media_packet]).length - env.MAX_INITIAL_MEDIA_PACKET_BUFFER_SIZE) := by
  simp only [BufferMediaPacketUntilReadyToPlay, Queue.Size, Queue.Enqueue, Queue.Dequeue_snd,
    hbuffer, List.length_drop, List.length_append, List.length_singleton, List.drop_drop]
  by_cases hfull : env.MAX_INITIAL_MEDIA_PACKET_BUFFER_SIZE ≤ sent.length
  · have hsize : sent.length - (sent.length - env.MAX_INITIAL_MEDIA_PACKET_BUFFER_SIZE)
        ≥ env.MAX_INITIAL_MEDIA_PACKET_BUFFER_SIZE := by omega
    rw [if_pos hsize]
    have hindex : sent.length + 1 - env.MAX_INITIAL_MEDIA_PACKET_BUFFER_SIZE
        = sent.length - env.MAX_INITIAL_MEDIA_PACKET_BUFFER_SIZE + 1 := by omega
    rw [hindex, List.drop_append_of_le_length (by omega)]
  · have hsize : ¬ sent.length - (sent.length - env.MAX_INITIAL_MEDIA_PACKET_BUFFER_SIZE)
        ≥ env.MAX_INITIAL_MEDIA_PACKET_BUFFER_SIZE := by omega
    rw [if_neg hsize]
    have hzero : sent.length - env.MAX_INITIAL_MEDIA_PACKET_BUFFER_SIZE = 0 := by omega
    have hzero' : sent.length + 1 - env.MAX_INITIAL_MEDIA_PACKET_BUFFER_SIZE = 0 := by omega
    rw [hzero, hzero']
    rfl

/-- The buffer after a sequence of submissions that follows the submissions
`sent`. -/
theorem BufferMediaPacketUntilReadyToPlay_foldl (env : Env) (packets : List MediaPacket)
    (hmax : 0 < env.MAX_INITIAL_MEDIA_PACKET_BUFFER_SIZE) :
    ∀ (s : LLHlsStream) (sent : List MediaPacket),
      s.initial_media_packet_buffer
        = sent.drop (sent.length - env.MAX_INITIAL_MEDIA_PACKET_BUFFER_SIZE) →
      (packets.foldl (BufferMediaPacketUntilReadyToPlay env) s).initial_media_packet_buffer
        = (sent ++ packets).drop
            ((sent ++ packets).length - env.MAX_INITIAL_MEDIA_PACKET_BUFFER_SIZE) := by
  induction packets with
  | nil =>
    intro s sent hbuffer
    simpa using hbuffer
  | cons media_packet rest ih =>
    intro s sent hbuffer
    have hstep := BufferMediaPacketUntilReadyToPlay_drop env s sent media_packet hmax hbuffer
    have hrest := ih (s.BufferMediaPacketUntilReadyToPlay env media_packet)
      (sent ++ [media_packet]) hstep
    simpa [List.foldl_cons, List.append_assoc] using hrest

/-- C7: from an empty pre-roll buffer and with a positive
`MAX_INITIAL_MEDIA_PACKET_BUFFER_SIZE`, after every number of submissions the
size of the buffer is at most the maximum, and after the `n` submissions
`packets` the buffer holds exactly the most recent `min(n, MAX)` of them, in
arrival order. -/
theorem pre_roll_buffer_bound (env : Env) (s : LLHlsStream) (packets : List MediaPacket)
    (hmax : 0 < env.MAX_INITIAL_MEDIA_PACKET_BUFFER_SIZE)
    (hempty : s.initial_media_packet_buffer = []) :
    (∀ m : Nat,
      ((packets.take m).foldl (BufferMediaPacketUntilReadyToPlay env) s).initial_media_packet_buffer.Size
        ≤ env.MAX_INITIAL_MEDIA_PACKET_BUFFER_SIZE) ∧
    (packets.foldl (BufferMediaPacketUntilReadyToPlay env) s).initial_media_packet_buffer
      = packets.drop
          (packets.length - min packets.length env.MAX_INITIAL_MEDIA_PACKET_BUFFER_SIZE) ∧
    (packets.foldl (BufferMediaPacketUntilReadyToPlay env) s).initial_media_packet_buffer.Size
      = min packets.length env.MAX_INITIAL_MEDIA_PACKET_BUFFER_SIZE ∧
    (s.GetState = State.CREATED → ∀ (fuel : Nat) (media_packet : MediaPacket),
      s.SendVideoFrame env fuel media_packet
        = some (s.BufferMediaPacketUntilReadyToPlay env media_packet) ∧
      s.SendAudioFrame env fuel media_packet
        = some (s.BufferMediaPacketUntilReadyToPlay env media_packet) ∧
      (media_packet.bitstream_format = BitstreamFormat.ID3v2 →
        s.SendDataFrame env (fuel + 1) media_packet
          = some (s.BufferMediaPacketUntilReadyToPlay env media_packet)) ∧
      (s.BufferMediaPacketUntilReadyToPlay env media_packet).GetState = State.CREATED) := by
  have hstart : s.initial_media_packet_buffer
      = ([] : List MediaPacket).drop
          (([] : List MediaPacket).length - env.MAX_INITIAL_MEDIA_PACKET_BUFFER_SIZE) := by
    simpa using hempty
  have hafter : ∀ sequence : List MediaPacket,
      (sequence.foldl (BufferMediaPacketUntilReadyToPlay env) s).initial_media_packet_buffer
        = sequence.drop (sequence.length - env.MAX_INITIAL_MEDIA_PACKET_BUFFER_SIZE) := by
    intro sequence
    simpa using BufferMediaPacketUntilReadyToPlay_foldl env sequence hmax s [] hstart
  refine ⟨?_, ?_, ?_, ?_⟩
  · intro m
    rw [hafter, Queue.Size, List.length_drop]
    omega
  · rw [hafter]
    congr 1
    omega
  · rw [hafter, Queue.Size, List.length_drop]
    omega
  · intro hstate fuel media_packet
    refine ⟨?_, ?_, ?_, ?_⟩
    · simp [SendVideoFrame, hstate]
    · simp [SendAudioFrame, hstate]
    · intro hformat
      simp [SendDataFrame, hstate, hformat]
    · simpa [BufferMediaPacketUntilReadyToPlay, GetState] using hstate

/-- C7, at the example stream before `Start`, whose buffer takes three
packets: after four video packets the buffer holds the last three. -/
theorem pre_roll_buffer_bound_witness :
    0 < Example.env.MAX_INITIAL_MEDIA_PACKET_BUFFER_SIZE ∧
    Example.created_stream.initial_media_packet_buffer = [] ∧
    ([Example.video_packet 1, Example.video_packet 2, Example.video_packet 3,
        Example.video_packet 4].foldl
      (BufferMediaPacketUntilReadyToPlay Example.env)
      Example.created_stream).initial_media_packet_buffer
      = [Example.video_packet 2, Example.video_packet 3, Example.video_packet 4] :=
  ⟨by decide, rfl,
    (pre_roll_buffer_bound Example.env Example.created_stream
      [Example.video_packet 1, Example.video_packet 2, Example.video_packet 3,
        Example.video_packet 4] (by decide) rfl).2.1.trans (by decide)⟩

end LLHlsStream

/-! ## Draining of the pre-roll buffer -/

namespace LLHlsStream

/-- C6, the code at the failing input: the stream has left `CREATED`, the
pre-roll buffer holds an ID3v2 video event and then a video frame, and a new
video frame is sent. The packager of the video track receives the buffered
video frame first, then the data packet that arrived before it, then the new
frame; the buffer is empty afterwards. -/
theorem SendVideoFrame_drain_order :
    Example.buffered_stream.GetState = State.STARTED ∧
    Example.buffered_stream.initial_media_packet_buffer
      = [Example.data_packet, Example.video_packet 1] ∧
    ∀ fuel : Nat,
      ((Example.buffered_stream.SendVideoFrame Example.env (fuel + 4)
          (Example.video_packet 2)).map
        (fun after => (after.GetPackager 0, after.initial_media_packet_buffer)))
      = some
          (some
            { track_id := 0,
              calls :=
                [PackagerCall.AppendSample (Example.video_packet 1),
                  PackagerCall.ReserveDataPacket Example.data_packet,
                  PackagerCall.AppendSample (Example.video_packet 2)] },
            []) := by
  refine ⟨rfl, rfl, ?_⟩
  intro fuel
  rfl

end LLHlsStream

/-! ## The readiness gate -/

namespace LLHlsStream

/-- The loop over the storages passes exactly when every storage has a
segment, and then leaves the largest maximum chunk duration; it never leaves
more than that, nor less than it started with. -/
theorem CheckPlaylistReady.storages_spec (storages : OrdMap Int FMP4Storage) :
    ∀ durations : Nat × Nat,
      ((CheckPlaylistReady.storages storages durations).1 = true ↔
        ∀ entry ∈ storages, 0 ≤ entry.2.last_segment_number) ∧
      ((CheckPlaylistReady.storages storages durations).1 = true →
        (CheckPlaylistReady.storages storages durations).2.1
          = max durations.1 (LargestMaxChunkDuration storages)) ∧
      (CheckPlaylistReady.storages storages durations).2.1
        ≤ max durations.1 (LargestMaxChunkDuration storages) := by
  induction storages with
  | nil =>
    intro durations
    simp [CheckPlaylistReady.storages, LargestMaxChunkDuration]
  | cons entry rest ih =>
    intro durations
    obtain ⟨track_id, storage⟩ := entry
    have hlargest : LargestMaxChunkDuration ((track_id, storage) :: rest)
        = max storage.max_chunk_duration_ms (LargestMaxChunkDuration rest) := rfl
    unfold CheckPlaylistReady.storages
    by_cases hneg : storage.last_segment_number < 0
    · simp only [hneg, if_true, hlargest]
      refine ⟨?_, ?_, ?_⟩
      · constructor
        · intro h
          exact absurd h (by decide)
        · intro h
          exact absurd (h (track_id, storage) (List.mem_cons_self _ _)) (not_le.mpr hneg)
      · intro h
        exact absurd h (by decide)
      · exact le_max_left _ _
    · simp only [hneg, if_false, hlargest]
      obtain ⟨hiff, hvalue, hbound⟩ := ih
        (max durations.1 storage.max_chunk_duration_ms,
          min durations.2 storage.min_chunk_duration_ms)
      refine ⟨?_, ?_, ?_⟩
      · rw [hiff]
        constructor
        · intro h entry hmem
          rcases List.mem_cons.mp hmem with heq | hmem
          · rw [heq]
            exact not_lt.mp hneg
          · exact h entry hmem
        · intro h entry hmem
          exact h entry (List.mem_cons_of_mem _ hmem)
      · intro h
        rw [hvalue h, max_assoc]
      · rw [← max_assoc]
        exact hbound

theorem GetTrack_with_dumps (s : LLHlsStream) (dumps : OrdMap String Dump) (track_id : Int) :
    GetTrack { s with dumps := dumps } track_id = s.GetTrack track_id := rfl

/-- The loop over the chunklists returns when every chunklist was built for a
track of the stream. -/
theorem CheckPlaylistReady.chunklists_total (env : Env) (final_part_hold_back : ℚ)
    (entries : OrdMap Int LLHlsChunklist) :
    ∀ s : LLHlsStream,
      (∀ entry ∈ entries, ∃ found, s.GetTrack entry.2.track.id = some found) →
      ∃ result, CheckPlaylistReady.chunklists env final_part_hold_back entries s = some result := by
  induction entries with
  | nil =>
    intro s _
    exact ⟨_, rfl⟩
  | cons entry rest ih =>
    intro s hwf
    obtain ⟨track_id, chunklist⟩ := entry
    obtain ⟨dumps1, hdump⟩ := DumpInitSegmentOfAllItems_total env s chunklist.track.id
      (hwf (track_id, chunklist) (List.mem_cons_self _ _))
    obtain ⟨result, hrest⟩ := ih { s with dumps := dumps1 }
      (fun entry hmem => hwf entry (List.mem_cons_of_mem _ hmem))
    unfold CheckPlaylistReady.chunklists
    have hid : (chunklist.SetPartHoldBack final_part_hold_back).track.id = chunklist.track.id :=
      rfl
    simp only [hid, hdump, hrest, Option.map_some']
    exact ⟨_, rfl⟩

/-- Whenever the loop over the chunklists returns, every chunklist has
received `SetPartHoldBack` with the same value, and the stream differs in the
dumps only. -/
theorem CheckPlaylistReady.chunklists_frame (env : Env) (final_part_hold_back : ℚ)
    (entries : OrdMap Int LLHlsChunklist) :
    ∀ (s : LLHlsStream) (result : OrdMap Int LLHlsChunklist × LLHlsStream),
      CheckPlaylistReady.chunklists env final_part_hold_back entries s = some result →
      result.1
        = entries.map (fun entry => (entry.1, entry.2.SetPartHoldBack final_part_hold_back)) ∧
      ∃ dumps1, result.2 = { s with dumps := dumps1 } := by
  induction entries with
  | nil =>
    intro s result hreturn
    simp only [CheckPlaylistReady.chunklists, Option.some.injEq] at hreturn
    subst hreturn
    exact ⟨rfl, s.dumps, rfl⟩
  | cons entry rest ih =>
    intro s result hreturn
    obtain ⟨track_id, chunklist⟩ := entry
    unfold CheckPlaylistReady.chunklists at hreturn
    cases hdump : s.DumpInitSegmentOfAllItems env
        (chunklist.SetPartHoldBack final_part_hold_back).track.id with
    | none => simp [hdump] at hreturn
    | some s1 =>
      obtain ⟨dumps1, rfl⟩ := DumpInitSegmentOfAllItems_frame env s s1 _ hdump
      simp only [hdump] at hreturn
      cases hrest : CheckPlaylistReady.chunklists env final_part_hold_back rest
          { s with dumps := dumps1 } with
      | none => simp [hrest] at hreturn
      | some rest_result =>
        obtain ⟨hentries, dumps2, hstream⟩ := ih _ rest_result hrest
        simp only [hrest, Option.map_some', Option.some.injEq] at hreturn
        subst hreturn
        refine ⟨?_, dumps2, ?_⟩
        · simp [hentries]
        · simpa using hstream

/-- The part hold back that `CheckPlaylistReady` computes from the maximum
chunk duration it has gathered. -/
theorem part_hold_back_eq (configured_part_hold_back : ℚ) (M : Nat) :
    max (((M : ℚ) / 1000) * 3) configured_part_hold_back
      = SpecPartHoldBack configured_part_hold_back M := by
  unfold SpecPartHoldBack
  rw [max_comm]
  congr 1
  ring

/-- The method `CheckPlaylistReady` on a stream that is not ready. -/
theorem CheckPlaylistReady_not_ready (env : Env) (s : LLHlsStream)
    (hnot : s.playlist_ready = false) :
    s.CheckPlaylistReady env =
      match CheckPlaylistReady.storages s.storage_map
          (s.max_chunk_duration_ms, s.min_chunk_duration_ms) with
      | (false, max_ms, min_ms) =>
        some (false, { s with max_chunk_duration_ms := max_ms, min_chunk_duration_ms := min_ms })
      | (true, max_ms, min_ms) =>
        match CheckPlaylistReady.chunklists env
            (SpecPartHoldBack s.configured_part_hold_back max_ms) s.chunklist_map
            { s with max_chunk_duration_ms := max_ms, min_chunk_duration_ms := min_ms } with
        | none => none
        | some (chunklist_map, s2) =>
          match DumpMasterPlaylistsOfAllItems env
              { s2 with chunklist_map := chunklist_map, playlist_ready := true } with
          | none => none
          | some s4 => some (true, s4) := by
  unfold CheckPlaylistReady
  rw [if_neg (by rw [hnot]; decide)]
  simp only [part_hold_back_eq]

/-- On a stream that is not ready, when the loop over the storages fails,
`CheckPlaylistReady` returns false and writes the two chunk durations only. -/
theorem CheckPlaylistReady_refused (env : Env) (s : LLHlsStream)
    (hnot : s.playlist_ready = false)
    (hfail : (CheckPlaylistReady.storages s.storage_map
      (s.max_chunk_duration_ms, s.min_chunk_duration_ms)).1 = false) :
    s.CheckPlaylistReady env
      = some (false,
          { s with
            max_chunk_duration_ms := (CheckPlaylistReady.storages s.storage_map
              (s.max_chunk_duration_ms, s.min_chunk_duration_ms)).2.1,
            min_chunk_duration_ms := (CheckPlaylistReady.storages s.storage_map
              (s.max_chunk_duration_ms, s.min_chunk_duration_ms)).2.2 }) := by
  rw [CheckPlaylistReady_not_ready env s hnot]
  rcases hloop : CheckPlaylistReady.storages s.storage_map
      (s.max_chunk_duration_ms, s.min_chunk_duration_ms) with ⟨passed, max_ms, min_ms⟩
  rw [hloop] at hfail
  have hpassed : passed = false := hfail
  subst hpassed
  rfl

/-- On a stream that is not ready, when the loop over the storages passes,
every return of `CheckPlaylistReady` is the readiness transition: the result
is true, the flag is set, every chunklist has received the part hold back, and
beyond that only the chunk durations, the dumps and the cache are written. -/
theorem CheckPlaylistReady_transition (env : Env) (s : LLHlsStream)
    (hnot : s.playlist_ready = false)
    (hpass : (CheckPlaylistReady.storages s.storage_map
      (s.max_chunk_duration_ms, s.min_chunk_duration_ms)).1 = true)
    (result : Bool) (after : LLHlsStream)
    (hreturn : s.CheckPlaylistReady env = some (result, after)) :
    result = true ∧
    ∃ (dumps : OrdMap String Dump) (cache : OrdMap String (Option LLHlsMasterPlaylist)),
      after =
        { s with
          max_chunk_duration_ms := (CheckPlaylistReady.storages s.storage_map
            (s.max_chunk_duration_ms, s.min_chunk_duration_ms)).2.1,
          min_chunk_duration_ms := (CheckPlaylistReady.storages s.storage_map
            (s.max_chunk_duration_ms, s.min_chunk_duration_ms)).2.2,
          chunklist_map := s.chunklist_map.map (fun entry =>
            (entry.1, entry.2.SetPartHoldBack
              (SpecPartHoldBack s.configured_part_hold_back
                (CheckPlaylistReady.storages s.storage_map
                  (s.max_chunk_duration_ms, s.min_chunk_duration_ms)).2.1))),
          playlist_ready := true,
          dumps := dumps,
          master_playlists := cache } := by
  rw [CheckPlaylistReady_not_ready env s hnot] at hreturn
  rcases hloop : CheckPlaylistReady.storages s.storage_map
      (s.max_chunk_duration_ms, s.min_chunk_duration_ms) with ⟨passed, max_ms, min_ms⟩
  rw [hloop] at hpass hreturn
  have hpassed : passed = true := hpass
  subst hpassed
  dsimp only at hreturn ⊢
  cases hchunklists : CheckPlaylistReady.chunklists env
      (SpecPartHoldBack s.configured_part_hold_back max_ms) s.chunklist_map
      { s with max_chunk_duration_ms := max_ms, min_chunk_duration_ms := min_ms } with
  | none =>
    rw [hchunklists] at hreturn
    exact absurd hreturn (by simp)
  | some loop_result =>
    obtain ⟨chunklist_map, s2⟩ := loop_result
    obtain ⟨hentries, dumps1, hstream⟩ :=
      CheckPlaylistReady.chunklists_frame env _ _ _ _ hchunklists
    dsimp only at hentries hstream
    subst hentries hstream
    rw [hchunklists] at hreturn
    dsimp only at hreturn
    obtain ⟨s4, hdump, ⟨dumps2, cache, hframe⟩, _⟩ :=
      DumpMasterPlaylistsOfAllItems_total env
        { s with
          max_chunk_duration_ms := max_ms, min_chunk_duration_ms := min_ms, dumps := dumps1,
          chunklist_map := s.chunklist_map.map (fun entry =>
            (entry.1, entry.2.SetPartHoldBack
              (SpecPartHoldBack s.configured_part_hold_back max_ms))),
          playlist_ready := true }
    rw [hdump] at hreturn
    simp only [Option.some.injEq, Prod.mk.injEq] at hreturn
    obtain ⟨hresult, hafter⟩ := hreturn
    refine ⟨hresult.symm, dumps2, cache, ?_⟩
    rw [← hafter, hframe]

/-- On a stream that is not ready, when the loop over the storages passes and
every chunklist was built for a track of the stream, `CheckPlaylistReady`
returns. -/
theorem CheckPlaylistReady_returns (env : Env) (s : LLHlsStream)
    (hnot : s.playlist_ready = false)
    (hpass : (CheckPlaylistReady.storages s.storage_map
      (s.max_chunk_duration_ms, s.min_chunk_duration_ms)).1 = true)
    (htracks : s.ChunklistTracksExist) :
    ∃ outcome, s.CheckPlaylistReady env = some outcome := by
  rw [CheckPlaylistReady_not_ready env s hnot]
  rcases hloop : CheckPlaylistReady.storages s.storage_map
      (s.max_chunk_duration_ms, s.min_chunk_duration_ms) with ⟨passed, max_ms, min_ms⟩
  rw [hloop] at hpass
  have hpassed : passed = true := hpass
  subst hpassed
  dsimp only
  obtain ⟨⟨chunklist_map, s2⟩, hchunklists⟩ := CheckPlaylistReady.chunklists_total env
    (SpecPartHoldBack s.configured_part_hold_back max_ms) s.chunklist_map
    { s with max_chunk_duration_ms := max_ms, min_chunk_duration_ms := min_ms } htracks
  obtain ⟨s4, hdump, _⟩ := DumpMasterPlaylistsOfAllItems_total env
    { s2 with chunklist_map := chunklist_map, playlist_ready := true }
  rw [hchunklists]
  dsimp only
  rw [hdump]
  exact ⟨_, rfl⟩

/-- C4: on a stream that is not ready, if some storage reports
`last_segment_number < 0` then `CheckPlaylistReady` returns false, leaves the
flag false and leaves every chunklist and every dump as it was (no
`SetPartHoldBack`, no dump); if every storage reports
`last_segment_number ≥ 0` (and every chunklist was built for a track of the
stream) it returns true and sets the flag; and whatever it returns, the result
is true exactly when every storage reports `last_segment_number ≥ 0`, and the
flag afterwards equals the result. -/
theorem CheckPlaylistReady_gate (env : Env) (s : LLHlsStream)
    (hnot : s.IsReadyToPlay = false) :
    ((∃ entry ∈ s.storage_map, entry.2.last_segment_number < 0) →
      ∃ after, s.CheckPlaylistReady env = some (false, after) ∧
        after.IsReadyToPlay = false ∧ after.chunklist_map = s.chunklist_map ∧
        after.dumps = s.dumps) ∧
    ((∀ entry ∈ s.storage_map, 0 ≤ entry.2.last_segment_number) →
      s.ChunklistTracksExist →
      ∃ after, s.CheckPlaylistReady env = some (true, after) ∧ after.IsReadyToPlay = true) ∧
    (∀ result after, s.CheckPlaylistReady env = some (result, after) →
      (result = true ↔ ∀ entry ∈ s.storage_map, 0 ≤ entry.2.last_segment_number) ∧
      after.IsReadyToPlay = result) := by
  have hnot' : s.playlist_ready = false := hnot
  obtain ⟨hiff, _, _⟩ := CheckPlaylistReady.storages_spec s.storage_map
    (s.max_chunk_duration_ms, s.min_chunk_duration_ms)
  refine ⟨?_, ?_, ?_⟩
  · rintro ⟨entry, hmem, hneg⟩
    have hfail : (CheckPlaylistReady.storages s.storage_map
        (s.max_chunk_duration_ms, s.min_chunk_duration_ms)).1 = false := by
      rw [Bool.eq_false_iff]
      intro hpass
      exact absurd (hiff.mp hpass entry hmem) (not_le.mpr hneg)
    exact ⟨_, CheckPlaylistReady_refused env s hnot' hfail, hnot', rfl, rfl⟩
  · intro hall htracks
    have hpass := hiff.mpr hall
    obtain ⟨⟨result, after⟩, hreturn⟩ := CheckPlaylistReady_returns env s hnot' hpass htracks
    obtain ⟨hresult, dumps, cache, hafter⟩ :=
      CheckPlaylistReady_transition env s hnot' hpass result after hreturn
    subst hresult
    refine ⟨after, hreturn, ?_⟩
    rw [hafter]
    rfl
  · intro result after hreturn
    cases hloop : (CheckPlaylistReady.storages s.storage_map
        (s.max_chunk_duration_ms, s.min_chunk_duration_ms)).1 with
    | false =>
      rw [CheckPlaylistReady_refused env s hnot' hloop, Option.some.injEq,
        Prod.mk.injEq] at hreturn
      obtain ⟨hresult, hafter⟩ := hreturn
      subst hresult
      refine ⟨?_, ?_⟩
      · rw [← hiff, hloop]
      · rw [← hafter]
        exact hnot'
    | true =>
      obtain ⟨hresult, dumps, cache, hafter⟩ :=
        CheckPlaylistReady_transition env s hnot' hloop result after hreturn
      subst hresult
      refine ⟨?_, ?_⟩
      · rw [← hiff, hloop]
      · rw [hafter]
        rfl

/-- C4, at the example stream before readiness: its only storage has segment
2, so `CheckPlaylistReady` returns true and sets the flag. -/
theorem CheckPlaylistReady_gate_witness :
    Example.pending_stream.IsReadyToPlay = false ∧
    ∃ after, Example.pending_stream.CheckPlaylistReady Example.env = some (true, after) ∧
      after.IsReadyToPlay = true :=
  ⟨rfl,
    (CheckPlaylistReady_gate Example.env Example.pending_stream rfl).2.1
      (by simp [Example.pending_stream, Example.stream, Example.storage])
      (by
        intro entry hmem
        simp only [Example.pending_stream, Example.stream, List.mem_singleton] at hmem
        subst hmem
        exact ⟨Example.video_track, rfl⟩)⟩

/-! ## Part hold back at readiness -/

/-- C8: when `CheckPlaylistReady` performs the readiness transition on a stream
whose own maximum chunk duration is at most the largest `max_chunk_duration_ms`
`M` that a storage reports at that moment (it starts at 0 and is only ever
raised to values the storages have reported, which do not decrease), every
chunklist of the chunklist map receives `SetPartHoldBack` with the same value
`max(configured_part_hold_back, 3 × M / 1000)`, in exact rational arithmetic. -/
theorem part_hold_back_at_readiness (env : Env) (s after : LLHlsStream)
    (hnot : s.IsReadyToPlay = false)
    (hreturn : s.CheckPlaylistReady env = some (true, after))
    (hmax : s.GetMaxChunkDurationMS ≤ LargestMaxChunkDuration s.storage_map) :
    after.IsReadyToPlay = true ∧
    after.chunklist_map
      = s.chunklist_map.map (fun entry =>
          (entry.1, entry.2.SetPartHoldBack
            (SpecPartHoldBack s.configured_part_hold_back
              (LargestMaxChunkDuration s.storage_map)))) ∧
    (∀ entry ∈ after.chunklist_map,
      entry.2.calls.getLast?
        = some (ChunklistCall.SetPartHoldBack
            (max s.configured_part_hold_back
              (3 * (LargestMaxChunkDuration s.storage_map : ℚ) / 1000)))) := by
  have hnot' : s.playlist_ready = false := hnot
  obtain ⟨_, hvalue, _⟩ := CheckPlaylistReady.storages_spec s.storage_map
    (s.max_chunk_duration_ms, s.min_chunk_duration_ms)
  have hpass : (CheckPlaylistReady.storages s.storage_map
      (s.max_chunk_duration_ms, s.min_chunk_duration_ms)).1 = true := by
    cases hloop : (CheckPlaylistReady.storages s.storage_map
        (s.max_chunk_duration_ms, s.min_chunk_duration_ms)).1 with
    | true => rfl
    | false =>
      rw [CheckPlaylistReady_refused env s hnot' hloop] at hreturn
      simp at hreturn
  obtain ⟨_, dumps, cache, hafter⟩ :=
    CheckPlaylistReady_transition env s hnot' hpass true after hreturn
  have hlargest : (CheckPlaylistReady.storages s.storage_map
      (s.max_chunk_duration_ms, s.min_chunk_duration_ms)).2.1
        = LargestMaxChunkDuration s.storage_map := by
    rw [hvalue hpass]
    exact max_eq_right hmax
  rw [hlargest] at hafter
  have hmap : after.chunklist_map
      = s.chunklist_map.map (fun entry =>
          (entry.1, entry.2.SetPartHoldBack
            (SpecPartHoldBack s.configured_part_hold_back
              (LargestMaxChunkDuration s.storage_map)))) := by
    rw [hafter]
  refine ⟨?_, hmap, ?_⟩
  · rw [hafter]
    rfl
  · intro entry hmem
    rw [hmap, List.mem_map] at hmem
    obtain ⟨before, _, rfl⟩ := hmem
    simp [LLHlsChunklist.SetPartHoldBack, LLHlsChunklist.call, SpecPartHoldBack]

/-- C8, at the example stream before readiness: the only storage reports 500
ms and the configured part hold back is 1, so the chunklist receives
`SetPartHoldBack(3/2)`. -/
theorem part_hold_back_at_readiness_witness :
    Example.pending_stream.IsReadyToPlay = false ∧
    Example.pending_stream.GetMaxChunkDurationMS
      ≤ LargestMaxChunkDuration Example.pending_stream.storage_map ∧
    ∃ after, Example.pending_stream.CheckPlaylistReady Example.env = some (true, after) ∧
      after.chunklist_map = [(0, Example.chunklist.SetPartHoldBack (3 / 2))] := by
  have htracks : Example.pending_stream.ChunklistTracksExist := by
    intro entry hmem
    simp only [Example.pending_stream, Example.stream, List.mem_singleton] at hmem
    subst hmem
    exact ⟨Example.video_track, rfl⟩
  have hmax : Example.pending_stream.GetMaxChunkDurationMS
      ≤ LargestMaxChunkDuration Example.pending_stream.storage_map := by decide
  obtain ⟨⟨result, after⟩, hreturn⟩ :=
    CheckPlaylistReady_returns Example.env Example.pending_stream rfl rfl htracks
  obtain ⟨hresult, _⟩ :=
    CheckPlaylistReady_transition Example.env Example.pending_stream rfl rfl result after hreturn
  subst hresult
  refine ⟨rfl, hmax, after, hreturn, ?_⟩
  rw [(part_hold_back_at_readiness Example.env Example.pending_stream after rfl hreturn hmax).2.1]
  have hvalue : SpecPartHoldBack Example.pending_stream.configured_part_hold_back
      (LargestMaxChunkDuration Example.pending_stream.storage_map) = 3 / 2 := by
    have hlargest : LargestMaxChunkDuration Example.pending_stream.storage_map = 500 := by
      decide
    rw [hlargest]
    simp only [SpecPartHoldBack, Example.pending_stream, Example.stream]
    norm_num
  rw [hvalue]
  rfl

end LLHlsStream

/-! ## Lemmas on the frame intake -/

namespace LLHlsStream

theorem BufferAndPackagersOnly.refl_buffer (s : LLHlsStream) : BufferAndPackagersOnly s s :=
  ⟨s.initial_media_packet_buffer, s.packager_map, rfl⟩

theorem BufferAndPackagersOnly.trans_buffer {a b c : LLHlsStream} (hab : BufferAndPackagersOnly a b)
    (hbc : BufferAndPackagersOnly b c) : BufferAndPackagersOnly a c := by
  obtain ⟨buffer1, packagers1, rfl⟩ := hab
  obtain ⟨buffer2, packagers2, rfl⟩ := hbc
  exact ⟨buffer2, packagers2, rfl⟩

/-- `AppendMediaPacket` writes the packagers only. -/
theorem AppendMediaPacket_frame (s : LLHlsStream) (media_packet : MediaPacket) :
    ∃ packagers, (s.AppendMediaPacket media_packet).2 = { s with packager_map := packagers } := by
  unfold AppendMediaPacket
  split
  · exact ⟨s.packager_map, rfl⟩
  · split
    · split
      · exact ⟨s.packager_map, rfl⟩
      · exact ⟨_, rfl⟩
    · exact ⟨s.packager_map, rfl⟩

theorem SendDataFrame.tracks_frame (media_packet : MediaPacket) (target_media_type : MediaType)
    (tracks : OrdMap Int MediaTrack) :
    ∀ s : LLHlsStream, ∃ packagers,
      SendDataFrame.tracks media_packet target_media_type tracks s
        = { s with packager_map := packagers } := by
  induction tracks with
  | nil =>
    intro s
    exact ⟨s.packager_map, rfl⟩
  | cons entry rest ih =>
    intro s
    obtain ⟨track_id, track⟩ := entry
    unfold SendDataFrame.tracks
    split
    · exact ih s
    · split
      · exact ih s
      · obtain ⟨packagers, hrest⟩ := ih
          { s with
            packager_map :=
              s.packager_map.update track.id
                ((‹FMP4Packager›).ReserveDataPacket media_packet) }
        exact ⟨packagers, hrest⟩

/-- The reservation of a data packet writes the packagers only. -/
theorem SendDataFrame.reserve_frame (s : LLHlsStream) (media_packet : MediaPacket) :
    ∃ packagers, SendDataFrame.reserve s media_packet = { s with packager_map := packagers } :=
  SendDataFrame.tracks_frame media_packet _ s.GetTracks s

/-- `BufferMediaPacketUntilReadyToPlay` writes the pre-roll buffer only. -/
theorem BufferMediaPacketUntilReadyToPlay_frame (env : Env) (s : LLHlsStream)
    (media_packet : MediaPacket) :
    BufferAndPackagersOnly s (s.BufferMediaPacketUntilReadyToPlay env media_packet) :=
  ⟨_, s.packager_map, rfl⟩

/-- One iteration of the loop of `SendBufferedPackets`. -/
theorem SendBufferedPackets_succ (env : Env) (fuel : Nat) (s : LLHlsStream) :
    SendBufferedPackets env (fuel + 1) s =
      match s.initial_media_packet_buffer with
      | [] => some s
      | media_packet :: rest =>
        if media_packet.media_type = MediaType.Data then
          (SendDataFrame env fuel { s with initial_media_packet_buffer := rest } media_packet).bind
            (SendBufferedPackets env fuel)
        else
          SendBufferedPackets env fuel
            (AppendMediaPacket { s with initial_media_packet_buffer := rest } media_packet).2 := by
  rw [SendBufferedPackets]
  cases hbuffer : s.initial_media_packet_buffer with
  | nil => simp [Queue.IsEmpty]
  | cons media_packet rest =>
    simp only [Queue.IsEmpty, List.isEmpty_cons, if_true, Queue.Dequeue]
    by_cases hdata : media_packet.media_type = MediaType.Data
    · simp only [hdata, if_true]
      cases SendDataFrame env fuel { s with initial_media_packet_buffer := rest } media_packet <;>
        rfl
    · simp only [hdata, if_false]

/-- The body of `SendDataFrame`. -/
theorem SendDataFrame_succ (env : Env) (fuel : Nat) (s : LLHlsStream)
    (media_packet : MediaPacket) :
    SendDataFrame env (fuel + 1) s media_packet =
      if media_packet.bitstream_format ≠ BitstreamFormat.ID3v2 then some s
      else if s.GetState = State.CREATED then
        some (s.BufferMediaPacketUntilReadyToPlay env media_packet)
      else
        (match s.initial_media_packet_buffer with
          | [] => some s
          | _ :: _ => SendBufferedPackets env fuel s).map
          (fun s1 => SendDataFrame.reserve s1 media_packet) := by
  rw [SendDataFrame]
  by_cases hformat : media_packet.bitstream_format ≠ BitstreamFormat.ID3v2
  · rw [if_pos hformat, if_pos hformat]
  · by_cases hstate : s.GetState = State.CREATED
    · rw [if_neg hformat, if_neg hformat, if_pos hstate, if_pos hstate]
    · rw [if_neg hformat, if_neg hformat, if_neg hstate, if_neg hstate]
      cases hbuffer : s.initial_media_packet_buffer with
      | nil => simp [Queue.IsEmpty]
      | cons first rest =>
        simp only [Queue.IsEmpty, List.isEmpty_cons, if_true]
        cases SendBufferedPackets env fuel s <;> rfl

/-- Whenever `SendBufferedPackets` or `SendDataFrame` returns, it has written
the pre-roll buffer and the packagers only. -/
theorem Send_frame (env : Env) (fuel : Nat) :
    (∀ s after : LLHlsStream, SendBufferedPackets env fuel s = some after →
      BufferAndPackagersOnly s after) ∧
    (∀ (s after : LLHlsStream) (media_packet : MediaPacket),
      SendDataFrame env fuel s media_packet = some after → BufferAndPackagersOnly s after) := by
  induction fuel with
  | zero =>
    constructor
    · intro s after hreturn
      simp [SendBufferedPackets] at hreturn
    · intro s after media_packet hreturn
      simp [SendDataFrame] at hreturn
  | succ fuel ih =>
    obtain ⟨ihBuffered, ihData⟩ := ih
    constructor
    · intro s after hreturn
      rw [SendBufferedPackets_succ] at hreturn
      cases hbuffer : s.initial_media_packet_buffer with
      | nil =>
        rw [hbuffer] at hreturn
        simp only [Option.some.injEq] at hreturn
        subst hreturn
        exact BufferAndPackagersOnly.refl_buffer s
      | cons media_packet rest =>
        rw [hbuffer] at hreturn
        have hdequeue : BufferAndPackagersOnly s { s with initial_media_packet_buffer := rest } :=
          ⟨rest, s.packager_map, rfl⟩
        by_cases hdata : media_packet.media_type = MediaType.Data
        · simp only [hdata, if_true] at hreturn
          cases hsent : SendDataFrame env fuel { s with initial_media_packet_buffer := rest }
              media_packet with
          | none =>
            rw [hsent] at hreturn
            exact absurd hreturn (by simp)
          | some s2 =>
            rw [hsent] at hreturn
            exact (hdequeue.trans_buffer (ihData _ _ _ hsent)).trans_buffer (ihBuffered _ _ hreturn)
        · simp only [hdata, if_false] at hreturn
          obtain ⟨packagers, happend⟩ := AppendMediaPacket_frame
            { s with initial_media_packet_buffer := rest } media_packet
          have hrest := ihBuffered _ _ hreturn
          rw [happend] at hrest
          exact BufferAndPackagersOnly.trans_buffer ⟨rest, packagers, rfl⟩ hrest
    · intro s after media_packet hreturn
      rw [SendDataFrame_succ] at hreturn
      by_cases hformat : media_packet.bitstream_format ≠ BitstreamFormat.ID3v2
      · rw [if_pos hformat, Option.some.injEq] at hreturn
        subst hreturn
        exact BufferAndPackagersOnly.refl_buffer s
      · by_cases hstate : s.GetState = State.CREATED
        · rw [if_neg hformat, if_pos hstate, Option.some.injEq] at hreturn
          subst hreturn
          exact BufferMediaPacketUntilReadyToPlay_frame env s media_packet
        · rw [if_neg hformat, if_neg hstate] at hreturn
          have hdrain : ∀ s1,
              (match s.initial_media_packet_buffer with
                | [] => some s
                | _ :: _ => SendBufferedPackets env fuel s) = some s1 →
              BufferAndPackagersOnly s s1 := by
            intro s1 hdrained
            cases hbuffer : s.initial_media_packet_buffer with
            | nil =>
              rw [hbuffer] at hdrained
              simp only [Option.some.injEq] at hdrained
              subst hdrained
              exact BufferAndPackagersOnly.refl_buffer s
            | cons first rest =>
              rw [hbuffer] at hdrained
              exact ihBuffered _ _ hdrained
          cases hdrained : (match s.initial_media_packet_buffer with
              | [] => some s
              | _ :: _ => SendBufferedPackets env fuel s) with
          | none =>
            rw [hdrained] at hreturn
            exact absurd hreturn (by simp)
          | some s1 =>
            rw [hdrained] at hreturn
            simp only [Option.map_some', Option.some.injEq] at hreturn
            subst hreturn
            obtain ⟨packagers, hreserve⟩ := SendDataFrame.reserve_frame s1 media_packet
            rw [hreserve]
            exact (hdrain s1 hdrained).trans_buffer ⟨s1.initial_media_packet_buffer, packagers, rfl⟩

/-- After `CREATED`, `SendBufferedPackets` returns with an empty buffer once
the bound exceeds twice the size of the buffer, and `SendDataFrame` returns
once the bound exceeds that by one more. -/
theorem Send_returns (env : Env) (fuel : Nat) :
    (∀ s : LLHlsStream, s.GetState ≠ State.CREATED →
      2 * s.initial_media_packet_buffer.length < fuel →
      ∃ after, SendBufferedPackets env fuel s = some after ∧
        after.initial_media_packet_buffer = []) ∧
    (∀ (s : LLHlsStream) (media_packet : MediaPacket), s.GetState ≠ State.CREATED →
      2 * s.initial_media_packet_buffer.length + 1 < fuel →
      ∃ after, SendDataFrame env fuel s media_packet = some after ∧
        after.initial_media_packet_buffer.length ≤ s.initial_media_packet_buffer.length) := by
  induction fuel with
  | zero =>
    constructor
    · intro s _ hfuel
      exact absurd hfuel (Nat.not_lt_zero _)
    · intro s _ _ hfuel
      exact absurd hfuel (Nat.not_lt_zero _)
  | succ fuel ih =>
    obtain ⟨ihBuffered, ihData⟩ := ih
    constructor
    · intro s hstate hfuel
      rw [SendBufferedPackets_succ]
      cases hbuffer : s.initial_media_packet_buffer with
      | nil => exact ⟨s, rfl, hbuffer⟩
      | cons media_packet rest =>
        rw [hbuffer, List.length_cons] at hfuel
        dsimp only
        by_cases hdata : media_packet.media_type = MediaType.Data
        · rw [if_pos hdata]
          obtain ⟨s2, hsent, hlength⟩ := ihData { s with initial_media_packet_buffer := rest }
            media_packet hstate (by simp only; omega)
          obtain ⟨buffer, packagers, hframe⟩ := (Send_frame env fuel).2 _ _ _ hsent
          have hstate2 : s2.GetState ≠ State.CREATED := by
            rw [hframe]
            exact hstate
          obtain ⟨after, hafter, hempty⟩ := ihBuffered s2 hstate2 (by simp only at hlength; omega)
          exact ⟨after, by rw [hsent]; exact hafter, hempty⟩
        · rw [if_neg hdata]
          obtain ⟨packagers, happend⟩ := AppendMediaPacket_frame
            { s with initial_media_packet_buffer := rest } media_packet
          rw [happend]
          exact ihBuffered _ hstate (by simp only; omega)
    · intro s media_packet hstate hfuel
      rw [SendDataFrame_succ]
      by_cases hformat : media_packet.bitstream_format ≠ BitstreamFormat.ID3v2
      · rw [if_pos hformat]
        exact ⟨s, rfl, le_refl _⟩
      · rw [if_neg hformat, if_neg hstate]
        cases hbuffer : s.initial_media_packet_buffer with
        | nil =>
          obtain ⟨packagers, hreserve⟩ := SendDataFrame.reserve_frame s media_packet
          refine ⟨SendDataFrame.reserve s media_packet, rfl, ?_⟩
          rw [hreserve]
          simp [hbuffer]
        | cons first rest =>
          obtain ⟨s1, hdrained, hempty⟩ := ihBuffered s hstate (by omega)
          obtain ⟨packagers, hreserve⟩ := SendDataFrame.reserve_frame s1 media_packet
          refine ⟨SendDataFrame.reserve s1 media_packet, ?_, ?_⟩
          · dsimp only
            rw [hdrained]
            rfl
          · rw [hreserve]
            simp [hempty]

/-- A pre-roll buffer that holds no data packet is drained in arrival order:
`SendBufferedPackets` hands the packets to `AppendMediaPacket` one after the
other and leaves the buffer empty. -/
theorem SendBufferedPackets_media_only (env : Env) (buffer : List MediaPacket) :
    ∀ (fuel : Nat) (s : LLHlsStream), s.initial_media_packet_buffer = buffer →
      (∀ media_packet ∈ buffer, media_packet.media_type ≠ MediaType.Data) →
      buffer.length < fuel →
      SendBufferedPackets env fuel s
        = some (buffer.foldl (fun stream media_packet => (stream.AppendMediaPacket media_packet).2)
            { s with initial_media_packet_buffer := [] }) := by
  induction buffer with
  | nil =>
    intro fuel s hbuffer _ hfuel
    obtain ⟨fuel, rfl⟩ : ∃ n, fuel = n + 1 := ⟨fuel - 1, by simp at hfuel; omega⟩
    rw [SendBufferedPackets_succ, hbuffer]
    simp only [List.foldl_nil]
    rw [← hbuffer]
  | cons media_packet rest ih =>
    intro fuel s hbuffer hmedia hfuel
    obtain ⟨fuel, rfl⟩ : ∃ n, fuel = n + 1 := ⟨fuel - 1, by simp at hfuel; omega⟩
    rw [SendBufferedPackets_succ, hbuffer]
    dsimp only
    rw [if_neg (hmedia media_packet (List.mem_cons_self _ _))]
    obtain ⟨packagers, happend⟩ := AppendMediaPacket_frame
      { s with initial_media_packet_buffer := rest } media_packet
    obtain ⟨packagers', happend'⟩ := AppendMediaPacket_frame
      { s with initial_media_packet_buffer := [] } media_packet
    have hsame : packagers' = packagers := by
      have h1 : (AppendMediaPacket { s with initial_media_packet_buffer := rest }
          media_packet).2.packager_map = packagers := by rw [happend]
      have h2 : (AppendMediaPacket { s with initial_media_packet_buffer := [] }
          media_packet).2.packager_map = packagers' := by rw [happend']
      rw [← h1, ← h2]
      unfold AppendMediaPacket
      simp only [GetTrack, GetPackager]
      repeat' split
      all_goals rfl
    rw [ih fuel _ (by rw [happend]) (fun p hp => hmedia p (List.mem_cons_of_mem _ hp))
      (by simp only [List.length_cons] at hfuel; omega)]
    simp only [List.foldl_cons]
    rw [happend, happend', hsame]

/-- The three frame entry points return for every stream when they are given
the drain bound of the stream. -/
theorem SendFrame_returns (env : Env) (s : LLHlsStream) (media_packet : MediaPacket) :
    (∃ after, s.SendVideoFrame env s.DrainBound media_packet = some after) ∧
    (∃ after, s.SendAudioFrame env s.DrainBound media_packet = some after) ∧
    (∃ after, s.SendDataFrame env s.DrainBound media_packet = some after) := by
  by_cases hstate : s.GetState = State.CREATED
  · refine ⟨?_, ?_, ?_⟩
    · simp [SendVideoFrame, hstate]
    · simp [SendAudioFrame, hstate]
    · unfold DrainBound
      rw [SendDataFrame_succ]
      by_cases hformat : media_packet.bitstream_format ≠ BitstreamFormat.ID3v2
      · rw [if_pos hformat]
        exact ⟨s, rfl⟩
      · rw [if_neg hformat, if_pos hstate]
        exact ⟨_, rfl⟩
  · have hdrain : ∃ s1,
        (if s.initial_media_packet_buffer.IsEmpty = false then
          SendBufferedPackets env s.DrainBound s else some s) = some s1 := by
      split
      · obtain ⟨s1, hdrained, _⟩ := (Send_returns env s.DrainBound).1 s hstate
          (by unfold DrainBound Queue.Size; omega)
        exact ⟨s1, hdrained⟩
      · exact ⟨s, rfl⟩
    obtain ⟨s1, hdrained⟩ := hdrain
    refine ⟨?_, ?_, ?_⟩
    · unfold SendVideoFrame
      rw [if_neg hstate]
      dsimp only
      rw [hdrained]
      exact ⟨_, rfl⟩
    · unfold SendAudioFrame
      rw [if_neg hstate]
      dsimp only
      rw [hdrained]
      exact ⟨_, rfl⟩
    · obtain ⟨after, hafter, _⟩ := (Send_returns env s.DrainBound).2 s media_packet hstate
        (by unfold DrainBound Queue.Size; omega)
      exact ⟨after, hafter⟩

end LLHlsStream

/-! ## Readiness over sequences of operations -/

namespace LLHlsStream

/-- Once the stream is ready, `CheckPlaylistReady` returns true and changes
nothing. -/
theorem CheckPlaylistReady_ready (env : Env) (s : LLHlsStream)
    (hready : s.playlist_ready = true) : s.CheckPlaylistReady env = some (true, s) := by
  simp [CheckPlaylistReady, hready]

/-- `CheckPlaylistReady` never clears the flag. -/
theorem CheckPlaylistReady_mono (env : Env) (s after : LLHlsStream) (result : Bool)
    (hreturn : s.CheckPlaylistReady env = some (result, after))
    (hready : s.playlist_ready = true) : after.playlist_ready = true := by
  rw [CheckPlaylistReady_ready env s hready, Option.some.injEq, Prod.mk.injEq] at hreturn
  rw [← hreturn.2]
  exact hready

/-- The cache holds no null pointer after `GetMasterPlaylist` if it held none
before. -/
theorem GetMasterPlaylist_keeps_cache (env : Env) (s after : LLHlsStream) (file_name : String)
    (chunk_query_string : String) (gzip legacy include_path : Bool)
    (result : RequestResult × Option Data)
    (hreturn : s.GetMasterPlaylist env file_name chunk_query_string gzip legacy include_path
      = some (result, after))
    (hcache : s.CacheHoldsPlaylists) : after.CacheHoldsPlaylists := by
  have hsame : ∀ outcome : RequestResult × Option Data,
      some (outcome, s) = some (result, after) → after.CacheHoldsPlaylists := by
    intro outcome h
    simp only [Option.some.injEq, Prod.mk.injEq] at h
    rw [← h.2]
    exact hcache
  unfold GetMasterPlaylist at hreturn
  split at hreturn
  · exact hsame _ hreturn
  · split at hreturn
    · exact hsame _ hreturn
    · cases hfind : s.master_playlists.find file_name with
      | some cached =>
        rw [hfind] at hreturn
        exact hsame _ hreturn
      | none =>
        rw [hfind] at hreturn
        dsimp only at hreturn
        cases hplaylist : s.GetPlaylist (env.SubstringToLastDot file_name) with
        | none =>
          rw [hplaylist] at hreturn
          exact hsame _ hreturn
        | some playlist =>
          rw [hplaylist] at hreturn
          dsimp only at hreturn
          cases hcreate : s.CreateMasterPlaylist env playlist with
          | none =>
            rw [hcreate] at hreturn
            exact absurd hreturn (by simp)
          | some master_playlist =>
            rw [hcreate] at hreturn
            simp only [Option.some.injEq, Prod.mk.injEq] at hreturn
            rw [← hreturn.2]
            intro name
            by_cases hname : name = file_name
            · subst hname
              show OrdMap.find (OrdMap.assign s.master_playlists name (some master_playlist)) name
                ≠ some none
              rw [OrdMap.find_assign_self]
              simp
            · show OrdMap.find (OrdMap.assign s.master_playlists file_name
                (some master_playlist)) name ≠ some none
              rw [OrdMap.find_assign_other _ _ _ _ hname]
              exact hcache name

/-- The bound `_max_chunk_duration_ms ≤ M` on the stream's own maximum chunk
duration holds on a new stream, whose maximum is 0. -/
theorem max_chunk_duration_bound_initial (s : LLHlsStream)
    (hzero : s.max_chunk_duration_ms = 0) :
    s.GetMaxChunkDurationMS ≤ LargestMaxChunkDuration s.storage_map := by
  unfold GetMaxChunkDurationMS
  rw [hzero]
  exact Nat.zero_le _

/-- The bound `_max_chunk_duration_ms ≤ M` survives every return of
`CheckPlaylistReady`. -/
theorem max_chunk_duration_bound_kept (env : Env) (s after : LLHlsStream) (result : Bool)
    (hreturn : s.CheckPlaylistReady env = some (result, after))
    (hmax : s.GetMaxChunkDurationMS ≤ LargestMaxChunkDuration s.storage_map) :
    after.GetMaxChunkDurationMS ≤ LargestMaxChunkDuration after.storage_map := by
  obtain ⟨_, _, hbound⟩ := CheckPlaylistReady.storages_spec s.storage_map
    (s.max_chunk_duration_ms, s.min_chunk_duration_ms)
  have hbound' : (CheckPlaylistReady.storages s.storage_map
      (s.max_chunk_duration_ms, s.min_chunk_duration_ms)).2.1
        ≤ LargestMaxChunkDuration s.storage_map := by
    refine le_trans hbound ?_
    exact max_le hmax (le_refl _)
  cases hready : s.playlist_ready with
  | true =>
    rw [CheckPlaylistReady_ready env s hready, Option.some.injEq, Prod.mk.injEq] at hreturn
    rw [← hreturn.2]
    exact hmax
  | false =>
    cases hloop : (CheckPlaylistReady.storages s.storage_map
        (s.max_chunk_duration_ms, s.min_chunk_duration_ms)).1 with
    | false =>
      rw [CheckPlaylistReady_refused env s hready hloop, Option.some.injEq,
        Prod.mk.injEq] at hreturn
      rw [← hreturn.2]
      exact hbound'
    | true =>
      obtain ⟨_, dumps, cache, hafter⟩ :=
        CheckPlaylistReady_transition env s hready hloop result after hreturn
      rw [hafter]
      exact hbound'

/-- The largest maximum chunk duration does not decrease when no storage
reports a smaller maximum chunk duration than before. -/
theorem LargestMaxChunkDuration_mono (before after : OrdMap Int FMP4Storage)
    (hreports : List.Forall₂
      (fun old new => old.2.max_chunk_duration_ms ≤ new.2.max_chunk_duration_ms)
      before after) :
    LargestMaxChunkDuration before ≤ LargestMaxChunkDuration after := by
  induction hreports with
  | nil => exact le_refl _
  | cons hhead _ ih =>
    exact max_le_max hhead ih

end LLHlsStream

/-! ## Lookups after `Stop` -/

namespace LLHlsStream

/-- C14: after `Stop`, the storage, packager and chunklist maps are empty, and
for every track id, segment number, chunk number and query
`GetInitializationSegment`, `GetSegment`, `GetChunk` and `GetChunklist` answer
`NotFound` without data, whatever the stream held before. -/
theorem lookups_after_Stop (env : Env) (s : LLHlsStream) :
    (s.Stop env).2.storage_map = [] ∧ (s.Stop env).2.packager_map = [] ∧
    (s.Stop env).2.chunklist_map = [] ∧
    (∀ track_id : Int,
      (s.Stop env).2.GetInitializationSegment track_id = (RequestResult.NotFound, none)) ∧
    (∀ track_id segment_number : Int,
      (s.Stop env).2.GetSegment track_id segment_number = (RequestResult.NotFound, none)) ∧
    (∀ track_id segment_number chunk_number : Int,
      (s.Stop env).2.GetChunk track_id segment_number chunk_number
        = (RequestResult.NotFound, none)) ∧
    (∀ (query_string : String) (track_id msn psn : Int) (skip gzip legacy : Bool),
      (s.Stop env).2.GetChunklist env query_string track_id msn psn skip gzip legacy
        = (RequestResult.NotFound, none)) := by
  refine ⟨rfl, rfl, rfl, ?_, ?_, ?_, ?_⟩
  · intro track_id
    rfl
  · intro track_id segment_number
    rfl
  · intro track_id segment_number chunk_number
    rfl
  · intro query_string track_id msn psn skip gzip legacy
    rfl

end LLHlsStream

/-! ## Requests without a sequence parameter -/

namespace LLHlsStream

/-- C20: on a ready stream, for a track that has a chunklist writer, a request
with `msn < 0` or `psn < 0` is answered `Success` with the rendered chunklist,
whatever the chunklist reports as its last sequence number (also when it
reports none, and also when `msn` is beyond it); the answer is neither
`Accepted` nor `NotFound`. -/
theorem GetChunklist_without_sequence (env : Env) (s : LLHlsStream) (query_string : String)
    (track_id : Int) (chunklist : LLHlsChunklist) (msn psn : Int) (skip gzip legacy : Bool)
    (hwriter : s.GetChunklistWriter track_id = some chunklist)
    (hready : s.IsReadyToPlay = true)
    (hmissing : msn < 0 ∨ psn < 0) :
    s.GetChunklist env query_string track_id msn psn skip gzip legacy
      = (RequestResult.Success,
          some (GetChunklist.rendered env s chunklist query_string skip gzip legacy)) ∧
    (s.GetChunklist env query_string track_id msn psn skip gzip legacy).1
      ≠ RequestResult.Accepted ∧
    (s.GetChunklist env query_string track_id msn psn skip gzip legacy).1
      ≠ RequestResult.NotFound ∧
    (∀ reported : Option (Int × Int),
      (GetChunklist env
          { s with
            chunklist_map :=
              s.chunklist_map.update track_id
                { chunklist with last_sequence_number := reported } }
          query_string track_id msn psn skip gzip legacy).1
        = RequestResult.Success) := by
  have hcond : ¬ (msn ≥ 0 ∧ psn ≥ 0) := by
    rintro ⟨h1, h2⟩
    rcases hmissing with h | h
    · exact absurd h1 (not_le.mpr h)
    · exact absurd h2 (not_le.mpr h)
  have hcode : s.GetChunklist env query_string track_id msn psn skip gzip legacy
      = (RequestResult.Success,
          some (GetChunklist.rendered env s chunklist query_string skip gzip legacy)) := by
    simp only [GetChunklist, hwriter, hready, GetChunklist.rendered, hcond, if_false]
    cases gzip <;> simp
  refine ⟨hcode, ?_, ?_, ?_⟩
  · rw [hcode]
    exact fun h => RequestResult.noConfusion h
  · rw [hcode]
    exact fun h => RequestResult.noConfusion h
  · intro reported
    have hother : GetChunklistWriter
          { s with
            chunklist_map :=
              s.chunklist_map.update track_id
                { chunklist with last_sequence_number := reported } } track_id
          = some { chunklist with last_sequence_number := reported } := by
      unfold GetChunklistWriter at hwriter ⊢
      dsimp only
      rw [OrdMap.find_update, if_pos rfl, hwriter]
      rfl
    have hready' : IsReadyToPlay
        { s with
          chunklist_map :=
            s.chunklist_map.update track_id
              { chunklist with last_sequence_number := reported } } = true := hready
    simp only [GetChunklist, hother, hready', hcond, if_false]
    cases gzip <;> simp

/-- C20, at the example stream: the chunklist of track 0 reports `(3, 1)`; a
request with `msn = 7` and no part number is rendered at once. -/
theorem GetChunklist_without_sequence_witness :
    Example.stream.GetChunklistWriter 0 = some Example.chunklist ∧
    Example.stream.IsReadyToPlay = true ∧
    (Example.stream.GetChunklist Example.env "" 0 7 (-1) false false false).1
      = RequestResult.Success :=
  ⟨rfl, rfl,
    congrArg Prod.fst
      (GetChunklist_without_sequence Example.env Example.stream "" 0 Example.chunklist 7 (-1)
        false false false rfl rfl (Or.inr (by decide))).1⟩

end LLHlsStream

/-! ## Rendition filtering -/

namespace LLHlsStream

theorem CreateMasterPlaylist.candidates_stream_infs (env : Env) (s : LLHlsStream)
    (entries : OrdMap Int MediaTrack) :
    ∀ master_playlist result : LLHlsMasterPlaylist,
      CreateMasterPlaylist.candidates env s entries master_playlist = some result →
      result.stream_infs = master_playlist.stream_infs := by
  induction entries with
  | nil =>
    intro master_playlist result hreturn
    simp only [CreateMasterPlaylist.candidates, Option.some.injEq] at hreturn
    rw [← hreturn]
  | cons entry rest ih =>
    intro master_playlist result hreturn
    obtain ⟨track_id, track⟩ := entry
    unfold CreateMasterPlaylist.candidates at hreturn
    split at hreturn
    · exact ih _ _ hreturn
    · split at hreturn
      · exact absurd hreturn (fun h => Option.noConfusion h)
      · exact (ih _ _ hreturn).trans rfl

/-- The loop over the renditions appends the stream-inf entries of the
renditions without an unsupported codec, in the order of the renditions. -/
theorem CreateMasterPlaylist.renditions_spec (env : Env) (s : LLHlsStream)
    (renditions : List Rendition) :
    ∀ master_playlist : LLHlsMasterPlaylist,
      CreateMasterPlaylist.renditions env s renditions master_playlist
        = some
            { master_playlist with
              stream_infs :=
                master_playlist.stream_infs
                  ++ (renditions.filter (fun rendition => NoUnsupportedCodec s rendition)).map
                      (StreamInfOf env s) } := by
  induction renditions with
  | nil =>
    intro master_playlist
    simp [CreateMasterPlaylist.renditions]
  | cons rendition rest ih =>
    intro master_playlist
    unfold CreateMasterPlaylist.renditions
    cases hvideo : s.GetTrackByName rendition.video_track_name with
    | none =>
      cases haudio : s.GetTrackByName rendition.audio_track_name with
      | none =>
        have hsupported : NoUnsupportedCodec s rendition := by
          simp [NoUnsupportedCodec, hvideo, haudio]
        simp only [Option.any_none, Bool.false_eq_true, or_self, if_false, ih,
          List.filter_cons, hsupported, decide_True, if_true, List.map_cons, StreamInfOf, hvideo,
          haudio, ChunklistNameOf, List.append_assoc, List.singleton_append]
      | some audio =>
        obtain ⟨audio_name, haudio_name⟩ := GetChunklistName_of_name env s _ audio haudio
        by_cases hcodec : audio.codec_id = MediaCodecId.Aac
        · have hsupported : NoUnsupportedCodec s rendition := by
            simp [NoUnsupportedCodec, hvideo, haudio, hcodec]
          simp only [haudio_name, Option.any_none, Option.any_some, hcodec, ne_eq,
            not_true_eq_false, decide_False, Bool.false_eq_true, or_self, if_false, ih,
            List.filter_cons, hsupported, decide_True, if_true, List.map_cons, StreamInfOf,
            hvideo, haudio, ChunklistNameOf, Option.getD_some, List.append_assoc,
            List.singleton_append]
        · have hsupported : ¬ NoUnsupportedCodec s rendition := by
            simp [NoUnsupportedCodec, hvideo, haudio, hcodec]
          simp only [haudio_name, Option.any_none, Option.any_some, hcodec, ne_eq,
            not_false_eq_true, decide_True, Bool.false_eq_true, false_or, if_true, ih,
            List.filter_cons, hsupported, decide_False, if_false]
    | some video =>
      obtain ⟨video_name, hvideo_name⟩ := GetChunklistName_of_name env s _ video hvideo
      cases haudio : s.GetTrackByName rendition.audio_track_name with
      | none =>
        by_cases hcodec : video.codec_id = MediaCodecId.H264
        · have hsupported : NoUnsupportedCodec s rendition := by
            simp [NoUnsupportedCodec, hvideo, haudio, hcodec]
          simp only [hvideo_name, Option.any_none, Option.any_some, hcodec, ne_eq,
            not_true_eq_false, decide_False, Bool.false_eq_true, or_self, if_false, ih,
            List.filter_cons, hsupported, decide_True, if_true, List.map_cons, StreamInfOf,
            hvideo, haudio, ChunklistNameOf, Option.getD_some, List.append_assoc,
            List.singleton_append]
        · have hsupported : ¬ NoUnsupportedCodec s rendition := by
            simp [NoUnsupportedCodec, hvideo, haudio, hcodec]
          simp only [hvideo_name, Option.any_none, Option.any_some, hcodec, ne_eq,
            not_false_eq_true, decide_True, Bool.false_eq_true, or_false, if_true, ih,
            List.filter_cons, hsupported, decide_False, if_false]
      | some audio =>
        obtain ⟨audio_name, haudio_name⟩ := GetChunklistName_of_name env s _ audio haudio
        by_cases hcodec : video.codec_id = MediaCodecId.H264 ∧ audio.codec_id = MediaCodecId.Aac
        · have hsupported : NoUnsupportedCodec s rendition := by
            simp [NoUnsupportedCodec, hvideo, haudio, hcodec.1, hcodec.2]
          simp only [hvideo_name, haudio_name, Option.any_some, hcodec.1, hcodec.2, ne_eq,
            not_true_eq_false, decide_False, Bool.false_eq_true, or_self, if_false, ih,
            List.filter_cons, hsupported, decide_True, if_true, List.map_cons, StreamInfOf,
            hvideo, haudio, ChunklistNameOf, Option.getD_some, List.append_assoc,
            List.singleton_append]
        · have hsupported : ¬ NoUnsupportedCodec s rendition := by
            simp only [NoUnsupportedCodec, hvideo, haudio, Option.some.injEq, forall_eq']
            exact hcodec
          have hexcluded : (decide (video.codec_id ≠ MediaCodecId.H264) = true) ∨
              (decide (audio.codec_id ≠ MediaCodecId.Aac) = true) := by
            by_cases hv : video.codec_id = MediaCodecId.H264
            · right
              simp only [ne_eq, decide_eq_true_eq]
              exact fun ha => hcodec ⟨hv, ha⟩
            · left
              simp only [ne_eq, decide_eq_true_eq]
              exact hv
          simp only [hvideo_name, haudio_name, Option.any_some, hexcluded, if_true, ih,
            List.filter_cons, hsupported, decide_False, Bool.false_eq_true, if_false]

/-- `CreateMasterPlaylist` in terms of its two loops. -/
theorem CreateMasterPlaylist_spec (env : Env) (s : LLHlsStream) (playlist : Playlist) :
    ∃ first,
      CreateMasterPlaylist.candidates env s s.GetTracks
        { chunk_path := CreateMasterPlaylist.chunk_path s playlist, media_candidates := [],
          stream_infs := [] } = some first ∧
      first.stream_infs = [] ∧
      s.CreateMasterPlaylist env playlist
        = some
            { first with
              stream_infs :=
                (playlist.renditions.filter (fun rendition => NoUnsupportedCodec s rendition)).map
                  (StreamInfOf env s) } := by
  have hentries : ∀ entry ∈ s.GetTracks, ∃ found, s.GetTrack entry.1 = some found := by
    intro entry hmem
    simp only [GetTracks, List.mem_map] at hmem
    obtain ⟨track, htrack, rfl⟩ := hmem
    exact GetTrack_of_mem s track htrack
  obtain ⟨first, hfirst, _⟩ := CreateMasterPlaylist.candidates_total env s s.GetTracks hentries
    { chunk_path := CreateMasterPlaylist.chunk_path s playlist,
      media_candidates := [], stream_infs := [] }
  have hinfs : first.stream_infs = [] :=
    CreateMasterPlaylist.candidates_stream_infs env s s.GetTracks _ first hfirst
  refine ⟨first, hfirst, hinfs, ?_⟩
  simp only [CreateMasterPlaylist, hfirst, CreateMasterPlaylist.renditions_spec, hinfs,
    List.nil_append]

/-- C12: for every declared playlist, `CreateMasterPlaylist` returns a master
playlist whose stream-inf entries are those of the renditions without an
unsupported codec (resolved video track absent or H.264 and resolved audio
track absent or AAC), in declaration order and nothing else; each entry carries
the resolved tracks of its rendition with the chunklist names of exactly these
tracks (the empty name for an absent track); and the media candidates do not
depend on the renditions. -/
theorem rendition_filtering (env : Env) (s : LLHlsStream) (playlist : Playlist) :
    ∃ master_playlist, s.CreateMasterPlaylist env playlist = some master_playlist ∧
      master_playlist.stream_infs
        = (playlist.renditions.filter (fun rendition => NoUnsupportedCodec s rendition)).map
            (fun rendition =>
              (s.GetTrackByName rendition.video_track_name,
                ChunklistNameOf env s (s.GetTrackByName rendition.video_track_name),
                s.GetTrackByName rendition.audio_track_name,
                ChunklistNameOf env s (s.GetTrackByName rendition.audio_track_name))) ∧
      (∀ rendition ∈ playlist.renditions,
        (NoUnsupportedCodec s rendition ↔
          ((s.GetTrackByName rendition.video_track_name = none ∨
              ∃ track, s.GetTrackByName rendition.video_track_name = some track ∧
                track.codec_id = MediaCodecId.H264) ∧
            (s.GetTrackByName rendition.audio_track_name = none ∨
              ∃ track, s.GetTrackByName rendition.audio_track_name = some track ∧
                track.codec_id = MediaCodecId.Aac))) ∧
        (∀ track, s.GetTrackByName rendition.video_track_name = some track →
          s.GetChunklistName env track.id
            = some (ChunklistNameOf env s (s.GetTrackByName rendition.video_track_name))) ∧
        (∀ track, s.GetTrackByName rendition.audio_track_name = some track →
          s.GetChunklistName env track.id
            = some (ChunklistNameOf env s (s.GetTrackByName rendition.audio_track_name))) ∧
        ChunklistNameOf env s none = "") ∧
      (∀ renditions : List Rendition,
        ∃ other, s.CreateMasterPlaylist env { playlist with renditions := renditions }
            = some other ∧
          other.media_candidates = master_playlist.media_candidates) := by
  obtain ⟨first, hfirst, hinfs, hcreate⟩ := CreateMasterPlaylist_spec env s playlist
  refine ⟨_, hcreate, rfl, ?_, ?_⟩
  · intro rendition _
    refine ⟨?_, ?_, ?_, rfl⟩
    · unfold NoUnsupportedCodec
      cases s.GetTrackByName rendition.video_track_name <;>
        cases s.GetTrackByName rendition.audio_track_name <;> simp
    · intro track htrack
      obtain ⟨name, hname⟩ := GetChunklistName_of_name env s _ track htrack
      rw [htrack]
      simp only [ChunklistNameOf, hname, Option.getD_some]
    · intro track htrack
      obtain ⟨name, hname⟩ := GetChunklistName_of_name env s _ track htrack
      rw [htrack]
      simp only [ChunklistNameOf, hname, Option.getD_some]
  · intro renditions
    obtain ⟨other_first, hother_first, _, hother⟩ :=
      CreateMasterPlaylist_spec env s { playlist with renditions := renditions }
    have hsame : other_first = first := by
      have hpath : CreateMasterPlaylist.chunk_path s { playlist with renditions := renditions }
          = CreateMasterPlaylist.chunk_path s playlist := rfl
      rw [hpath, hfirst] at hother_first
      exact (Option.some.inj hother_first).symm
    refine ⟨_, hother, ?_⟩
    rw [hsame]

end LLHlsStream

/-! ## Routing of the data frames -/

namespace LLHlsStream

/-- The loop of `SendDataFrame` over tracks with distinct ids reserves the
packet once on the packager of every track of the target media type, and
leaves every other packager as it was. -/
theorem SendDataFrame.tracks_packagers (media_packet : MediaPacket)
    (target_media_type : MediaType) (tracks : OrdMap Int MediaTrack)
    (hdistinct : (tracks.map (fun entry => entry.2.id)).Nodup) :
    ∀ (s : LLHlsStream) (track_id : Int),
      (SendDataFrame.tracks media_packet target_media_type tracks s).GetPackager track_id
        = (s.GetPackager track_id).map (fun packager =>
            if tracks.any (fun entry =>
                decide (entry.2.id = track_id ∧ entry.2.media_type = target_media_type)) = true
            then packager.ReserveDataPacket media_packet else packager) := by
  induction tracks with
  | nil =>
    intro s track_id
    simp [SendDataFrame.tracks]
  | cons entry rest ih =>
    intro s track_id
    obtain ⟨key, track⟩ := entry
    simp only [List.map_cons, List.nodup_cons, List.mem_map, not_exists, not_and] at hdistinct
    obtain ⟨hfresh, hrest⟩ := hdistinct
    unfold SendDataFrame.tracks
    by_cases htype : track.media_type ≠ target_media_type
    · rw [if_pos htype, ih hrest]
      have hhead : decide (track.id = track_id ∧ track.media_type = target_media_type)
          = false := decide_eq_false (fun h => htype h.2)
      rw [List.any_cons]
      dsimp only
      rw [hhead, Bool.false_or]
    · rw [if_neg htype]
      have htype' : track.media_type = target_media_type := not_not.mp htype
      cases hpackager : s.GetPackager track.id with
      | none =>
        dsimp only
        rw [ih hrest]
        by_cases hid : track.id = track_id
        · subst hid
          rw [hpackager]
          rfl
        · have hhead : decide (track.id = track_id ∧ track.media_type = target_media_type)
              = false := decide_eq_false (fun h => hid h.1)
          rw [List.any_cons]
          dsimp only
          rw [hhead, Bool.false_or]
      | some packager =>
        dsimp only
        rw [ih hrest]
        have hupdated : GetPackager
            { s with
              packager_map :=
                s.packager_map.update track.id (packager.ReserveDataPacket media_packet) }
            track_id
              = if track_id = track.id then some (packager.ReserveDataPacket media_packet)
                else s.GetPackager track_id := by
          unfold GetPackager at hpackager ⊢
          dsimp only
          rw [OrdMap.find_update, hpackager]
          rfl
        rw [hupdated]
        by_cases hid : track_id = track.id
        · subst hid
          have hnone : rest.any (fun entry =>
              decide (entry.2.id = track.id ∧ entry.2.media_type = target_media_type))
                = false := by
            rw [List.any_eq_false]
            intro other hmem
            simp only [decide_eq_true_eq, not_and]
            intro hsame
            exact absurd hsame (hfresh other hmem)
          have hhead : decide (track.id = track.id ∧ track.media_type = target_media_type)
              = true := decide_eq_true ⟨rfl, htype'⟩
          rw [if_pos rfl, hpackager, List.any_cons]
          dsimp only
          rw [hhead, hnone]
          rfl
        · have hhead : decide (track.id = track_id ∧ track.media_type = target_media_type)
              = false := decide_eq_false (fun h => hid h.1.symm)
          rw [if_neg hid, List.any_cons]
          dsimp only
          rw [hhead, Bool.false_or]

/-- The loop of `SendDataFrame` over the tracks, on any stream with distinct
track ids: it writes packagers only; the packager of a track of the target
media type receives `ReserveDataPacket` once, and every other packager is left
as it was. -/
theorem SendDataFrame.reserve_packagers (d : LLHlsStream) (media_packet : MediaPacket) :
    (∃ packagers,
      SendDataFrame.reserve d media_packet = { d with packager_map := packagers }) ∧
    ((d.tracks.map (fun track => track.id)).Nodup → ∀ track_id : Int,
      (d.GetPackager track_id = none →
        (SendDataFrame.reserve d media_packet).GetPackager track_id = none) ∧
      (∀ packager, d.GetPackager track_id = some packager →
        (d.HasTrackOfType track_id (TargetMediaType media_packet) →
          (SendDataFrame.reserve d media_packet).GetPackager track_id
            = some (packager.ReserveDataPacket media_packet)) ∧
        (¬ d.HasTrackOfType track_id (TargetMediaType media_packet) →
          (SendDataFrame.reserve d media_packet).GetPackager track_id
            = some packager))) := by
  refine ⟨SendDataFrame.reserve_frame d media_packet, ?_⟩
  intro hdistinct track_id
  have hdistinct' : (d.GetTracks.map (fun entry => entry.2.id)).Nodup := by
    simp only [GetTracks, List.map_map]
    exact hdistinct
  have hspec := SendDataFrame.tracks_packagers media_packet (TargetMediaType media_packet)
    d.GetTracks hdistinct' d track_id
  have hany : (d.GetTracks.any (fun entry =>
      decide (entry.2.id = track_id ∧ entry.2.media_type = TargetMediaType media_packet))
        = true) ↔ d.HasTrackOfType track_id (TargetMediaType media_packet) := by
    simp only [GetTracks, List.any_eq_true, List.mem_map, decide_eq_true_eq,
      HasTrackOfType]
    constructor
    · rintro ⟨entry, ⟨track, hmem, rfl⟩, hid, htype⟩
      exact ⟨track, hmem, hid, htype⟩
    · rintro ⟨track, hmem, hid, htype⟩
      exact ⟨(track.id, track), ⟨track, hmem, rfl⟩, hid, htype⟩
  have hreserve : (SendDataFrame.reserve d media_packet).GetPackager track_id
      = (d.GetPackager track_id).map (fun packager =>
          if d.GetTracks.any (fun entry =>
              decide (entry.2.id = track_id ∧
                entry.2.media_type = TargetMediaType media_packet)) = true
          then packager.ReserveDataPacket media_packet else packager) := hspec
  refine ⟨?_, ?_⟩
  · intro hnone
    rw [hreserve, hnone]
    rfl
  · intro packager hsome
    rw [hreserve, hsome]
    refine ⟨?_, ?_⟩
    · intro hhas
      rw [Option.map_some', if_pos (hany.mpr hhas)]
    · intro hhas
      have hfalse : ¬ (d.GetTracks.any (fun entry =>
          decide (entry.2.id = track_id ∧
            entry.2.media_type = TargetMediaType media_packet)) = true) :=
        fun h => hhas (hany.mp h)
      rw [Option.map_some', if_neg hfalse]

/-- C18, the claim as written fails. `Example.audio_buffered_stream` is in
state `STARTED`, has a video track 0 and an audio track 1 with their packagers,
and its pre-roll buffer holds an ID3v2 packet of type `AUDIO_EVENT`.
`SendDataFrame` of an ID3v2 packet of type `VIDEO_EVENT` drains the buffer
first: the packager of the audio track receives `ReserveDataPacket` for the
buffered packet, and then the packager of the video track receives
`ReserveDataPacket` for the packet of the call. -/
theorem data_frame_routing_counterexample :
    Example.data_packet.bitstream_format = BitstreamFormat.ID3v2 ∧
    Example.data_packet.packet_type = PacketType.VIDEO_EVENT ∧
    Example.audio_buffered_stream.GetState = State.STARTED ∧
    Example.audio_buffered_stream.tracks = [Example.video_track, Example.audio_track] ∧
    Example.audio_buffered_stream.packager_map.map (fun entry => (entry.1, entry.2.calls))
      = [(0, []), (1, [])] ∧
    (Example.audio_buffered_stream.SendDataFrame Example.env
        Example.audio_buffered_stream.DrainBound Example.data_packet).map
        (fun after => after.packager_map.map (fun entry => (entry.1, entry.2.calls)))
      = some [(0, [PackagerCall.ReserveDataPacket Example.data_packet]),
          (1, [PackagerCall.ReserveDataPacket Example.audio_data_packet])] :=
  ⟨rfl, rfl, rfl, rfl, rfl, rfl⟩

/-- C18 (amended): `SendDataFrame` drops a data packet whose bitstream format
is not ID3v2 in every state: the stream is unchanged, so no packager receives
`ReserveDataPacket` and nothing is buffered. For an ID3v2 packet after
`CREATED`, the call first drains the pre-roll buffer with `SendBufferedPackets`,
which leaves the buffer empty and writes the buffer and the packagers only, and
then runs the loop over the tracks with the packet. With an empty pre-roll
buffer the call is that loop on the stream itself. On any stream with distinct
track ids the loop calls `ReserveDataPacket` with the packet once on exactly
the packagers of the tracks whose media type is Video when the packet type is
`VIDEO_EVENT` and Audio for every other packet type, leaves every other
packager as it was, and writes nothing but packagers. -/
theorem data_frame_routing (env : Env) (s : LLHlsStream) (media_packet : MediaPacket) :
    (media_packet.bitstream_format ≠ BitstreamFormat.ID3v2 → ∀ fuel : Nat,
      s.SendDataFrame env (fuel + 1) media_packet = some s) ∧
    (media_packet.bitstream_format = BitstreamFormat.ID3v2 → s.GetState ≠ State.CREATED →
      (s.initial_media_packet_buffer = [] → ∀ fuel : Nat,
        s.SendDataFrame env (fuel + 1) media_packet
          = some (SendDataFrame.reserve s media_packet)) ∧
      (s.initial_media_packet_buffer ≠ [] →
        ∃ drained,
          s.SendBufferedPackets env (2 * s.initial_media_packet_buffer.Size + 1)
            = some drained ∧
          drained.initial_media_packet_buffer = [] ∧
          BufferAndPackagersOnly s drained ∧
          s.SendDataFrame env s.DrainBound media_packet
            = some (SendDataFrame.reserve drained media_packet))) ∧
    (∀ d : LLHlsStream,
      (∃ packagers,
        SendDataFrame.reserve d media_packet = { d with packager_map := packagers }) ∧
      ((d.tracks.map (fun track => track.id)).Nodup → ∀ track_id : Int,
        (d.GetPackager track_id = none →
          (SendDataFrame.reserve d media_packet).GetPackager track_id = none) ∧
        (∀ packager, d.GetPackager track_id = some packager →
          (d.HasTrackOfType track_id (TargetMediaType media_packet) →
            (SendDataFrame.reserve d media_packet).GetPackager track_id
              = some (packager.ReserveDataPacket media_packet)) ∧
          (¬ d.HasTrackOfType track_id (TargetMediaType media_packet) →
            (SendDataFrame.reserve d media_packet).GetPackager track_id
              = some packager)))) := by
  refine ⟨?_, ?_, fun d => SendDataFrame.reserve_packagers d media_packet⟩
  · intro hformat fuel
    rw [SendDataFrame_succ, if_pos hformat]
  · intro hformat hstate
    have hformat' : ¬ media_packet.bitstream_format ≠ BitstreamFormat.ID3v2 :=
      fun h => h hformat
    refine ⟨?_, ?_⟩
    · intro hbuffer fuel
      rw [SendDataFrame_succ, if_neg hformat', if_neg hstate, hbuffer]
      rfl
    · intro hbuffer
      obtain ⟨drained, hdrained, hempty⟩ :=
        (Send_returns env (2 * s.initial_media_packet_buffer.Size + 1)).1 s hstate
          (by unfold Queue.Size; omega)
      refine ⟨drained, hdrained, hempty, (Send_frame env _).1 s drained hdrained, ?_⟩
      unfold DrainBound
      rw [SendDataFrame_succ, if_neg hformat', if_neg hstate]
      cases hlist : s.initial_media_packet_buffer with
      | nil => exact absurd hlist hbuffer
      | cons first rest =>
        rw [hlist] at hdrained
        dsimp only
        rw [hdrained]
        rfl

/-- C18, at the example stream, whose pre-roll buffer is empty: `SendDataFrame`
of the ID3v2 packet of type `VIDEO_EVENT` calls `ReserveDataPacket` on the
packager of the video track and on no other packager. -/
theorem data_frame_routing_witness :
    Example.data_packet.bitstream_format = BitstreamFormat.ID3v2 ∧
    Example.stream.GetState ≠ State.CREATED ∧
    Example.stream.initial_media_packet_buffer = [] ∧
    Example.stream.SendDataFrame Example.env 1 Example.data_packet
      = some (SendDataFrame.reserve Example.stream Example.data_packet) ∧
    (SendDataFrame.reserve Example.stream Example.data_packet).packager_map.map
        (fun entry => (entry.1, entry.2.calls))
      = [(0, [PackagerCall.ReserveDataPacket Example.data_packet]), (1, [])] :=
  ⟨rfl, fun h => State.noConfusion h, rfl,
    ((data_frame_routing Example.env Example.stream Example.data_packet).2.1 rfl
      (fun h => State.noConfusion h)).1 rfl 0,
    rfl⟩

end LLHlsStream

/-! ## Dumps: write failures -/

namespace LLHlsStream

theorem ChunklistsOnly.refl_chunklists (s : LLHlsStream) : ChunklistsOnly s s :=
  ⟨s.chunklist_map, rfl⟩

theorem ChunklistsOnly.trans_chunklists {a b c : LLHlsStream} (hab : ChunklistsOnly a b)
    (hbc : ChunklistsOnly b c) : ChunklistsOnly a c := by
  obtain ⟨chunklists1, rfl⟩ := hab
  obtain ⟨chunklists2, rfl⟩ := hbc
  exact ⟨chunklists2, rfl⟩

theorem DumpLogsOnly.refl_logs (item : Dump) : DumpLogsOnly item item :=
  ⟨item.first_segment_number, item.written, rfl⟩

theorem DumpLogsOnly.trans_logs {a b c : Dump} (hab : DumpLogsOnly a b)
    (hbc : DumpLogsOnly b c) : DumpLogsOnly a c := by
  obtain ⟨first1, written1, rfl⟩ := hab
  obtain ⟨first2, written2, rfl⟩ := hbc
  exact ⟨first2, written2, rfl⟩

theorem DumpData_logs (item : Dump) (file_name : String) (data : Data) :
    DumpLogsOnly item (DumpData item file_name data).2 := by
  unfold DumpData Dump.DumpData
  split
  · exact ⟨item.first_segment_number, _, rfl⟩
  · exact DumpLogsOnly.refl_logs item

theorem DumpData_logs_of_eq {item after : Dump} {file_name : String} {data : Data}
    {result : Bool} (hdumped : DumpData item file_name data = (result, after)) :
    DumpLogsOnly item after := by
  have hlogs := DumpData_logs item file_name data
  rw [hdumped] at hlogs
  exact hlogs

theorem SetExtraData_logs (item : Dump) (track_id segment_number : Int) :
    DumpLogsOnly item (item.SetExtraData track_id segment_number) :=
  ⟨_, item.written, rfl⟩

/-- Whenever `DumpSegment` returns, it has written the logs of the dump and
the chunklists of the stream only. -/
theorem DumpSegment_frame (env : Env) (s : LLHlsStream) (item : Dump) (track_id : Int)
    (segment_number : Int) (outcome : Bool × Dump × LLHlsStream)
    (hreturn : s.DumpSegment env item track_id segment_number = some outcome) :
    DumpLogsOnly item outcome.2.1 ∧ ChunklistsOnly s outcome.2.2 := by
  have hextra : DumpLogsOnly item
      (if item.HasExtraData track_id = false then item.SetExtraData track_id segment_number
       else item) := by
    split
    · exact SetExtraData_logs item track_id segment_number
    · exact DumpLogsOnly.refl_logs item
  unfold DumpSegment at hreturn
  split at hreturn
  · rw [Option.some.injEq] at hreturn
    subst hreturn
    exact ⟨DumpLogsOnly.refl_logs item, ChunklistsOnly.refl_chunklists s⟩
  · dsimp only at hreturn
    split at hreturn
    · exact absurd hreturn (fun h => Option.noConfusion h)
    · split at hreturn
      · rw [Option.some.injEq] at hreturn
        subst hreturn
        exact ⟨hextra, ChunklistsOnly.refl_chunklists s⟩
      · split at hreturn
        · rw [Option.some.injEq] at hreturn
          subst hreturn
          exact ⟨hextra, ChunklistsOnly.refl_chunklists s⟩
        · split at hreturn
          · split at hreturn
            · rename_i item2 hdumped
              rw [Option.some.injEq] at hreturn
              subst hreturn
              exact ⟨hextra.trans_logs (DumpData_logs_of_eq hdumped),
                ChunklistsOnly.refl_chunklists s⟩
            · rename_i item2 hdumped
              split at hreturn
              · rename_i item3 hdumped2
                rw [Option.some.injEq] at hreturn
                subst hreturn
                exact ⟨(hextra.trans_logs (DumpData_logs_of_eq hdumped)).trans_logs
                  (DumpData_logs_of_eq hdumped2), ChunklistsOnly.refl_chunklists s⟩
              · rename_i item3 hdumped2
                rw [Option.some.injEq] at hreturn
                subst hreturn
                exact ⟨(hextra.trans_logs (DumpData_logs_of_eq hdumped)).trans_logs
                  (DumpData_logs_of_eq hdumped2), _, rfl⟩
          · exact absurd hreturn (fun h => Option.noConfusion h)

/-- `DumpSegment` returns when the track has a storage and is a track of the
stream. -/
theorem DumpSegment_total (env : Env) (s : LLHlsStream) (item : Dump) (track_id : Int)
    (segment_number : Int) (hstorage : ∃ storage, s.GetStorage track_id = some storage)
    (htrack : ∃ track, s.GetTrack track_id = some track) :
    ∃ outcome, s.DumpSegment env item track_id segment_number = some outcome := by
  obtain ⟨storage, hstorage⟩ := hstorage
  obtain ⟨track, htrack⟩ := htrack
  have hsegment_name : ∃ name, s.GetSegmentName env track_id segment_number = some name := by
    simp [GetSegmentName, MediaTypeName, htrack]
  have hchunklist_name : ∃ name, s.GetChunklistName env track_id = some name := by
    simp [GetChunklistName, MediaTypeName, htrack]
  obtain ⟨segment_name, hsegment_name⟩ := hsegment_name
  obtain ⟨chunklist_name, hchunklist_name⟩ := hchunklist_name
  unfold DumpSegment
  split
  · exact ⟨_, rfl⟩
  · dsimp only
    rw [hstorage]
    dsimp only
    split
    · exact ⟨_, rfl⟩
    · split
      · exact ⟨_, rfl⟩
      · rw [hsegment_name, hchunklist_name]
        dsimp only
        split
        · exact ⟨_, rfl⟩
        · split
          · exact ⟨_, rfl⟩
          · exact ⟨_, rfl⟩

theorem DumpSegmentOfAllItems.loop_outcome (env : Env) (track_id : Int) (segment_number : Int)
    (start : LLHlsStream) (dumps : OrdMap String Dump) :
    ∀ (s : LLHlsStream) (outcome : OrdMap String Dump × LLHlsStream),
      ChunklistsOnly start s →
      DumpSegmentOfAllItems.loop env track_id segment_number dumps s = some outcome →
      List.Forall₂ (SegmentDumpOutcome env start track_id segment_number) dumps outcome.1 ∧
      ChunklistsOnly start outcome.2 := by
  induction dumps with
  | nil =>
    intro s outcome hframe hreturn
    simp only [DumpSegmentOfAllItems.loop, Option.some.injEq] at hreturn
    subst hreturn
    exact ⟨List.Forall₂.nil, hframe⟩
  | cons entry rest ih =>
    intro s outcome hframe hreturn
    obtain ⟨id, dump⟩ := entry
    unfold DumpSegmentOfAllItems.loop at hreturn
    split at hreturn
    · rename_i hdisabled
      cases hrest : DumpSegmentOfAllItems.loop env track_id segment_number rest s with
      | none =>
        rw [hrest] at hreturn
        exact absurd hreturn (fun h => Option.noConfusion h)
      | some rest_outcome =>
        rw [hrest, Option.map_some', Option.some.injEq] at hreturn
        subst hreturn
        obtain ⟨hall, hframe2⟩ := ih s rest_outcome hframe hrest
        refine ⟨List.Forall₂.cons ⟨rfl, fun _ => rfl, ?_⟩ hall, hframe2⟩
        intro henabled
        rw [hdisabled] at henabled
        exact absurd henabled (by decide)
    · rename_i henabled
      have henabled' : dump.enabled = true := by
        cases h : dump.enabled with
        | true => rfl
        | false => exact absurd h henabled
      cases hdump : s.DumpSegment env dump track_id segment_number with
      | none =>
        rw [hdump] at hreturn
        exact absurd hreturn (fun h => Option.noConfusion h)
      | some dumped =>
        obtain ⟨result, dump1, s1⟩ := dumped
        obtain ⟨hlogs, hframe1⟩ := DumpSegment_frame env s dump track_id segment_number _ hdump
        obtain ⟨first, written, hdump1⟩ := hlogs
        rw [hdump] at hreturn
        cases hrest : DumpSegmentOfAllItems.loop env track_id segment_number rest s1 with
        | none =>
          cases result <;>
            (dsimp only at hreturn
             rw [hrest] at hreturn
             exact absurd hreturn (fun h => Option.noConfusion h))
        | some rest_outcome =>
          obtain ⟨hall, hframe2⟩ := ih s1 rest_outcome (hframe.trans_chunklists hframe1) hrest
          cases result with
          | false =>
            dsimp only at hreturn
            rw [hrest, Option.map_some', Option.some.injEq] at hreturn
            subst hreturn
            refine ⟨List.Forall₂.cons ⟨rfl, ?_, ?_⟩ hall, hframe2⟩
            · intro hdisabled
              exact absurd hdisabled henabled
            · intro _
              exact ⟨s, false, dump1, s1, hframe, hdump, rfl, rfl, rfl⟩
          | true =>
            dsimp only at hreturn
            rw [hrest, Option.map_some', Option.some.injEq] at hreturn
            subst hreturn
            refine ⟨List.Forall₂.cons ⟨rfl, ?_, ?_⟩ hall, hframe2⟩
            · intro hdisabled
              exact absurd hdisabled henabled
            · intro _
              refine ⟨s, true, dump1, s1, hframe, hdump, ?_, rfl, rfl⟩
              dsimp only at hdump1 ⊢
              rw [hdump1]
              exact henabled'

theorem DumpSegmentOfAllItems.loop_returns (env : Env) (track_id : Int) (segment_number : Int)
    (dumps : OrdMap String Dump) :
    ∀ s : LLHlsStream, (∃ storage, s.GetStorage track_id = some storage) →
      (∃ track, s.GetTrack track_id = some track) →
      ∃ outcome, DumpSegmentOfAllItems.loop env track_id segment_number dumps s
        = some outcome := by
  induction dumps with
  | nil =>
    intro s _ _
    exact ⟨_, rfl⟩
  | cons entry rest ih =>
    intro s hstorage htrack
    obtain ⟨id, dump⟩ := entry
    unfold DumpSegmentOfAllItems.loop
    split
    · obtain ⟨outcome, hrest⟩ := ih s hstorage htrack
      rw [hrest]
      exact ⟨_, rfl⟩
    · obtain ⟨⟨result, dump1, s1⟩, hdump⟩ :=
        DumpSegment_total env s dump track_id segment_number hstorage htrack
      obtain ⟨_, chunklists, hs1⟩ := DumpSegment_frame env s dump track_id segment_number _ hdump
      dsimp only at hs1
      subst hs1
      obtain ⟨outcome, hrest⟩ := ih { s with chunklist_map := chunklists } hstorage htrack
      rw [hdump]
      cases result <;>
        (dsimp only
         rw [hrest]
         exact ⟨_, rfl⟩)

theorem DumpData_succeeds {item after : Dump} {file_name : String} {data : Data}
    (hdumped : DumpData item file_name data = (true, after)) :
    item.DumpDataResult item.written file_name data = true := by
  unfold DumpData Dump.DumpData at hdumped
  split at hdumped
  · assumption
  · exact Bool.noConfusion (congrArg Prod.fst hdumped)

theorem DumpLogsOnly.result_logs {item after : Dump} (hlogs : DumpLogsOnly item after) :
    after.DumpDataResult = item.DumpDataResult := by
  obtain ⟨first, written, rfl⟩ := hlogs
  rfl

/-- The failures of `DumpSegment` on an enabled dump: the result is false when
the storage does not hold the segment, when the write of the segment file
fails, and when the write of the chunklist file fails. -/
theorem DumpSegment_fails (env : Env) (s : LLHlsStream) (item : Dump) (track_id : Int)
    (segment_number : Int) (outcome : Bool × Dump × LLHlsStream)
    (hreturn : s.DumpSegment env item track_id segment_number = some outcome)
    (hcause :
      (∃ storage, s.GetStorage track_id = some storage ∧
        storage.GetMediaSegment segment_number = none) ∨
      (∃ name, s.GetSegmentName env track_id segment_number = some name ∧
        ∀ written data, item.DumpDataResult written name data = false) ∨
      (∃ name, s.GetChunklistName env track_id = some name ∧
        ∀ written data, item.DumpDataResult written name data = false)) :
    outcome.1 = false := by
  have hextra : DumpLogsOnly item
      (if item.HasExtraData track_id = false then item.SetExtraData track_id segment_number
       else item) := by
    split
    · exact SetExtraData_logs item track_id segment_number
    · exact DumpLogsOnly.refl_logs item
  unfold DumpSegment at hreturn
  split at hreturn
  · rw [Option.some.injEq] at hreturn
    rw [← hreturn]
  · dsimp only at hreturn
    split at hreturn
    · exact absurd hreturn (fun h => Option.noConfusion h)
    · rename_i storage hstorage
      split at hreturn
      · rw [Option.some.injEq] at hreturn
        rw [← hreturn]
      · rename_i segment hsegment
        split at hreturn
        · rw [Option.some.injEq] at hreturn
          rw [← hreturn]
        · split at hreturn
          · rename_i segment_file_name chunklist_file_name hsegment_name hchunklist_name
            split at hreturn
            · rw [Option.some.injEq] at hreturn
              rw [← hreturn]
            · rename_i item2 hdumped
              split at hreturn
              · rw [Option.some.injEq] at hreturn
                rw [← hreturn]
              · rename_i item3 hdumped2
                exfalso
                rcases hcause with ⟨storage', hstorage', hmissing⟩ | ⟨name, hname, hfails⟩ |
                    ⟨name, hname, hfails⟩
                · rw [hstorage, Option.some.injEq] at hstorage'
                  subst hstorage'
                  rw [hsegment] at hmissing
                  exact Option.noConfusion hmissing
                · rw [hsegment_name, Option.some.injEq] at hname
                  subst hname
                  have htrue := DumpData_succeeds hdumped
                  rw [hextra.result_logs, hfails] at htrue
                  exact Bool.noConfusion htrue
                · rw [hchunklist_name, Option.some.injEq] at hname
                  subst hname
                  have hlogs2 := hextra.trans_logs (DumpData_logs_of_eq hdumped)
                  have htrue := DumpData_succeeds hdumped2
                  rw [hlogs2.result_logs, hfails] at htrue
                  exact Bool.noConfusion htrue
          · exact absurd hreturn (fun h => Option.noConfusion h)

/-- C16: whenever `DumpSegmentOfAllItems` returns, every registered dump keeps
its place and id; a dump that was disabled is left as it was; a dump that was
enabled is enabled afterwards exactly when its `DumpSegment` call returned
true, so a failed segment dump (segment or chunklist missing, or a write that
fails) disables it and a successful one leaves it enabled. The call returns
whenever the track has a storage and is a track of the stream.
`DumpMasterPlaylistsOfAllItems` always returns and changes the enabled flag of
no dump, whatever the master-playlist dumps did. -/
theorem dump_write_failure_policy (env : Env) :
    (∀ (s after : LLHlsStream) (track_id segment_number : Int),
      s.DumpSegmentOfAllItems env track_id segment_number = some after →
      List.Forall₂ (SegmentDumpOutcome env s track_id segment_number) s.dumps after.dumps) ∧
    (∀ (s : LLHlsStream) (track_id segment_number : Int),
      (∃ storage, s.GetStorage track_id = some storage) →
      (∃ track, s.GetTrack track_id = some track) →
      ∃ after, s.DumpSegmentOfAllItems env track_id segment_number = some after) ∧
    (∀ (s : LLHlsStream) (item : Dump) (track_id segment_number : Int)
        (outcome : Bool × Dump × LLHlsStream),
      s.DumpSegment env item track_id segment_number = some outcome →
      ((∃ storage, s.GetStorage track_id = some storage ∧
          storage.GetMediaSegment segment_number = none) ∨
        (∃ name, s.GetSegmentName env track_id segment_number = some name ∧
          ∀ written data, item.DumpDataResult written name data = false) ∨
        (∃ name, s.GetChunklistName env track_id = some name ∧
          ∀ written data, item.DumpDataResult written name data = false)) →
      outcome.1 = false) ∧
    (∀ s : LLHlsStream,
      ∃ after, s.DumpMasterPlaylistsOfAllItems env = some after ∧
        after.dumps.map (fun entry => (entry.1, entry.2.enabled))
          = s.dumps.map (fun entry => (entry.1, entry.2.enabled))) := by
  refine ⟨?_, ?_, DumpSegment_fails env, ?_⟩
  · intro s after track_id segment_number hreturn
    unfold DumpSegmentOfAllItems at hreturn
    cases hloop : DumpSegmentOfAllItems.loop env track_id segment_number s.dumps s with
    | none =>
      rw [hloop] at hreturn
      exact absurd hreturn (fun h => Option.noConfusion h)
    | some outcome =>
      rw [hloop, Option.map_some', Option.some.injEq] at hreturn
      subst hreturn
      exact (DumpSegmentOfAllItems.loop_outcome env track_id segment_number s s.dumps s outcome
        (ChunklistsOnly.refl_chunklists s) hloop).1
  · intro s track_id segment_number hstorage htrack
    obtain ⟨outcome, hloop⟩ :=
      DumpSegmentOfAllItems.loop_returns env track_id segment_number s.dumps s hstorage htrack
    unfold DumpSegmentOfAllItems
    rw [hloop]
    exact ⟨_, rfl⟩
  · intro s
    obtain ⟨after, hreturn, _, hflags⟩ := DumpMasterPlaylistsOfAllItems_total env s
    exact ⟨after, hreturn, hflags⟩

end LLHlsStream

/-! ## Dumps: duplicates -/

theorem OrdMap.emplace_mem {κ α : Type} [DecidableEq κ] [LT κ]
    [DecidableRel (fun (a b : κ) => a < b)] (m : OrdMap κ α) (k : κ) (v : α) :
    ∃ entry ∈ m.emplace k v, entry.1 = k ∧ (entry ∈ m ∨ entry = (k, v)) := by
  induction m with
  | nil => exact ⟨(k, v), by simp [OrdMap.emplace], rfl, Or.inr rfl⟩
  | cons head rest ih =>
    obtain ⟨k', v'⟩ := head
    by_cases h1 : k' = k
    · refine ⟨(k', v'), ?_, h1, Or.inl (List.mem_cons_self _ _)⟩
      simp [OrdMap.emplace, h1]
    · by_cases h2 : k < k'
      · refine ⟨(k, v), ?_, rfl, Or.inr rfl⟩
        simp [OrdMap.emplace, h1, h2]
      · obtain ⟨entry, hmem, hkey, hsource⟩ := ih
        refine ⟨entry, ?_, hkey, ?_⟩
        · simp only [OrdMap.emplace, h1, h2, if_false]
          exact List.mem_cons_of_mem _ hmem
        · rcases hsource with h | h
          · exact Or.inl (List.mem_cons_of_mem _ h)
          · exact Or.inr h

namespace LLHlsStream

/-- The first loop of `StartDump` refuses exactly when a registered dump
refuses the request. -/
theorem StartDump.duplicate_spec (info : DumpInfo) (dumps : OrdMap String Dump) :
    (StartDump.duplicate info dumps = none ↔ ∀ entry ∈ dumps, ¬ RefusesDump entry.2 info) := by
  induction dumps with
  | nil => simp [StartDump.duplicate]
  | cons entry rest ih =>
    obtain ⟨key, dump⟩ := entry
    unfold StartDump.duplicate
    by_cases hid : dump.id = info.id
    · rw [if_pos hid]
      constructor
      · intro h
        exact Option.noConfusion h
      · intro h
        exact absurd (Or.inl hid) (h (key, dump) (List.mem_cons_self _ _))
    · rw [if_neg hid]
      by_cases hurl : dump.info_file_url.isEmpty = false ∧
          dump.info_file_url = info.info_file_url
      · rw [if_pos hurl]
        constructor
        · intro h
          exact Option.noConfusion h
        · intro h
          exact absurd (Or.inr hurl) (h (key, dump) (List.mem_cons_self _ _))
      · rw [if_neg hurl, ih]
        constructor
        · intro h entry hmem
          rcases List.mem_cons.mp hmem with heq | hmem
          · rw [heq]
            rintro (h1 | h2)
            · exact hid h1
            · exact hurl h2
          · exact h entry hmem
        · intro h entry hmem
          exact h entry (List.mem_cons_of_mem _ hmem)

theorem DumpInitSegment_logs (env : Env) (s : LLHlsStream) (item : Dump) (track_id : Int)
    (outcome : Bool × Dump) (hreturn : s.DumpInitSegment env item track_id = some outcome) :
    DumpLogsOnly item outcome.2 := by
  unfold DumpInitSegment at hreturn
  split at hreturn
  · rw [Option.some.injEq] at hreturn
    subst hreturn
    exact DumpLogsOnly.refl_logs item
  · split at hreturn
    · split at hreturn
      · exact absurd hreturn (fun h => Option.noConfusion h)
      · rw [Option.some.injEq] at hreturn
        subst hreturn
        exact DumpData_logs _ _ _
    · rw [Option.some.injEq] at hreturn
      subst hreturn
      exact DumpLogsOnly.refl_logs item

/-- `GetMasterPlaylist` always returns, and writes the cache only. -/
theorem GetMasterPlaylist_cache_only (env : Env) (s : LLHlsStream) (file_name : String)
    (chunk_query_string : String) (gzip legacy include_path : Bool) :
    ∃ result cache,
      s.GetMasterPlaylist env file_name chunk_query_string gzip legacy include_path
        = some (result, { s with master_playlists := cache }) := by
  unfold GetMasterPlaylist
  split
  · exact ⟨_, s.master_playlists, rfl⟩
  · split
    · exact ⟨_, s.master_playlists, rfl⟩
    · cases hfind : s.master_playlists.find file_name with
      | some cached =>
        dsimp only
        exact ⟨_, s.master_playlists, rfl⟩
      | none =>
        dsimp only
        cases hplaylist : s.GetPlaylist (env.SubstringToLastDot file_name) with
        | none =>
          dsimp only
          exact ⟨_, s.master_playlists, rfl⟩
        | some playlist =>
          obtain ⟨master_playlist, hcreate, _⟩ := CreateMasterPlaylist_total env s playlist
          simp only [hcreate]
          exact ⟨_, _, rfl⟩

theorem DumpMasterPlaylist.playlists_cache_only (env : Env) (playlists : List String) :
    ∀ (item : Dump) (s : LLHlsStream),
      ∃ result item1 cache,
        DumpMasterPlaylist.playlists env playlists item s
          = some (result, item1, { s with master_playlists := cache }) ∧
          DumpLogsOnly item item1 := by
  induction playlists with
  | nil =>
    intro item s
    exact ⟨true, item, s.master_playlists, rfl, DumpLogsOnly.refl_logs item⟩
  | cons playlist rest ih =>
    intro item s
    obtain ⟨⟨result, data⟩, cache, hget⟩ :=
      GetMasterPlaylist_cache_only env s playlist "" false false false
    unfold DumpMasterPlaylist.playlists
    rw [hget]
    dsimp only
    split
    · exact ⟨_, _, cache, rfl, DumpLogsOnly.refl_logs item⟩
    · rcases hdump : DumpData item playlist (data.getD []) with ⟨written, item1⟩
      have hlogs := DumpData_logs_of_eq hdump
      cases written with
      | false => exact ⟨_, _, cache, rfl, hlogs⟩
      | true =>
        obtain ⟨result2, item2, cache2, hrest, hlogs2⟩ :=
          ih item1 { s with master_playlists := cache }
        exact ⟨result2, item2, cache2, hrest, hlogs.trans_logs hlogs2⟩

theorem DumpMasterPlaylist_cache_only (env : Env) (s : LLHlsStream) (item : Dump) :
    ∃ result item1 cache,
      s.DumpMasterPlaylist env item = some (result, item1, { s with master_playlists := cache }) ∧
        DumpLogsOnly item item1 := by
  unfold DumpMasterPlaylist
  split
  · exact ⟨_, _, s.master_playlists, rfl, DumpLogsOnly.refl_logs item⟩
  · exact DumpMasterPlaylist.playlists_cache_only env item.playlists item s

theorem StartDump.storages_frame (env : Env) (min_segment_number : Int)
    (storages : OrdMap Int FMP4Storage) :
    ∀ (dump_info : Dump) (s : LLHlsStream) (outcome : Option String × Dump × LLHlsStream),
      StartDump.storages env min_segment_number storages dump_info s = some outcome →
      DumpLogsOnly dump_info outcome.2.1 ∧ ChunklistsOnly s outcome.2.2 := by
  induction storages with
  | nil =>
    intro dump_info s outcome hreturn
    simp only [StartDump.storages, Option.some.injEq] at hreturn
    subst hreturn
    exact ⟨DumpLogsOnly.refl_logs dump_info, ChunklistsOnly.refl_chunklists s⟩
  | cons entry rest ih =>
    intro dump_info s outcome hreturn
    obtain ⟨track_id, storage⟩ := entry
    unfold StartDump.storages at hreturn
    cases hinit : s.DumpInitSegment env dump_info track_id with
    | none =>
      rw [hinit] at hreturn
      exact absurd hreturn (fun h => Option.noConfusion h)
    | some init_outcome =>
      obtain ⟨init_result, dump_info1⟩ := init_outcome
      have hlogs1 : DumpLogsOnly dump_info dump_info1 :=
        DumpInitSegment_logs env s dump_info track_id _ hinit
      rw [hinit] at hreturn
      cases init_result with
      | false =>
        dsimp only at hreturn
        rw [Option.some.injEq] at hreturn
        subst hreturn
        exact ⟨hlogs1, ChunklistsOnly.refl_chunklists s⟩
      | true =>
        dsimp only at hreturn
        cases hsegment : s.DumpSegment env dump_info1 track_id min_segment_number with
        | none =>
          rw [hsegment] at hreturn
          exact absurd hreturn (fun h => Option.noConfusion h)
        | some segment_outcome =>
          obtain ⟨segment_result, dump_info2, s1⟩ := segment_outcome
          obtain ⟨hlogs2, hframe⟩ :=
            DumpSegment_frame env s dump_info1 track_id min_segment_number _ hsegment
          rw [hsegment] at hreturn
          cases segment_result with
          | false =>
            dsimp only at hreturn
            rw [Option.some.injEq] at hreturn
            subst hreturn
            exact ⟨hlogs1.trans_logs hlogs2, hframe⟩
          | true =>
            dsimp only at hreturn
            obtain ⟨hlogs3, hframe3⟩ := ih dump_info2 s1 outcome hreturn
            exact ⟨(hlogs1.trans_logs hlogs2).trans_logs hlogs3,
              hframe.trans_chunklists hframe3⟩

/-- A successful `StartDump` registers one dump with the id of the request
under that id, and leaves the other registered dumps as they were. -/
theorem StartDump_registers (env : Env) (s first : LLHlsStream) (info : DumpInfo)
    (message : String) (hreturn : s.StartDump env info = some ((true, message), first)) :
    ∃ registered : Dump,
      registered.id = info.id ∧ first.dumps = s.dumps.emplace info.id registered := by
  unfold StartDump at hreturn
  cases hduplicate : StartDump.duplicate info s.dumps with
  | some refusal =>
    rw [hduplicate] at hreturn
    dsimp only at hreturn
    rw [Option.some.injEq] at hreturn
    exact Bool.noConfusion (congrArg (fun r => r.1.1) hreturn)
  | none =>
    rw [hduplicate] at hreturn
    dsimp only at hreturn
    by_cases hready : s.IsReadyToPlay = false
    · rw [if_pos hready, Option.some.injEq] at hreturn
      have hfirst := congrArg Prod.snd hreturn
      dsimp only at hfirst
      rw [← hfirst]
      exact ⟨_, rfl, rfl⟩
    · rw [if_neg hready] at hreturn
      cases hstorages : StartDump.storages env s.GetMinimumLastSegmentNumber s.storage_map
          ((Dump.ofInfo info).SetEnabled true) s with
      | none =>
        rw [hstorages] at hreturn
        exact absurd hreturn (fun h => Option.noConfusion h)
      | some outcome =>
        obtain ⟨refusal, dump_info1, s1⟩ := outcome
        obtain ⟨hlogs1, chunklists, hs1⟩ :=
          StartDump.storages_frame env _ _ _ _ _ hstorages
        dsimp only at hlogs1 hs1
        rw [hstorages] at hreturn
        cases refusal with
        | some text =>
          dsimp only at hreturn
          rw [Option.some.injEq] at hreturn
          exact Bool.noConfusion (congrArg (fun r => r.1.1) hreturn)
        | none =>
          dsimp only at hreturn
          obtain ⟨result, dump_info2, cache, hmaster, hlogs2⟩ :=
            DumpMasterPlaylist_cache_only env s1 dump_info1
          rw [hmaster] at hreturn
          cases result with
          | false =>
            dsimp only at hreturn
            rw [Option.some.injEq] at hreturn
            exact Bool.noConfusion (congrArg (fun r => r.1.1) hreturn)
          | true =>
            dsimp only at hreturn
            rw [Option.some.injEq] at hreturn
            have hfirst := congrArg Prod.snd hreturn
            dsimp only at hfirst
            have hid : dump_info2.id = info.id := by
              obtain ⟨first1, written1, h1⟩ := hlogs1
              obtain ⟨first2, written2, h2⟩ := hlogs2
              rw [h2, h1]
              rfl
            rw [← hfirst, hs1, hid]
            exact ⟨dump_info2, hid, rfl⟩

/-- C15, the claim as written fails: the registered dump of
`Example.pending_stream` and the request `Example.other_info` have equal
info-file URLs (both are empty) and different ids, and `StartDump` accepts the
request and registers a second dump. -/
theorem StartDump_empty_url_counterexample :
    (∃ entry ∈ Example.pending_stream.dumps,
      entry.2.info_file_url = Example.other_info.info_file_url) ∧
    (Example.pending_stream.StartDump Example.env Example.other_info).map
        (fun outcome => (outcome.1.1, outcome.2.dumps.map Prod.fst))
      = some (true, ["dump", "other"]) := by
  refine ⟨⟨("dump", Example.dump), ?_, rfl⟩, ?_⟩
  · exact List.mem_cons_self _ _
  · have hempty : ("" : String).isEmpty = true := rfl
    have horder : ¬ (['o', 't', 'h', 'e', 'r'] : List Char) < ['d', 'u', 'm', 'p'] := by decide
    simp [StartDump, StartDump.duplicate, Example.pending_stream, Example.dump,
      Example.other_info, IsReadyToPlay, Example.stream, Dump.ofInfo, Dump.SetEnabled,
      OrdMap.emplace, hempty, horder]

/-- C15 (amended): if a registered dump has the id of the request, or has a
non-empty info-file URL equal to that of the request, `StartDump` returns
failure and leaves the stream as it was: nothing is written, and the registered
dumps and their enabled flags are unchanged. Hence, when every dump is
registered under its id, a `StartDump` that succeeds registers one dump with the
id of the request, and a second `StartDump` with the same request is refused
and changes nothing. -/
theorem StartDump_rejects_duplicates (env : Env) (s : LLHlsStream) (info : DumpInfo) :
    ((∃ entry ∈ s.dumps, RefusesDump entry.2 info) →
      ∃ message, s.StartDump env info = some ((false, message), s)) ∧
    (DumpsUnderTheirIds s → ∀ (message : String) (first : LLHlsStream),
      s.StartDump env info = some ((true, message), first) →
        (∀ entry ∈ s.dumps, entry.2.id ≠ info.id) ∧
        (∃ registered : Dump,
          registered.id = info.id ∧ first.dumps = s.dumps.emplace info.id registered) ∧
        ∃ refusal, first.StartDump env info = some ((false, refusal), first)) := by
  have hrefuse : ∀ (t : LLHlsStream), (∃ entry ∈ t.dumps, RefusesDump entry.2 info) →
      ∃ message, t.StartDump env info = some ((false, message), t) := by
    intro t hduplicate
    cases hfound : StartDump.duplicate info t.dumps with
    | none =>
      obtain ⟨entry, hmem, hrefuses⟩ := hduplicate
      exact absurd hrefuses ((StartDump.duplicate_spec info t.dumps).mp hfound entry hmem)
    | some message =>
      refine ⟨message, ?_⟩
      unfold StartDump
      rw [hfound]
  refine ⟨hrefuse s, ?_⟩
  intro hids message first hreturn
  have hnone : ∀ entry ∈ s.dumps, entry.2.id ≠ info.id := by
    intro entry hmem hid
    obtain ⟨refusal, hrefused⟩ := hrefuse s ⟨entry, hmem, Or.inl hid⟩
    rw [hrefused, Option.some.injEq] at hreturn
    exact Bool.noConfusion (congrArg (fun r => r.1.1) hreturn)
  obtain ⟨registered, hid, hdumps⟩ := StartDump_registers env s first info message hreturn
  refine ⟨hnone, ⟨registered, hid, hdumps⟩, hrefuse first ?_⟩
  obtain ⟨entry, hmem, hkey, hsource⟩ := OrdMap.emplace_mem s.dumps info.id registered
  refine ⟨entry, ?_, Or.inl ?_⟩
  · rw [hdumps]
    exact hmem
  · rcases hsource with hold | hnew
    · rw [← hids entry hold]
      exact hkey
    · rw [hnew]
      exact hid

/-- C15, an instance: `Example.pending_stream` has a dump registered with the
id of the request `Example.same_id_info`, and the request is refused. -/
theorem StartDump_rejects_duplicates_witness :
    (∃ entry ∈ Example.pending_stream.dumps, RefusesDump entry.2 Example.same_id_info) ∧
    ∃ message,
      Example.pending_stream.StartDump Example.env Example.same_id_info
        = some ((false, message), Example.pending_stream) :=
  have hduplicate : ∃ entry ∈ Example.pending_stream.dumps,
      RefusesDump entry.2 Example.same_id_info :=
    ⟨("dump", Example.dump), List.mem_cons_self _ _, Or.inl rfl⟩
  ⟨hduplicate,
    (StartDump_rejects_duplicates Example.env Example.pending_stream Example.same_id_info).1
      hduplicate⟩

end LLHlsStream

/-! ## Dumps: retention of old segment info -/

namespace LLHlsStream

theorem RetainsOldSegmentInfo_released (chunklist : LLHlsChunklist) :
    RetainsOldSegmentInfo (chunklist.SaveOldSegmentInfo false) = false := by
  simp [RetainsOldSegmentInfo, LLHlsChunklist.SaveOldSegmentInfo, LLHlsChunklist.call,
    List.foldl_append]

/-- `StopToSaveOldSegmentsInfo` keeps the dumps, and releases the retention of
every chunklist when no registered dump is enabled. -/
theorem StopToSaveOldSegmentsInfo_releases (s : LLHlsStream) :
    s.StopToSaveOldSegmentsInfo.dumps = s.dumps ∧
    ((∀ entry ∈ s.dumps, entry.2.enabled = false) →
      ∀ entry ∈ s.StopToSaveOldSegmentsInfo.chunklist_map,
        RetainsOldSegmentInfo entry.2 = false) := by
  unfold StopToSaveOldSegmentsInfo
  by_cases hall : s.dumps.all (fun entry => decide (entry.2.enabled = false)) = true
  · dsimp only
    rw [if_pos hall]
    refine ⟨rfl, ?_⟩
    intro _ entry hmem
    obtain ⟨source, _, hsource⟩ := List.mem_map.mp hmem
    rw [← hsource]
    exact RetainsOldSegmentInfo_released source.2
  · dsimp only
    rw [if_neg hall]
    refine ⟨rfl, ?_⟩
    intro hdisabled
    refine absurd (List.all_eq_true.mpr ?_) hall
    intro entry hmem
    exact decide_eq_true (hdisabled entry hmem)

/-- A `StopDump` that succeeds ends with `StopToSaveOldSegmentsInfo`. -/
theorem StopDump_releases (s : LLHlsStream) (dump_info : DumpInfo)
    (hresult : (s.StopDump dump_info).1.1 = true) :
    ∃ s1 : LLHlsStream, (s.StopDump dump_info).2 = s1.StopToSaveOldSegmentsInfo := by
  unfold StopDump at hresult ⊢
  by_cases hid : dump_info.id.isEmpty = false
  · rw [if_pos hid] at hresult ⊢
    cases hfind : s.dumps.find dump_info.id with
    | none =>
      rw [hfind] at hresult
      exact Bool.noConfusion hresult
    | some dump_item => exact ⟨_, rfl⟩
  · rw [if_neg hid]
    exact ⟨_, rfl⟩

theorem StartDump.storages_message (env : Env) (min_segment_number : Int)
    (storages : OrdMap Int FMP4Storage) :
    ∀ (dump_info : Dump) (s : LLHlsStream) (outcome : Option String × Dump × LLHlsStream),
      StartDump.storages env min_segment_number storages dump_info s = some outcome →
      outcome.1 = none ∨ outcome.1 = some "Could not dump init segment" ∨
        outcome.1 = some "Could not dump segment" := by
  induction storages with
  | nil =>
    intro dump_info s outcome hreturn
    simp only [StartDump.storages, Option.some.injEq] at hreturn
    subst hreturn
    exact Or.inl rfl
  | cons entry rest ih =>
    intro dump_info s outcome hreturn
    obtain ⟨track_id, storage⟩ := entry
    unfold StartDump.storages at hreturn
    cases hinit : s.DumpInitSegment env dump_info track_id with
    | none =>
      rw [hinit] at hreturn
      exact absurd hreturn (fun h => Option.noConfusion h)
    | some init_outcome =>
      obtain ⟨init_result, dump_info1⟩ := init_outcome
      rw [hinit] at hreturn
      cases init_result with
      | false =>
        dsimp only at hreturn
        rw [Option.some.injEq] at hreturn
        subst hreturn
        exact Or.inr (Or.inl rfl)
      | true =>
        dsimp only at hreturn
        cases hsegment : s.DumpSegment env dump_info1 track_id min_segment_number with
        | none =>
          rw [hsegment] at hreturn
          exact absurd hreturn (fun h => Option.noConfusion h)
        | some segment_outcome =>
          obtain ⟨segment_result, dump_info2, s1⟩ := segment_outcome
          rw [hsegment] at hreturn
          cases segment_result with
          | false =>
            dsimp only at hreturn
            rw [Option.some.injEq] at hreturn
            subst hreturn
            exact Or.inr (Or.inr rfl)
          | true =>
            dsimp only at hreturn
            exact ih dump_info2 s1 outcome hreturn

/-- The exit "Could not dump master playlist" of `StartDump` ends with
`StopToSaveOldSegmentsInfo`. -/
theorem StartDump_master_playlist_failure (env : Env) (s after : LLHlsStream) (info : DumpInfo)
    (hreturn : s.StartDump env info
      = some ((false, "Could not dump master playlist"), after)) :
    ∃ s2 : LLHlsStream, after = s2.StopToSaveOldSegmentsInfo := by
  unfold StartDump at hreturn
  cases hduplicate : StartDump.duplicate info s.dumps with
  | some refusal =>
    have hmessage : refusal = "Duplicate ID" ∨ refusal = "Duplicate info file" := by
      clear hreturn
      generalize s.dumps = dumps at hduplicate
      induction dumps with
      | nil => exact absurd hduplicate (fun h => Option.noConfusion h)
      | cons entry rest ih =>
        obtain ⟨key, dump⟩ := entry
        unfold StartDump.duplicate at hduplicate
        split at hduplicate
        · exact Or.inl (Option.some.inj hduplicate).symm
        · split at hduplicate
          · exact Or.inr (Option.some.inj hduplicate).symm
          · exact ih hduplicate
    rw [hduplicate] at hreturn
    dsimp only at hreturn
    rw [Option.some.injEq] at hreturn
    have htext : refusal = "Could not dump master playlist" :=
      congrArg (fun r => r.1.2) hreturn
    rcases hmessage with h | h
    · rw [h] at htext
      exact absurd htext (by decide)
    · rw [h] at htext
      exact absurd htext (by decide)
  | none =>
    rw [hduplicate] at hreturn
    dsimp only at hreturn
    by_cases hready : s.IsReadyToPlay = false
    · rw [if_pos hready, Option.some.injEq] at hreturn
      exact Bool.noConfusion (congrArg (fun r => r.1.1) hreturn)
    · rw [if_neg hready] at hreturn
      cases hstorages : StartDump.storages env s.GetMinimumLastSegmentNumber s.storage_map
          ((Dump.ofInfo info).SetEnabled true) s with
      | none =>
        rw [hstorages] at hreturn
        exact absurd hreturn (fun h => Option.noConfusion h)
      | some outcome =>
        obtain ⟨refusal, dump_info1, s1⟩ := outcome
        have hmessage := StartDump.storages_message env _ _ _ _ _ hstorages
        dsimp only at hmessage
        rw [hstorages] at hreturn
        cases refusal with
        | some text =>
          dsimp only at hreturn
          rw [Option.some.injEq] at hreturn
          have htext : text = "Could not dump master playlist" :=
            congrArg (fun r => r.1.2) hreturn
          rcases hmessage with h | h | h
          · exact Option.noConfusion h
          · rw [Option.some.inj h] at htext
            exact absurd htext (by decide)
          · rw [Option.some.inj h] at htext
            exact absurd htext (by decide)
        | none =>
          dsimp only at hreturn
          cases hmaster : s1.DumpMasterPlaylist env dump_info1 with
          | none =>
            rw [hmaster] at hreturn
            exact absurd hreturn (fun h => Option.noConfusion h)
          | some master_outcome =>
            obtain ⟨result, dump_info2, s2⟩ := master_outcome
            rw [hmaster] at hreturn
            cases result with
            | false =>
              dsimp only at hreturn
              rw [Option.some.injEq] at hreturn
              exact ⟨s2, (congrArg Prod.snd hreturn).symm⟩
            | true =>
              dsimp only at hreturn
              rw [Option.some.injEq] at hreturn
              exact Bool.noConfusion (congrArg (fun r => r.1.1) hreturn)

/-- C17: `StopDump`, by id or of all, and the master-playlist failure of
`StartDump` release the retention: when they end with no enabled dump, no
chunklist retains old segment info. The other failure exits do not. `StartDump`
on `Example.two_track_stream` (no dump, no retention) with a disk that takes
three files writes the init segment, the segment and the chunklist of track 0,
fails on the init segment of track 1 and returns failure: no dump is
registered and the chunklist of track 0 retains old segment info. On
`Example.dumping_stream` (one enabled dump, no retention)
`DumpSegmentOfAllItems` for segment 2 succeeds and for segment 3 fails on the
chunklist write: the dump, the last enabled one, is disabled and the chunklist
of track 0 still retains old segment info. -/
theorem retention_after_dump_operations :
    (∀ (s : LLHlsStream) (dump_info : DumpInfo),
      (∀ entry ∈ (s.StopDump dump_info).2.dumps, entry.2.enabled = false) →
      (s.StopDump dump_info).1.1 = true →
      ∀ entry ∈ (s.StopDump dump_info).2.chunklist_map,
        RetainsOldSegmentInfo entry.2 = false) ∧
    (∀ (env : Env) (s after : LLHlsStream) (info : DumpInfo),
      s.StartDump env info = some ((false, "Could not dump master playlist"), after) →
      (∀ entry ∈ after.dumps, entry.2.enabled = false) →
      ∀ entry ∈ after.chunklist_map, RetainsOldSegmentInfo entry.2 = false) ∧
    RetentionView Example.two_track_stream = ([], [(0, false), (1, false)]) ∧
    (Example.two_track_stream.StartDump Example.env Example.small_disk_info).map
        (fun outcome => (outcome.1, RetentionView outcome.2))
      = some ((false, "Could not dump init segment"), [], [(0, true), (1, false)]) ∧
    RetentionView Example.dumping_stream = ([("small", true)], [(0, false)]) ∧
    ((Example.dumping_stream.DumpSegmentOfAllItems Example.env 0 2).map RetentionView
      = some ([("small", true)], [(0, true)])) ∧
    (((Example.dumping_stream.DumpSegmentOfAllItems Example.env 0 2).bind
        (fun s => s.DumpSegmentOfAllItems Example.env 0 3)).map RetentionView
      = some ([("small", false)], [(0, true)])) := by
  refine ⟨?_, ?_, rfl, ?_, rfl, ?_, ?_⟩
  · intro s dump_info hdisabled hresult entry hmem
    obtain ⟨s1, hs1⟩ := StopDump_releases s dump_info hresult
    rw [hs1] at hdisabled hmem
    rw [(StopToSaveOldSegmentsInfo_releases s1).1] at hdisabled
    exact (StopToSaveOldSegmentsInfo_releases s1).2 hdisabled entry hmem
  · intro env s after info hreturn hdisabled entry hmem
    obtain ⟨s2, hs2⟩ := StartDump_master_playlist_failure env s after info hreturn
    rw [hs2] at hdisabled hmem
    rw [(StopToSaveOldSegmentsInfo_releases s2).1] at hdisabled
    exact (StopToSaveOldSegmentsInfo_releases s2).2 hdisabled entry hmem
  · rfl
  · rfl
  · rfl

end LLHlsStream

/-! ## Dumps: the first segment number -/

namespace LLHlsStream

theorem DumpData_effect {item after : Dump} {file_name : String} {data : Data}
    {result : Bool} (hdumped : DumpData item file_name data = (result, after)) :
    after.enabled = item.enabled ∧
    after.first_segment_number = item.first_segment_number ∧
    item.written.length ≤ after.written.length ∧
    (result = true → after.written = item.written ++ [(file_name, data)]) := by
  unfold DumpData Dump.DumpData at hdumped
  split at hdumped
  · have hresult := congrArg Prod.fst hdumped
    have hafter := congrArg Prod.snd hdumped
    dsimp only at hresult hafter
    subst hafter
    refine ⟨rfl, rfl, ?_, fun _ => rfl⟩
    simp
  · have hresult := congrArg Prod.fst hdumped
    have hafter := congrArg Prod.snd hdumped
    dsimp only at hresult hafter
    subst hafter
    refine ⟨rfl, rfl, Nat.le_refl _, ?_⟩
    intro htrue
    rw [← hresult] at htrue
    exact Bool.noConfusion htrue

/-- One `DumpSegment` call, as the dump sees it. A disabled dump is refused
and left as it was. An enabled dump stays enabled; the segment number of the
call is recorded for the track when none was recorded, before anything is
looked up or written, and a recorded number is kept; files are only added; and
a call that returns true has added files. -/
theorem DumpSegment_call (env : Env) (s : LLHlsStream) (item : Dump) (track_id : Int)
    (segment_number : Int) (outcome : Bool × Dump × LLHlsStream)
    (hreturn : s.DumpSegment env item track_id segment_number = some outcome) :
    (item.enabled = false → outcome.1 = false ∧ outcome.2.1 = item) ∧
    (item.enabled = true →
      outcome.2.1.enabled = true ∧
      outcome.2.1.first_segment_number
        = (if item.HasExtraData track_id = false then
            item.first_segment_number.assign track_id segment_number
          else item.first_segment_number) ∧
      item.written.length ≤ outcome.2.1.written.length ∧
      (outcome.1 = true → item.written.length < outcome.2.1.written.length)) := by
  have hextra : ∀ item1 : Dump,
      item1 = (if item.HasExtraData track_id = false then
          item.SetExtraData track_id segment_number else item) →
      item1.enabled = item.enabled ∧
      item1.first_segment_number
        = (if item.HasExtraData track_id = false then
            item.first_segment_number.assign track_id segment_number
          else item.first_segment_number) ∧
      item1.written = item.written := by
    intro item1 hitem1
    by_cases hhas : item.HasExtraData track_id = false
    · rw [if_pos hhas] at hitem1 ⊢
      rw [hitem1]
      exact ⟨rfl, rfl, rfl⟩
    · rw [if_neg hhas] at hitem1 ⊢
      rw [hitem1]
      exact ⟨rfl, rfl, rfl⟩
  obtain ⟨henabled1, hfirst1, hwritten1⟩ := hextra _ rfl
  unfold DumpSegment at hreturn
  split at hreturn
  · rename_i hdisabled
    rw [Option.some.injEq] at hreturn
    subst hreturn
    refine ⟨fun _ => ⟨rfl, rfl⟩, ?_⟩
    intro henabled
    rw [hdisabled] at henabled
    exact Bool.noConfusion henabled
  · rename_i hnot
    refine ⟨fun hdisabled => absurd hdisabled hnot, ?_⟩
    intro henabled
    dsimp only at hreturn
    split at hreturn
    · exact absurd hreturn (fun h => Option.noConfusion h)
    · split at hreturn
      · rw [Option.some.injEq] at hreturn
        subst hreturn
        exact ⟨henabled1.trans henabled, hfirst1, Nat.le_of_eq (congrArg List.length hwritten1.symm),
          fun h => Bool.noConfusion h⟩
      · split at hreturn
        · rw [Option.some.injEq] at hreturn
          subst hreturn
          exact ⟨henabled1.trans henabled, hfirst1, Nat.le_of_eq (congrArg List.length hwritten1.symm),
            fun h => Bool.noConfusion h⟩
        · split at hreturn
          · split at hreturn
            · rename_i item2 hdumped
              obtain ⟨he2, hf2, hw2, _⟩ := DumpData_effect hdumped
              rw [Option.some.injEq] at hreturn
              subst hreturn
              refine ⟨he2.trans (henabled1.trans henabled), hf2.trans hfirst1, ?_,
                fun h => Bool.noConfusion h⟩
              rw [← hwritten1]
              exact hw2
            · rename_i item2 hdumped
              obtain ⟨he2, hf2, hw2, hgrow2⟩ := DumpData_effect hdumped
              have hlt : item.written.length < item2.written.length := by
                rw [hgrow2 rfl, hwritten1]
                simp
              split at hreturn
              · rename_i item3 hdumped2
                obtain ⟨he3, hf3, hw3, _⟩ := DumpData_effect hdumped2
                rw [Option.some.injEq] at hreturn
                subst hreturn
                exact ⟨he3.trans (he2.trans (henabled1.trans henabled)),
                  hf3.trans (hf2.trans hfirst1), Nat.le_of_lt (Nat.lt_of_lt_of_le hlt hw3),
                  fun h => Bool.noConfusion h⟩
              · rename_i item3 hdumped2
                obtain ⟨he3, hf3, hw3, _⟩ := DumpData_effect hdumped2
                rw [Option.some.injEq] at hreturn
                subst hreturn
                exact ⟨he3.trans (he2.trans (henabled1.trans henabled)),
                  hf3.trans (hf2.trans hfirst1), Nat.le_of_lt (Nat.lt_of_lt_of_le hlt hw3),
                  fun _ => Nat.lt_of_lt_of_le hlt hw3⟩
          · exact absurd hreturn (fun h => Option.noConfusion h)

/-- A disabled dump receives nothing from later calls. -/
theorem DumpSegment.calls_disabled (env : Env) (track_id : Int)
    (calls : List (LLHlsStream × Int)) :
    ∀ (item final : Dump), item.enabled = false →
      DumpSegment.calls env track_id calls item = some final →
      final.first_segment_number = item.first_segment_number ∧
      final.written = item.written ∧
      DumpSegment.written_numbers env track_id calls item = [] := by
  induction calls with
  | nil =>
    intro item final _ hreturn
    simp only [DumpSegment.calls, Option.some.injEq] at hreturn
    subst hreturn
    exact ⟨rfl, rfl, rfl⟩
  | cons call rest ih =>
    intro item final hdisabled hreturn
    obtain ⟨s, segment_number⟩ := call
    unfold DumpSegment.calls at hreturn
    unfold DumpSegment.written_numbers
    cases hcall : s.DumpSegment env item track_id segment_number with
    | none =>
      rw [hcall] at hreturn
      exact absurd hreturn (fun h => Option.noConfusion h)
    | some outcome =>
      obtain ⟨result, item1, s1⟩ := outcome
      obtain ⟨hresult, hitem1⟩ := (DumpSegment_call env s item track_id segment_number _ hcall).1
        hdisabled
      dsimp only at hresult hitem1
      subst hresult
      subst hitem1
      rw [hcall] at hreturn
      dsimp only at hreturn ⊢
      obtain ⟨hfirst, hwritten, hnumbers⟩ := ih (item1.SetEnabled false) final rfl hreturn
      refine ⟨hfirst, hwritten, ?_⟩
      rw [if_neg (Nat.lt_irrefl _), if_neg (fun h => Bool.noConfusion h)]
      exact hnumbers

/-- A first segment number that is recorded for the track is kept by every
later call. -/
theorem DumpSegment.calls_keep_first (env : Env) (track_id : Int)
    (calls : List (LLHlsStream × Int)) :
    ∀ (item final : Dump) (recorded : Int),
      item.GetFirstSegmentNumber track_id = some recorded →
      DumpSegment.calls env track_id calls item = some final →
      final.GetFirstSegmentNumber track_id = some recorded := by
  induction calls with
  | nil =>
    intro item final recorded hrecorded hreturn
    simp only [DumpSegment.calls, Option.some.injEq] at hreturn
    subst hreturn
    exact hrecorded
  | cons call rest ih =>
    intro item final recorded hrecorded hreturn
    obtain ⟨s, segment_number⟩ := call
    unfold DumpSegment.calls at hreturn
    cases hcall : s.DumpSegment env item track_id segment_number with
    | none =>
      rw [hcall] at hreturn
      exact absurd hreturn (fun h => Option.noConfusion h)
    | some outcome =>
      obtain ⟨result, item1, s1⟩ := outcome
      have hkept : item1.GetFirstSegmentNumber track_id = some recorded := by
        have hspec := DumpSegment_call env s item track_id segment_number _ hcall
        cases henabled : item.enabled with
        | false =>
          obtain ⟨_, hitem1⟩ := hspec.1 henabled
          dsimp only at hitem1
          rw [hitem1]
          exact hrecorded
        | true =>
          obtain ⟨_, hfirst, _, _⟩ := hspec.2 henabled
          dsimp only at hfirst
          have hhas : ¬ item.HasExtraData track_id = false := by
            unfold Dump.HasExtraData
            unfold Dump.GetFirstSegmentNumber at hrecorded
            rw [hrecorded]
            exact fun h => Bool.noConfusion h
          rw [if_neg hhas] at hfirst
          unfold Dump.GetFirstSegmentNumber at hrecorded ⊢
          rw [hfirst]
          exact hrecorded
      rw [hcall] at hreturn
      cases result with
      | true => exact ih item1 final recorded hkept hreturn
      | false => exact ih (item1.SetEnabled false) final recorded hkept hreturn

/-- Only segment numbers of the calls are counted as written. -/
theorem DumpSegment.written_numbers_of_calls (env : Env) (track_id : Int)
    (calls : List (LLHlsStream × Int)) :
    ∀ (item : Dump), ∀ number ∈ DumpSegment.written_numbers env track_id calls item,
      ∃ call ∈ calls, call.2 = number := by
  induction calls with
  | nil =>
    intro item number hmem
    simp [DumpSegment.written_numbers] at hmem
  | cons call rest ih =>
    intro item number hmem
    obtain ⟨s, segment_number⟩ := call
    unfold DumpSegment.written_numbers at hmem
    cases hcall : s.DumpSegment env item track_id segment_number with
    | none =>
      rw [hcall] at hmem
      simp at hmem
    | some outcome =>
      obtain ⟨result, item1, s1⟩ := outcome
      rw [hcall] at hmem
      dsimp only at hmem
      split at hmem
      · rcases List.mem_cons.mp hmem with hhead | htail
        · exact ⟨(s, segment_number), List.mem_cons_self _ _, hhead.symm⟩
        · obtain ⟨call, hcallmem, hnumber⟩ := ih _ number htail
          exact ⟨call, List.mem_cons_of_mem _ hcallmem, hnumber⟩
      · obtain ⟨call, hcallmem, hnumber⟩ := ih _ number hmem
        exact ⟨call, List.mem_cons_of_mem _ hcallmem, hnumber⟩

/-- The calls return when at every call the track has a storage and is a track
of the stream. -/
theorem DumpSegment.calls_total (env : Env) (track_id : Int)
    (calls : List (LLHlsStream × Int)) :
    ∀ (item : Dump),
      (∀ call ∈ calls, (∃ storage, call.1.GetStorage track_id = some storage) ∧
        ∃ track, call.1.GetTrack track_id = some track) →
      ∃ final, DumpSegment.calls env track_id calls item = some final := by
  induction calls with
  | nil =>
    intro item _
    exact ⟨item, rfl⟩
  | cons call rest ih =>
    intro item hcalls
    obtain ⟨s, segment_number⟩ := call
    obtain ⟨hstorage, htrack⟩ := hcalls (s, segment_number) (List.mem_cons_self _ _)
    obtain ⟨outcome, hcall⟩ :=
      DumpSegment_total env s item track_id segment_number hstorage htrack
    obtain ⟨result, item1, s1⟩ := outcome
    have hrest := fun (next : Dump) =>
      ih next (fun call hmem => hcalls call (List.mem_cons_of_mem _ hmem))
    unfold DumpSegment.calls
    rw [hcall]
    cases result with
    | true => exact hrest item1
    | false => exact hrest (item1.SetEnabled false)

/-- C19, the claim as written fails. On `Example.full_disk_stream`
`DumpSegmentOfAllItems` for segment 2 of track 0 disables the dump, whose every
write fails: segment 2 is recorded as the first segment number of track 0, and
no byte was written. And two bare `DumpSegment` calls on `Example.dump`, for
segment 1, which the storage does not hold, and then for segment 2: the second
call writes segment 2 and its chunklist, the only files written, and the first
segment number of track 0 is 1. -/
theorem first_segment_number_counterexample :
    (Example.full_disk_stream.DumpSegmentOfAllItems Example.env 0 2).map
        (fun after => after.dumps.map
          (fun entry => (entry.2.enabled, entry.2.GetFirstSegmentNumber 0, entry.2.written)))
      = some [(false, some 2, [])] ∧
    ((Example.stream.DumpSegment Example.env Example.dump 0 1).bind
        (fun first => first.2.2.DumpSegment Example.env first.2.1 0 2)).map
        (fun second =>
          (second.1, second.2.1.GetFirstSegmentNumber 0, second.2.1.written.map Prod.fst))
      = some (true, some 1, ["seg_0_2_video_key_llhls.m4s", "chunklist_0_video_key_llhls.m3u8"]) :=
  ⟨rfl, rfl⟩

/-- C19 (amended): take a dump that is enabled and has no first segment number
for the track, and any sequence of `DumpSegment` calls for that track with
non-decreasing segment numbers in which the dump is disabled after a call that
returns false, as the callers do. The calls return when at every call the
track has a storage and is a track of the stream. Afterwards the first segment
number of the track is the segment number of the first call, whether or not
that call wrote anything; every segment number written is at least that number,
and when anything was written that number was written, so it is the smallest
segment number written. A first segment number that is recorded never changes
in later calls. -/
theorem first_segment_number_of_calls (env : Env) (track_id : Int) (s : LLHlsStream)
    (segment_number : Int) (rest : List (LLHlsStream × Int)) (item : Dump)
    (henabled : item.enabled = true) (hfresh : item.HasExtraData track_id = false)
    (hordered : List.Pairwise (fun a b => a ≤ b) (segment_number :: rest.map Prod.snd)) :
    ((∀ call ∈ (s, segment_number) :: rest,
        (∃ storage, call.1.GetStorage track_id = some storage) ∧
          ∃ track, call.1.GetTrack track_id = some track) →
      ∃ final, DumpSegment.calls env track_id ((s, segment_number) :: rest) item = some final) ∧
    (∀ final, DumpSegment.calls env track_id ((s, segment_number) :: rest) item = some final →
      final.GetFirstSegmentNumber track_id = some segment_number ∧
      (∀ number ∈ DumpSegment.written_numbers env track_id ((s, segment_number) :: rest) item,
        segment_number ≤ number) ∧
      (DumpSegment.written_numbers env track_id ((s, segment_number) :: rest) item ≠ [] →
        segment_number
          ∈ DumpSegment.written_numbers env track_id ((s, segment_number) :: rest) item)) ∧
    (∀ (calls : List (LLHlsStream × Int)) (before after : Dump) (recorded : Int),
      before.GetFirstSegmentNumber track_id = some recorded →
      DumpSegment.calls env track_id calls before = some after →
      after.GetFirstSegmentNumber track_id = some recorded) := by
  refine ⟨DumpSegment.calls_total env track_id _ item, ?_,
    fun calls before after recorded => DumpSegment.calls_keep_first env track_id calls
      before after recorded⟩
  intro final hreturn
  have hlater : ∀ call ∈ rest, segment_number ≤ call.2 := by
    intro call hmem
    exact (List.pairwise_cons.mp hordered).1 call.2 (List.mem_map_of_mem Prod.snd hmem)
  unfold DumpSegment.calls at hreturn
  unfold DumpSegment.written_numbers
  cases hcall : s.DumpSegment env item track_id segment_number with
  | none =>
    rw [hcall] at hreturn
    exact absurd hreturn (fun h => Option.noConfusion h)
  | some outcome =>
    obtain ⟨result, item1, s1⟩ := outcome
    obtain ⟨_, hfirst, _, hgrown⟩ :=
      (DumpSegment_call env s item track_id segment_number _ hcall).2 henabled
    dsimp only at hfirst hgrown
    rw [if_pos hfresh] at hfirst
    have hrecorded : item1.GetFirstSegmentNumber track_id = some segment_number := by
      unfold Dump.GetFirstSegmentNumber
      rw [hfirst]
      exact OrdMap.find_assign_self _ _ _
    rw [hcall] at hreturn
    dsimp only
    cases result with
    | true =>
      dsimp only at hreturn
      refine ⟨DumpSegment.calls_keep_first env track_id rest item1 final _ hrecorded hreturn,
        ?_, ?_⟩
      · rw [if_pos (hgrown rfl)]
        intro number hmem
        rcases List.mem_cons.mp hmem with hhead | htail
        · rw [hhead]
        · obtain ⟨call, hcallmem, hnumber⟩ :=
            DumpSegment.written_numbers_of_calls env track_id rest _ number htail
          rw [← hnumber]
          exact hlater call hcallmem
      · intro _
        rw [if_pos (hgrown rfl)]
        exact List.mem_cons_self _ _
    | false =>
      dsimp only at hreturn
      obtain ⟨_, _, hnone⟩ :=
        DumpSegment.calls_disabled env track_id rest (item1.SetEnabled false) final rfl hreturn
      refine ⟨DumpSegment.calls_keep_first env track_id rest (item1.SetEnabled false) final _
        hrecorded hreturn, ?_, ?_⟩
      · rw [if_neg (fun h => Bool.noConfusion h), hnone]
        intro number hmem
        split at hmem
        · rw [List.mem_singleton.mp hmem]
        · simp at hmem
      · rw [if_neg (fun h => Bool.noConfusion h), hnone]
        intro hsome
        split
        · exact List.mem_cons_self _ _
        · rename_i hsame
          rw [if_neg hsame] at hsome
          exact absurd rfl hsome

/-- C19, an instance: `Example.dump` receives the segments 2 and 3 of track 0
of `Example.dumping_stream`; its first segment number of track 0 is 2. -/
theorem first_segment_number_of_calls_witness :
    Example.dump.enabled = true ∧ Example.dump.HasExtraData 0 = false ∧
    List.Pairwise (fun a b => a ≤ b)
      ((2 : Int) :: [(Example.dumping_stream, (3 : Int))].map Prod.snd) ∧
    ∀ final,
      DumpSegment.calls Example.env 0
          [(Example.dumping_stream, 2), (Example.dumping_stream, 3)] Example.dump = some final →
        final.GetFirstSegmentNumber 0 = some 2 :=
  ⟨rfl, rfl, by decide, fun final hreturn =>
    ((first_segment_number_of_calls Example.env 0 Example.dumping_stream 2
        [(Example.dumping_stream, 3)] Example.dump rfl rfl (by decide)).2.1 final hreturn).1⟩

end LLHlsStream

/-! ## `Start` -/

namespace LLHlsStream

theorem StoragesAndPackagersOnly.refl_packagers (s : LLHlsStream) :
    StoragesAndPackagersOnly s s :=
  ⟨s.storage_map, s.packager_map, rfl⟩

theorem StoragesAndPackagersOnly.trans_packagers {a b c : LLHlsStream}
    (hab : StoragesAndPackagersOnly a b) (hbc : StoragesAndPackagersOnly b c) :
    StoragesAndPackagersOnly a c := by
  obtain ⟨storages1, packagers1, rfl⟩ := hab
  obtain ⟨storages2, packagers2, rfl⟩ := hbc
  exact ⟨storages2, packagers2, rfl⟩

theorem FirstSupportedTrack_cons (track : MediaTrack) (rest : List MediaTrack)
    (media_type : MediaType) :
    FirstSupportedTrack (track :: rest) media_type
      = if SupportedCodec track ∧ track.media_type = media_type then some track
        else FirstSupportedTrack rest media_type := by
  unfold FirstSupportedTrack
  rw [List.find?_cons]
  by_cases h : SupportedCodec track ∧ track.media_type = media_type
  · rw [if_pos h, decide_eq_true h]
  · rw [if_neg h, decide_eq_false h]

/-- The loop of `Start` over the tracks: it leaves `Start` exactly when the
initialization segment of a track with a supported codec cannot be created;
otherwise it selects the first supported video track and the first supported
audio track. It writes storages and packagers only. -/
theorem Start.tracks_spec (env : Env) (data_track : Option MediaTrack)
    (tracks : List MediaTrack) :
    ∀ (first_video_track first_audio_track : Option MediaTrack) (s : LLHlsStream),
      ∃ after, StoragesAndPackagersOnly s after ∧
        ((AllPackaged env data_track tracks ∧
            Start.tracks env data_track (tracks.map (fun track => (track.id, track)))
                first_video_track first_audio_track s
              = (some
                  (SelectedOr first_video_track (FirstSupportedTrack tracks MediaType.Video),
                    SelectedOr first_audio_track (FirstSupportedTrack tracks MediaType.Audio)),
                  after)) ∨
          (¬ AllPackaged env data_track tracks ∧
            Start.tracks env data_track (tracks.map (fun track => (track.id, track)))
                first_video_track first_audio_track s
              = (none, after))) := by
  induction tracks with
  | nil =>
    intro first_video_track first_audio_track s
    refine ⟨s, StoragesAndPackagersOnly.refl_packagers s, Or.inl ⟨?_, ?_⟩⟩
    · intro track hmem
      exact absurd hmem (List.not_mem_nil _)
    · cases first_video_track <;> cases first_audio_track <;> rfl
  | cons track rest ih =>
    intro first_video_track first_audio_track s
    rw [List.map_cons, Start.tracks]
    by_cases hsupported : track.codec_id = MediaCodecId.H264 ∨ track.codec_id = MediaCodecId.Aac
    · rw [if_pos hsupported]
      cases hcreate : env.CreateInitializationSegment track data_track with
      | false =>
        refine ⟨s, StoragesAndPackagersOnly.refl_packagers s, Or.inr ⟨?_, ?_⟩⟩
        · intro hall
          have h := hall track (List.mem_cons_self _ _) hsupported
          rw [hcreate] at h
          exact Bool.noConfusion h
        · simp only [AddPackager, hcreate, if_true]
      | true =>
        have hadd : s.AddPackager env track data_track
            = (true,
                { s with
                  storage_map :=
                    s.storage_map.emplace track.id
                      (env.NewStorage track s.max_segments s.segment_duration_ms),
                  packager_map :=
                    s.packager_map.emplace track.id { track_id := track.id, calls := [] } }) := by
          simp only [AddPackager, hcreate, Bool.true_eq_false, if_false]
        rw [hadd]
        dsimp only
        have hall : AllPackaged env data_track (track :: rest)
            ↔ AllPackaged env data_track rest := by
          constructor
          · intro h other hmem
            exact h other (List.mem_cons_of_mem _ hmem)
          · intro h other hmem hother
            rcases List.mem_cons.mp hmem with heq | hmem
            · rw [heq]
              exact hcreate
            · exact h other hmem hother
        have hstep : ∀ (video audio : Option MediaTrack),
            SelectedOr video (FirstSupportedTrack rest MediaType.Video)
              = SelectedOr first_video_track
                  (FirstSupportedTrack (track :: rest) MediaType.Video) →
            SelectedOr audio (FirstSupportedTrack rest MediaType.Audio)
              = SelectedOr first_audio_track
                  (FirstSupportedTrack (track :: rest) MediaType.Audio) →
            ∃ after, StoragesAndPackagersOnly s after ∧
              ((AllPackaged env data_track (track :: rest) ∧
                Start.tracks env data_track (rest.map (fun track => (track.id, track)))
                    video audio
                    { s with
                      storage_map :=
                        s.storage_map.emplace track.id
                          (env.NewStorage track s.max_segments s.segment_duration_ms),
                      packager_map :=
                        s.packager_map.emplace track.id
                          { track_id := track.id, calls := [] } }
                  = (some
                      (SelectedOr first_video_track
                          (FirstSupportedTrack (track :: rest) MediaType.Video),
                        SelectedOr first_audio_track
                          (FirstSupportedTrack (track :: rest) MediaType.Audio)),
                      after)) ∨
              (¬ AllPackaged env data_track (track :: rest) ∧
                Start.tracks env data_track (rest.map (fun track => (track.id, track)))
                    video audio
                    { s with
                      storage_map :=
                        s.storage_map.emplace track.id
                          (env.NewStorage track s.max_segments s.segment_duration_ms),
                      packager_map :=
                        s.packager_map.emplace track.id
                          { track_id := track.id, calls := [] } }
                  = (none, after))) := by
          intro video audio hvideo haudio
          obtain ⟨after, hframe, hloop⟩ := ih video audio
            { s with
              storage_map :=
                s.storage_map.emplace track.id
                  (env.NewStorage track s.max_segments s.segment_duration_ms),
              packager_map :=
                s.packager_map.emplace track.id { track_id := track.id, calls := [] } }
          refine ⟨after, StoragesAndPackagersOnly.trans_packagers ⟨_, _, rfl⟩ hframe, ?_⟩
          rw [hall, ← hvideo, ← haudio]
          exact hloop
        rw [FirstSupportedTrack_cons, FirstSupportedTrack_cons] at hstep
        rw [FirstSupportedTrack_cons, FirstSupportedTrack_cons]
        by_cases hvideo : first_video_track = none ∧ track.media_type = MediaType.Video
        · rw [if_pos hvideo]
          apply hstep
          · rw [if_pos ⟨hsupported, hvideo.2⟩, hvideo.1]
            rfl
          · have hnot : ¬ (SupportedCodec track ∧ track.media_type = MediaType.Audio) := by
              rw [hvideo.2]
              exact fun h => MediaType.noConfusion h.2
            rw [if_neg hnot]
        · rw [if_neg hvideo]
          by_cases haudio : first_audio_track = none ∧ track.media_type = MediaType.Audio
          · rw [if_pos haudio]
            apply hstep
            · have hnot : ¬ (SupportedCodec track ∧ track.media_type = MediaType.Video) := by
                rw [haudio.2]
                exact fun h => MediaType.noConfusion h.2
              rw [if_neg hnot]
            · rw [if_pos ⟨hsupported, haudio.2⟩, haudio.1]
              rfl
          · rw [if_neg haudio]
            apply hstep
            · by_cases htype : track.media_type = MediaType.Video
              · rw [if_pos ⟨hsupported, htype⟩]
                cases hfirst : first_video_track with
                | none => exact absurd ⟨hfirst, htype⟩ hvideo
                | some selected => rfl
              · rw [if_neg (fun h => htype h.2)]
            · by_cases htype : track.media_type = MediaType.Audio
              · rw [if_pos ⟨hsupported, htype⟩]
                cases hfirst : first_audio_track with
                | none => exact absurd ⟨hfirst, htype⟩ haudio
                | some selected => rfl
              · rw [if_neg (fun h => htype h.2)]
    · rw [if_neg hsupported]
      obtain ⟨after, hframe, hloop⟩ := ih first_video_track first_audio_track s
      refine ⟨after, hframe, ?_⟩
      have hall : AllPackaged env data_track (track :: rest)
          ↔ AllPackaged env data_track rest := by
        constructor
        · intro h other hmem
          exact h other (List.mem_cons_of_mem _ hmem)
        · intro h other hmem hother
          rcases List.mem_cons.mp hmem with heq | hmem
          · rw [heq] at hother
            exact absurd hother hsupported
          · exact h other hmem hother
      have hnot : ∀ media_type : MediaType,
          ¬ (SupportedCodec track ∧ track.media_type = media_type) :=
        fun _ h => hsupported h.1
      rw [hall, FirstSupportedTrack_cons, FirstSupportedTrack_cons, if_neg (hnot _),
        if_neg (hnot _)]
      exact hloop

theorem AddPackager_result (env : Env) (s : LLHlsStream) (media_track : MediaTrack)
    (data_track : Option MediaTrack) :
    (s.AddPackager env media_track data_track).1
      = env.CreateInitializationSegment media_track data_track := by
  unfold AddPackager
  cases env.CreateInitializationSegment media_track data_track <;> rfl

/-- The block that installs the default playlist always returns, and writes the
cache of master playlists only. -/
theorem Start.install_total (env : Env) (s : LLHlsStream)
    (first_video_track first_audio_track : Option MediaTrack) :
    ∃ cache, Start.install env s first_video_track first_audio_track
      = some { s with master_playlists := cache } := by
  unfold Start.install
  dsimp only
  cases s.GetPlaylist (env.SubstringToLastDot env.DEFAULT_PLAYLIST_NAME) with
  | some declared => exact ⟨s.master_playlists, rfl⟩
  | none =>
    obtain ⟨master_playlist, hcreate, _⟩ :=
      CreateMasterPlaylist_total env s (Start.playlist env first_video_track first_audio_track)
    dsimp only
    rw [hcreate]
    exact ⟨_, rfl⟩

theorem FirstSupportedTrack_none (tracks : List MediaTrack) :
    (FirstSupportedTrack tracks MediaType.Video = none ∧
      FirstSupportedTrack tracks MediaType.Audio = none)
    ↔ ¬ ∃ track ∈ tracks, SupportedCodec track ∧
        (track.media_type = MediaType.Video ∨ track.media_type = MediaType.Audio) := by
  unfold FirstSupportedTrack
  rw [List.find?_eq_none, List.find?_eq_none]
  constructor
  · rintro ⟨hvideo, haudio⟩ ⟨track, hmem, hsupported, htype⟩
    rcases htype with htype | htype
    · exact hvideo track hmem (decide_eq_true ⟨hsupported, htype⟩)
    · exact haudio track hmem (decide_eq_true ⟨hsupported, htype⟩)
  · intro hnone
    constructor
    · intro track hmem hfound
      have h := of_decide_eq_true hfound
      exact hnone ⟨track, hmem, h.1, Or.inl h.2⟩
    · intro track hmem hfound
      have h := of_decide_eq_true hfound
      exact hnone ⟨track, hmem, h.1, Or.inr h.2⟩

/-- The three ways through `Start` once the state is `CREATED` and the workers
are created. -/
theorem Start_spec (env : Env) (application : Application) (s : LLHlsStream)
    (hstate : s.GetState = State.CREATED)
    (hworker : env.CreateStreamWorker s.worker_count = true) :
    ∃ s2, StoragesAndPackagersOnly (Start.configure env application s) s2 ∧
      ((¬ AllPackaged env (s.GetFirstTrack MediaType.Data) s.tracks ∧
          s.Start env application = some (false, s2)) ∨
        (AllPackaged env (s.GetFirstTrack MediaType.Data) s.tracks ∧
          (FirstSupportedTrack s.tracks MediaType.Video = none ∧
            FirstSupportedTrack s.tracks MediaType.Audio = none) ∧
          s.Start env application = some (false, s2)) ∨
        (AllPackaged env (s.GetFirstTrack MediaType.Data) s.tracks ∧
          ¬ (FirstSupportedTrack s.tracks MediaType.Video = none ∧
            FirstSupportedTrack s.tracks MediaType.Audio = none) ∧
          s.Start env application
            = (Start.install env s2 (FirstSupportedTrack s.tracks MediaType.Video)
                (FirstSupportedTrack s.tracks MediaType.Audio)).map
                (Start.finish env application))) := by
  obtain ⟨s2, hframe, hloop⟩ :=
    Start.tracks_spec env (s.GetFirstTrack MediaType.Data) s.tracks none none
      (Start.configure env application s)
  have hworker' : ¬ env.CreateStreamWorker s.worker_count = false := by
    rw [hworker]
    exact fun h => Bool.noConfusion h
  have hcode : s.Start env application
      = match Start.tracks env (s.GetFirstTrack MediaType.Data)
            (s.tracks.map (fun track => (track.id, track))) none none
            (Start.configure env application s) with
        | (none, s2) => some (false, s2)
        | (some (first_video_track, first_audio_track), s2) =>
          if first_video_track = none ∧ first_audio_track = none then
            some (false, s2)
          else
            (Start.install env s2 first_video_track first_audio_track).map
              (Start.finish env application) := by
    unfold Start
    rw [if_neg (not_not.mpr hstate), if_neg hworker']
    rfl
  refine ⟨s2, hframe, ?_⟩
  rcases hloop with ⟨hall, hloop⟩ | ⟨hall, hloop⟩
  · rw [hloop] at hcode
    dsimp only [SelectedOr] at hcode
    by_cases hnone : FirstSupportedTrack s.tracks MediaType.Video = none ∧
        FirstSupportedTrack s.tracks MediaType.Audio = none
    · rw [if_pos hnone] at hcode
      exact Or.inr (Or.inl ⟨hall, hnone, hcode⟩)
    · rw [if_neg hnone] at hcode
      exact Or.inr (Or.inr ⟨hall, hnone, hcode⟩)
  · rw [hloop] at hcode
    exact Or.inl ⟨hall, hcode⟩

/-- C13, the claim as written fails. `Example.new_stream` has an H.264 video
track and an AAC audio track and is in state `CREATED`; worker creation and
`Stream::Start` succeed; `AddPackager` succeeds for the video track and fails
for the audio track. `Start` creates the packager of the video track and
returns false. -/
theorem Start_single_track_failure_counterexample :
    Example.new_stream.GetState = State.CREATED ∧
    Example.audio_fails_env.CreateStreamWorker Example.new_stream.worker_count = true ∧
    (Example.audio_fails_env.StreamStart State.CREATED).1 = true ∧
    Example.new_stream.tracks = [Example.video_track, Example.audio_track] ∧
    (Example.new_stream.AddPackager Example.audio_fails_env Example.video_track none).1 = true ∧
    (Example.new_stream.AddPackager Example.audio_fails_env Example.audio_track none).1 = false ∧
    (Example.new_stream.Start Example.audio_fails_env Example.application).map
        (fun outcome => (outcome.1, outcome.2.packager_map.map Prod.fst))
      = some (false, [0]) :=
  ⟨rfl, rfl, rfl, rfl, rfl, rfl, rfl⟩

/-- C13 (amended): called in state `CREATED`, with worker creation and
`Stream::Start` succeeding, `Start` returns, and it returns true exactly when
`AddPackager` succeeds for every H.264 or AAC track and some H.264 or AAC track
is a video or an audio track. So a single H.264 or AAC track whose
initialization segment cannot be created makes `Start` return false, whatever
the other tracks are; tracks with another codec are skipped: whether their
initialization segment could be created plays no part. `AddPackager` fails
exactly when `CreateInitializationSegment` does. -/
theorem Start_succeeds_iff (env : Env) (application : Application) (s : LLHlsStream)
    (hstate : s.GetState = State.CREATED)
    (hworker : env.CreateStreamWorker s.worker_count = true)
    (hbase : (env.StreamStart State.CREATED).1 = true) :
    (∃ result after, s.Start env application = some (result, after) ∧
      (result = true ↔
        ((∀ track ∈ s.tracks, SupportedCodec track →
            ((Start.configure env application s).AddPackager env track
              (s.GetFirstTrack MediaType.Data)).1 = true) ∧
          ∃ track ∈ s.tracks, SupportedCodec track ∧
            (track.media_type = MediaType.Video ∨ track.media_type = MediaType.Audio))) ∧
      ((∃ track ∈ s.tracks, SupportedCodec track ∧
          ((Start.configure env application s).AddPackager env track
            (s.GetFirstTrack MediaType.Data)).1 = false) → result = false)) ∧
    (∀ (t : LLHlsStream) (media_track : MediaTrack) (data_track : Option MediaTrack),
      (t.AddPackager env media_track data_track).1
        = env.CreateInitializationSegment media_track data_track) := by
  refine ⟨?_, AddPackager_result env⟩
  have hall : (∀ track ∈ s.tracks, SupportedCodec track →
        ((Start.configure env application s).AddPackager env track
          (s.GetFirstTrack MediaType.Data)).1 = true)
      ↔ AllPackaged env (s.GetFirstTrack MediaType.Data) s.tracks := by
    unfold AllPackaged
    constructor
    · intro h track hmem hsupported
      rw [← AddPackager_result env (Start.configure env application s)]
      exact h track hmem hsupported
    · intro h track hmem hsupported
      rw [AddPackager_result]
      exact h track hmem hsupported
  have hfails : (∃ track ∈ s.tracks, SupportedCodec track ∧
        ((Start.configure env application s).AddPackager env track
          (s.GetFirstTrack MediaType.Data)).1 = false)
      → ¬ AllPackaged env (s.GetFirstTrack MediaType.Data) s.tracks := by
    rintro ⟨track, hmem, hsupported, hfalse⟩ hpackaged
    rw [AddPackager_result, hpackaged track hmem hsupported] at hfalse
    exact Bool.noConfusion hfalse
  obtain ⟨s2, hframe, hcases⟩ := Start_spec env application s hstate hworker
  rcases hcases with ⟨hnot, hstart⟩ | ⟨hpackaged, hnone, hstart⟩ | ⟨hpackaged, hsome, hstart⟩
  · refine ⟨false, s2, hstart, ?_, fun _ => rfl⟩
    rw [hall]
    constructor
    · intro h
      exact Bool.noConfusion h
    · intro h
      exact absurd h.1 hnot
  · refine ⟨false, s2, hstart, ?_, fun _ => rfl⟩
    constructor
    · intro h
      exact Bool.noConfusion h
    · intro h
      exact absurd h.2 ((FirstSupportedTrack_none s.tracks).mp hnone)
  · obtain ⟨cache, hinstall⟩ :=
      Start.install_total env s2 (FirstSupportedTrack s.tracks MediaType.Video)
        (FirstSupportedTrack s.tracks MediaType.Audio)
    rw [hinstall, Option.map_some'] at hstart
    have hresult : (Start.finish env application { s2 with master_playlists := cache }).1
        = true := by
      obtain ⟨storages, packagers, hs2⟩ := hframe
      have hcreated : s2.state = State.CREATED := by
        rw [hs2]
        exact hstate
      unfold Start.finish
      dsimp only
      rw [hcreated]
      exact hbase
    refine ⟨true, (Start.finish env application { s2 with master_playlists := cache }).2, ?_,
      ?_, ?_⟩
    · rw [hstart, ← hresult]
    · rw [hall]
      constructor
      · intro _
        refine ⟨hpackaged, ?_⟩
        by_contra hnone
        exact hsome ((FirstSupportedTrack_none s.tracks).mpr hnone)
      · intro _
        rfl
    · intro hfail
      exact absurd hpackaged (hfails hfail)

/-- C13, an instance: `Example.new_stream` is in state `CREATED`, and in
`Example.env` worker creation, `Stream::Start` and every
`CreateInitializationSegment` succeed; `Start` returns true. -/
theorem Start_succeeds_iff_witness :
    Example.new_stream.GetState = State.CREATED ∧
    Example.env.CreateStreamWorker Example.new_stream.worker_count = true ∧
    (Example.env.StreamStart State.CREATED).1 = true ∧
    (Example.new_stream.Start Example.env Example.application).map Prod.fst = some true ∧
    ∃ result after,
      Example.new_stream.Start Example.env Example.application = some (result, after) ∧
      (result = true ↔
        ((∀ track ∈ Example.new_stream.tracks, SupportedCodec track →
            ((Start.configure Example.env Example.application Example.new_stream).AddPackager
              Example.env track (Example.new_stream.GetFirstTrack MediaType.Data)).1 = true) ∧
          ∃ track ∈ Example.new_stream.tracks, SupportedCodec track ∧
            (track.media_type = MediaType.Video ∨ track.media_type = MediaType.Audio))) ∧
      ((∃ track ∈ Example.new_stream.tracks, SupportedCodec track ∧
          ((Start.configure Example.env Example.application Example.new_stream).AddPackager
            Example.env track (Example.new_stream.GetFirstTrack MediaType.Data)).1 = false) →
        result = false) :=
  ⟨rfl, rfl, rfl, rfl,
    (Start_succeeds_iff Example.env Example.application Example.new_stream rfl rfl rfl).1⟩

end LLHlsStream

/-! ## The default playlist -/

namespace LLHlsStream

end LLHlsStream

/-! ## The side effects of the readiness transition -/

namespace LLHlsStream

end LLHlsStream

end LLHls
